import Mathlib

/-!
# Wumpus World: a shallow embedding of `src/components/WumpusWorld.jsx`

The React component keeps its state in independent `useState` cells.  Here the
cells are gathered in one record `GameState`, and every handler of the
component (`resetGame`, `movePlayer`, `shootArrow`, the move selection of
`runAI`) is a function from the state it closes over to the state that results
once all of its `setX` calls have been applied.  A handler called later than
the render that created it, as the timeout of `runAI` calls `movePlayer`, takes
two states: the one it closes over and the one its updates land on.

* `gridSize` is the constant of `useState(4)`; it has no setter, so it is a
  parameter of every function rather than a field of the state.
* The grid is the array of rows `world[y][x]`, a list of lists of cell codes.
* `Math.floor(Math.random() * gridSize)` is one draw from a random source; the
  source is the list of the draws it will deliver, and a placement loop that
  exhausts the list without leaving has not terminated on that source.
* The `while` loop of `shootArrow` is run with explicit fuel.
* The timers of autoplay are kept next to the state, each with the state of the
  render whose closure it runs (`AutoplaySystem`); clicks and timers are
  interleaved in `sessionRun`.
-/

namespace WumpusWorld

/-! ## Cell types and game states -/

abbrev EMPTY : Nat := 0
abbrev WUMPUS : Nat := 1
abbrev PIT : Nat := 2
abbrev GOLD : Nat := 3
abbrev BREEZE : Nat := 5
abbrev STENCH : Nat := 6

abbrev PLAYING : Nat := 0
abbrev WON : Nat := 1
abbrev LOST : Nat := 2

/-- The array of rows `world[y][x]`. -/
abbrev Grid := List (List Nat)

/-- The object `{ x, y }` held in `playerPosition`. -/
structure Position where
  x : Int
  y : Int
deriving DecidableEq, Repr

/-- The `useState` cells of the component, `gridSize` apart.  `visited` is the
object whose keys are the strings `"x,y"`; a key is kept as the pair it
prints, in insertion order. -/
structure GameState where
  world : Grid
  playerPosition : Position
  visited : List (Int × Int)
  gameState : Nat
  score : Int
  hasArrow : Bool
  message : String
  aiActive : Bool
  aiThinking : Bool
deriving DecidableEq, Repr

/-- The read `world[y][x]`; `none` stands for `undefined`.  Every read of the
source is behind a bounds check or uses freshly drawn coordinates. -/
def cellAt (world : Grid) (x y : Int) : Option Nat :=
  if x < 0 ∨ y < 0 then none
  else
    match world[y.toNat]? with
    | none => none
    | some row => row[x.toNat]?

/-- The write `world[y][x] = v` at a position inside the grid. -/
def setCell (world : Grid) (x y : Int) (v : Nat) : Grid :=
  if x < 0 ∨ y < 0 then world
  else
    match world[y.toNat]? with
    | none => world
    | some row => world.set y.toNat (row.set x.toNat v)

/-- The test `newX >= 0 && newX < gridSize && newY >= 0 && newY < gridSize`. -/
def inBounds (gridSize : Nat) (x y : Int) : Bool :=
  decide (0 ≤ x) && decide (x < (gridSize : Int)) && decide (0 ≤ y) && decide (y < (gridSize : Int))

/-- The update `{ ...prev, [key]: true }` of the visited object. -/
def markVisited (prev : List (Int × Int)) (x y : Int) : List (Int × Int) :=
  if (x, y) ∈ prev then prev else prev ++ [(x, y)]

/-- The lookup `visited[key] || false`. -/
def isVisited (visited : List (Int × Int)) (x y : Int) : Bool :=
  decide ((x, y) ∈ visited)

/-! ## movePlayer -/

/-- The handler `movePlayer(dx, dy)`. A handler is created by a render and
may be called later, as the timeout of `runAI` does: it reads `gameState`,
`playerPosition` and `world` from the render `closure` that created it, and
its updates land on the state `current` of the component at the time of the
call. `setVisited` and `setScore` update the current value; `setPlayerPosition`,
`setGameState` and `setMessage` overwrite it. -/
def movePlayerFrom (gridSize : Nat) (closure current : GameState) (dx dy : Int) : GameState :=
  if closure.gameState ≠ PLAYING then current
  else
    let newX := closure.playerPosition.x + dx
    let newY := closure.playerPosition.y + dy
    if inBounds gridSize newX newY then
      let cellContent := cellAt closure.world newX newY
      let s1 : GameState :=
        { current with
          visited := markVisited current.visited newX newY
          playerPosition := { x := newX, y := newY }
          score := current.score - 1 }
      if cellContent = some WUMPUS then
        { s1 with gameState := LOST, message := "You were eaten by the Wumpus! Game over." }
      else if cellContent = some PIT then
        { s1 with gameState := LOST, message := "You fell into a pit! Game over." }
      else if cellContent = some GOLD then
        { s1 with
          gameState := WON
          score := s1.score + 1000
          message := "You found the gold! You win!" }
      else if cellContent = some BREEZE then
        { s1 with message := "You feel a breeze. There must be a pit nearby." }
      else if cellContent = some STENCH then
        { s1 with message := "You smell a stench. The Wumpus must be nearby." }
      else
        { s1 with message := "All is quiet..." }
    else current

/-- The call `movePlayer(dx, dy)` made by a click on a move button: the handler
is the one of the render on screen, so the state it reads is the state it
updates. The call made by the timeout of `runAI` is `movePlayerFrom`. -/
def movePlayer (gridSize : Nat) (s : GameState) (dx dy : Int) : GameState :=
  movePlayerFrom gridSize s s dx dy

/-! ## shootArrow -/

/-- The `while` loop of `shootArrow`, from the arrow position `(arrowX, arrowY)`.
`s` is the state after `setHasArrow(false)` and `setScore(prev => prev - 10)`,
`world` the grid the handler closed over.  One unit of fuel is spent on every
evaluation of the loop condition; `none` means the fuel ran out. -/
def arrowLoop (gridSize : Nat) (world : Grid) (dx dy : Int) (s : GameState) :
    Nat → Int → Int → Option GameState
  | 0, _, _ => none
  | fuel + 1, arrowX, arrowY =>
    if inBounds gridSize arrowX arrowY then
      let arrowX := arrowX + dx
      let arrowY := arrowY + dy
      if arrowX < 0 ∨ arrowX ≥ (gridSize : Int) ∨ arrowY < 0 ∨ arrowY ≥ (gridSize : Int) then
        some { s with message := "Your arrow disappears into the darkness." }
      else if cellAt world arrowX arrowY = some WUMPUS then
        some { s with
          world := setCell world arrowX arrowY EMPTY
          message := "You killed the Wumpus!"
          score := s.score + 500 }
      else arrowLoop gridSize world dx dy s fuel arrowX arrowY
    else some s

/-- The handler `shootArrow(dx, dy)`, its loop run with `fuel`. Its only callers
are the shoot buttons, so the state it reads is the state it updates. -/
def shootArrow (gridSize fuel : Nat) (s : GameState) (dx dy : Int) : Option GameState :=
  if !s.hasArrow || s.gameState ≠ PLAYING then some s
  else
    arrowLoop gridSize s.world dx dy { s with hasArrow := false, score := s.score - 10 }
      fuel s.playerPosition.x s.playerPosition.y

/-- The number of steps after which an arrow at `(ax, ay)` has left the grid. -/
def exitSteps (gridSize : Nat) (dx dy ax ay : Int) : Int :=
  if dx = 1 then gridSize - ax
  else if dx = -1 then ax + 1
  else if dy = 1 then gridSize - ay
  else ay + 1

/-- The four direction vectors wired to the buttons: Up, Right, Down, Left. -/
def unitDirections : List (Int × Int) := [(0, -1), (1, 0), (0, 1), (-1, 0)]

/-- One command of the player. -/
inductive Command where
  | move (dx dy : Int)
  | shoot (dx dy : Int)
deriving DecidableEq, Repr

/-- The state after one command. -/
def applyCommand (gridSize fuel : Nat) (s : GameState) : Command → Option GameState
  | Command.move dx dy => some (movePlayer gridSize s dx dy)
  | Command.shoot dx dy => shootArrow gridSize fuel s dx dy

/-- The state after a sequence of commands, first command first. -/
def applyCommands (gridSize fuel : Nat) (s : GameState) : List Command → Option GameState
  | [] => some s
  | c :: cs =>
    match applyCommand gridSize fuel s c with
    | none => none
    | some s1 => applyCommands gridSize fuel s1 cs

/-! ## resetGame: grid generation -/

/-- The grid of `Array(gridSize).fill().map(() => Array(gridSize).fill(EMPTY))`. -/
def emptyWorld (gridSize : Nat) : Grid :=
  List.replicate gridSize (List.replicate gridSize EMPTY)

/-- The loop `do { wumpusX = draw; wumpusY = draw } while (wumpusX === 0 && wumpusY === 0)`:
the accepted coordinates and the draws left, `none` when the draws run out. -/
def drawWumpus : List Nat → Option (Nat × Nat × List Nat)
  | wumpusX :: wumpusY :: rest =>
    if wumpusX = 0 ∧ wumpusY = 0 then drawWumpus rest else some (wumpusX, wumpusY, rest)
  | _ => none

/-- The loop `do { pitX = draw; pitY = draw }
while ((pitX === 0 && pitY === 0) || newWorld[pitY][pitX] !== EMPTY)`, which also places the gold. -/
def drawFree (newWorld : Grid) : List Nat → Option (Nat × Nat × List Nat)
  | pitX :: pitY :: rest =>
    if (pitX = 0 ∧ pitY = 0) ∨ cellAt newWorld pitX pitY ≠ some EMPTY then drawFree newWorld rest
    else some (pitX, pitY, rest)
  | _ => none

/-- The loop `for (let i = 0; i < numPits; i++)`, with the number of rounds still to run. -/
def placePits (newWorld : Grid) : Nat → List Nat → Option (Grid × List Nat)
  | 0, draws => some (newWorld, draws)
  | rounds + 1, draws =>
    match drawFree newWorld draws with
    | none => none
    | some (pitX, pitY, rest) => placePits (setCell newWorld pitX pitY PIT) rounds rest

/-- The value of `Math.floor(gridSize * gridSize * 0.2)`. -/
def numPits (gridSize : Nat) : Nat := gridSize * gridSize / 5

/-- The helper `placeSensor(world, x, y, sensorType)`. -/
def placeSensor (gridSize : Nat) (world : Grid) (x y : Int) (sensorType : Nat) : Grid :=
  ([(-1, 0), (1, 0), (0, -1), (0, 1)] : List (Int × Int)).foldl
    (fun world d =>
      let newX := x + d.1
      let newY := y + d.2
      if inBounds gridSize newX newY then
        if cellAt world newX newY = some EMPTY then setCell world newX newY sensorType else world
      else world)
    world

/-- The body of the inner loop of the sensor scan, at cell `(x, y)`. -/
def scanCell (gridSize : Nat) (newWorld : Grid) (x y : Nat) : Grid :=
  if cellAt newWorld x y = some PIT then placeSensor gridSize newWorld x y BREEZE
  else if cellAt newWorld x y = some WUMPUS then placeSensor gridSize newWorld x y STENCH
  else newWorld

/-- The scan `for (y ...) for (x ...)` that places breezes and stenches. -/
def placeSensors (gridSize : Nat) (newWorld : Grid) : Grid :=
  (List.range gridSize).foldl
    (fun world y => (List.range gridSize).foldl (fun world x => scanCell gridSize world x y) world)
    newWorld

/-- The grid built by `resetGame` from the draws of the random source; each
draw is one value of `Math.floor(Math.random() * gridSize)`. -/
def generateWorld (gridSize : Nat) (draws : List Nat) : Option Grid :=
  match drawWumpus draws with
  | none => none
  | some (wumpusX, wumpusY, rest) =>
    match placePits (setCell (emptyWorld gridSize) wumpusX wumpusY WUMPUS) (numPits gridSize) rest with
    | none => none
    | some (newWorld, rest) =>
      match drawFree newWorld rest with
      | none => none
      | some (goldX, goldY, _) =>
        some (placeSensors gridSize (setCell newWorld goldX goldY GOLD))

/-- The handler `resetGame()`, called in state `prior`. -/
def resetGame (gridSize : Nat) (_prior : GameState) (draws : List Nat) : Option GameState :=
  match generateWorld gridSize draws with
  | none => none
  | some newWorld =>
    some
      { world := newWorld
        playerPosition := { x := 0, y := 0 }
        visited := [(0, 0)]
        gameState := PLAYING
        score := 0
        hasArrow := true
        message := "Welcome to Wumpus World!"
        aiActive := false
        aiThinking := false }

/-- The number of cells of the grid that hold `c`. -/
def countCells (world : Grid) (c : Nat) : Nat :=
  (world.map (fun row => row.count c)).sum

/-- The grid has `gridSize` rows of `gridSize` cells. -/
def IsSquare (gridSize : Nat) (world : Grid) : Prop :=
  world.length = gridSize ∧ ∀ row ∈ world, row.length = gridSize

/-- The grid is square, holds the given numbers of Wumpus, Pit and Gold cells,
and its start cell holds none of them. -/
def Census (gridSize : Nat) (world : Grid) (wumpuses pits golds : Nat) : Prop :=
  IsSquare gridSize world ∧ countCells world WUMPUS = wumpuses ∧
    countCells world PIT = pits ∧ countCells world GOLD = golds ∧
    cellAt world 0 0 ≠ some WUMPUS ∧ cellAt world 0 0 ≠ some PIT ∧ cellAt world 0 0 ≠ some GOLD

/-- The cell `(x, y)` holds none of Wumpus, Pit and Gold: a move onto it does not end the game. -/
def Quiet (world : Grid) (x y : Int) : Prop :=
  cellAt world x y ≠ some WUMPUS ∧ cellAt world x y ≠ some PIT ∧ cellAt world x y ≠ some GOLD

/-- The state of the component before its first `resetGame`: the initial values of `useState`. -/
def initialState : GameState :=
  { world := []
    playerPosition := { x := 0, y := 0 }
    visited := []
    gameState := PLAYING
    score := 0
    hasArrow := true
    message := "Welcome to Wumpus World!"
    aiActive := false
    aiThinking := false }

/-- A random source: Wumpus at (2,1), pits at (1,1), (3,3), (0,3), gold at (2,2). -/
def sampleDraws : List Nat := [2, 1, 1, 1, 3, 3, 0, 3, 2, 2]

/-- The grid `generateWorld 4 sampleDraws`. -/
def sampleWorld : Grid :=
  [[0, 5, 6, 0], [5, 2, 1, 6], [5, 5, 3, 5], [2, 5, 5, 2]]

/-- The state `resetGame` returns on `sampleDraws`. -/
def sampleState : GameState :=
  { initialState with world := sampleWorld, visited := [(0, 0)] }

/-- The state reached from `sampleState` by two moves Right: the player at (2,0). -/
def scoutState : GameState :=
  { sampleState with
    playerPosition := { x := 2, y := 0 }
    visited := [(0, 0), (1, 0), (2, 0)]
    score := -2
    message := "You smell a stench. The Wumpus must be nearby." }

/-- The scenario of the spec: Right, Right, Up, Up, then shoot Up. -/
def scenarioCommands : List Command :=
  [Command.move 1 0, Command.move 1 0, Command.move 0 (-1), Command.move 0 (-1),
    Command.shoot 0 (-1)]

/-! ## runAI: the move selection -/

/-- One entry `{ dx, dy, name }` of the `directions` array of `runAI`. -/
structure Move where
  dx : Int
  dy : Int
  name : String
deriving DecidableEq, Repr

/-- The array `directions` of `runAI`. -/
def directions : List Move :=
  [{ dx := 0, dy := -1, name := "up" }, { dx := 1, dy := 0, name := "right" },
   { dx := 0, dy := 1, name := "down" }, { dx := -1, dy := 0, name := "left" }]

/-- The array `validMoves` of `runAI`. -/
def validMoves (gridSize : Nat) (s : GameState) : List Move :=
  directions.filter fun m =>
    inBounds gridSize (s.playerPosition.x + m.dx) (s.playerPosition.y + m.dy)

/-- The comparison function handed to `sort` in `runAI`. -/
def compareMoves (s : GameState) (a b : Move) : Int :=
  let aX := s.playerPosition.x + a.dx
  let aY := s.playerPosition.y + a.dy
  let bX := s.playerPosition.x + b.dx
  let bY := s.playerPosition.y + b.dy
  let aVisited := isVisited s.visited aX aY
  let bVisited := isVisited s.visited bX bY
  let aContent := cellAt s.world aX aY
  let bContent := cellAt s.world bX bY
  if aContent = some GOLD then -1
  else if bContent = some GOLD then 1
  else if aContent = some WUMPUS ∨ aContent = some PIT then 1
  else if bContent = some WUMPUS ∨ bContent = some PIT then -1
  else if aVisited = true ∧ bVisited = false then 1
  else if aVisited = false ∧ bVisited = true then -1
  else if (aContent = some BREEZE ∨ aContent = some STENCH) ∧
      (bContent ≠ some BREEZE ∧ bContent ≠ some STENCH) then 1
  else if (bContent = some BREEZE ∨ bContent = some STENCH) ∧
      (aContent ≠ some BREEZE ∧ aContent ≠ some STENCH) then -1
  else 0

/-!
### Array.prototype.sort

`sort` is a builtin of the JavaScript engine.  ECMAScript fixes its result only
for a consistent comparison function, and `compareMoves` is not one (two hazard
cells each compare greater than the other), so the result depends on the
engine.  The definitions below follow V8 (Chrome, Node.js): its sort is a
TimSort which, on an array of fewer than 64 elements, finds the run at the
start of the array (`CountAndMakeRun`) and inserts the remaining elements by
binary insertion (`BinaryInsertionSort`).  `validMoves` has at most four
elements.
-/

section ArraySort

variable {α : Type}

/-- The loop of `CountAndMakeRun` that extends the run past `previousElement`:
the number of further elements in the run. -/
def runTail (comparefn : α → α → Int) (isDescending : Bool) : α → List α → Nat
  | _, [] => 0
  | previousElement, currentElement :: rest =>
    let order := comparefn currentElement previousElement
    if isDescending then
      if order ≥ 0 then 0 else 1 + runTail comparefn isDescending currentElement rest
    else
      if order < 0 then 0 else 1 + runTail comparefn isDescending currentElement rest

/-- V8 `CountAndMakeRun` on the whole array: the length of the run at its
start, and the array with that run reversed when it was strictly descending. -/
def countAndMakeRun (comparefn : α → α → Int) (work : List α) : Nat × List α :=
  match work with
  | [] => (0, work)
  | [_] => (1, work)
  | elementHigh :: elementLow :: rest =>
    let order := comparefn elementLow elementHigh
    let isDescending := decide (order < 0)
    let runLength := 2 + runTail comparefn isDescending elementLow rest
    if isDescending then (runLength, (work.take runLength).reverse ++ work.drop runLength)
    else (runLength, work)

/-- The binary search of V8 `BinaryInsertionSort`: `while (left < right)` with
`mid = left + ((right - left) >> 1)`; the final `left`. -/
def insertionPoint (comparefn : α → α → Int) (work : List α) (pivot : α) :
    Nat → Nat → Nat → Nat
  | 0, left, _ => left
  | fuel + 1, left, right =>
    if left < right then
      let mid := left + (right - left) / 2
      match work[mid]? with
      | none => left
      | some element =>
        if comparefn pivot element < 0 then insertionPoint comparefn work pivot fuel left mid
        else insertionPoint comparefn work pivot fuel (mid + 1) right
    else left

/-- The outer loop `for (; start < high; ++start)` of V8 `BinaryInsertionSort`,
with `rounds = high - start`: the pivot `work[start]` is moved to its insertion
point among `work[0 .. start)`. -/
def binaryInsertionSort (comparefn : α → α → Int) : Nat → Nat → List α → List α
  | _, 0, work => work
  | start, rounds + 1, work =>
    match work[start]? with
    | none => work
    | some pivot =>
      let left := insertionPoint comparefn work pivot start 0 start
      binaryInsertionSort comparefn (start + 1) rounds
        (work.take left ++ pivot :: (work.take start).drop left ++ work.drop (start + 1))

/-- The call `items.sort(comparefn)` on an array of fewer than 64 elements. -/
def arraySort (comparefn : α → α → Int) (items : List α) : List α :=
  if items.length < 2 then items
  else
    let run := countAndMakeRun comparefn items
    binaryInsertionSort comparefn run.1 (items.length - run.1) run.2

end ArraySort

/-- The array `prioritizedMoves` of `runAI`. -/
def prioritizedMoves (gridSize : Nat) (s : GameState) : List Move :=
  arraySort (compareMoves s) (validMoves gridSize s)

/-- The move `runAI` executes, `prioritizedMoves[0]`; `none` when there is no valid move. -/
def bestMove (gridSize : Nat) (s : GameState) : Option Move :=
  (prioritizedMoves gridSize s).head?

/-! ### What the comparison function sees of a candidate -/

/-- The part of a destination that `compareMoves` tests: Gold, a hazard (Wumpus
or Pit), or anything else together with its visited flag and whether it holds
a Breeze or Stench marker. -/
inductive Rank where
  | gold
  | hazard
  | other (visited warning : Bool)
deriving DecidableEq, Repr

/-- The rank of a destination with content `content` and visited flag `visited`. -/
def rankOf (content : Option Nat) (visited : Bool) : Rank :=
  if content = some GOLD then Rank.gold
  else if content = some WUMPUS ∨ content = some PIT then Rank.hazard
  else Rank.other visited (decide (content = some BREEZE ∨ content = some STENCH))

/-- The rank of the destination of move `m` in state `s`. -/
def moveRank (s : GameState) (m : Move) : Rank :=
  rankOf (cellAt s.world (s.playerPosition.x + m.dx) (s.playerPosition.y + m.dy))
    (isVisited s.visited (s.playerPosition.x + m.dx) (s.playerPosition.y + m.dy))

/-- The comparison of `compareMoves`, on ranks. -/
def compareRanks : Rank → Rank → Int
  | Rank.gold, _ => -1
  | _, Rank.gold => 1
  | Rank.hazard, _ => 1
  | _, Rank.hazard => -1
  | Rank.other aVisited aWarning, Rank.other bVisited bWarning =>
    if aVisited = true ∧ bVisited = false then 1
    else if aVisited = false ∧ bVisited = true then -1
    else if aWarning = true ∧ bWarning = false then 1
    else if bWarning = true ∧ aWarning = false then -1
    else 0

/-- A candidate as the sort sees it: its direction vector and its rank. -/
abbrev Keyed := Int × Int × Rank

/-- The comparison of two keyed candidates. -/
def compareKeyed (a b : Keyed) : Int := compareRanks a.2.2 b.2.2

/-- The key of move `m` in state `s`. -/
def moveKey (s : GameState) (m : Move) : Keyed := (m.dx, m.dy, moveRank s m)

/-- The rank of the destination of `m` when it is in bounds. -/
def validRank (gridSize : Nat) (s : GameState) (m : Move) : Option Rank :=
  if inBounds gridSize (s.playerPosition.x + m.dx) (s.playerPosition.y + m.dy) then
    some (moveRank s m)
  else none

/-- The keyed candidates, in the order Up, Right, Down, Left, given the rank of
each in-bounds destination (`none` for a destination out of bounds). -/
def keyedMoves (up right down left : Option Rank) : List Keyed :=
  ([((0, -1), up), ((1, 0), right), ((0, 1), down), ((-1, 0), left)] :
      List ((Int × Int) × Option Rank)).filterMap
    fun p => p.2.map fun r => (p.1.1, p.1.2, r)

/-- The keyed candidates of state `s`: the keys of `validMoves`, in its order. -/
def stateKeys (gridSize : Nat) (s : GameState) : List Keyed :=
  keyedMoves (validRank gridSize s { dx := 0, dy := -1, name := "up" })
    (validRank gridSize s { dx := 1, dy := 0, name := "right" })
    (validRank gridSize s { dx := 0, dy := 1, name := "down" })
    (validRank gridSize s { dx := -1, dy := 0, name := "left" })

/-! ### The selection, stated without the sort -/

/-- The place of a rank in the order of preference of the ranking: Gold, then
unvisited without marker, unvisited with marker, visited without marker,
visited with marker, and hazards last. -/
def rankCost : Rank → Nat
  | Rank.gold => 0
  | Rank.other false false => 1
  | Rank.other false true => 2
  | Rank.other true false => 3
  | Rank.other true true => 4
  | Rank.hazard => 5

/-- The first candidate of least `rankCost`, in the order of the list. -/
def firstBest : List Keyed → Option Keyed
  | [] => none
  | k :: ks =>
    match firstBest ks with
    | none => some k
    | some b => if rankCost k.2.2 ≤ rankCost b.2.2 then some k else some b

/-- The ranks a destination can have, and `none` for a destination out of bounds. -/
def allRanks : List (Option Rank) :=
  [none, some Rank.gold, some Rank.hazard, some (Rank.other false false),
    some (Rank.other false true), some (Rank.other true false), some (Rank.other true true)]

/-- The test `p` holds for every choice of the four ranks from `allRanks`. -/
def checkAll (p : Option Rank → Option Rank → Option Rank → Option Rank → Bool) : Bool :=
  allRanks.all fun up => allRanks.all fun right => allRanks.all fun down =>
    allRanks.all fun left => p up right down left

/-- The sorted candidates are in order of `rankCost`; their head is a candidate
of least `rankCost`, and it is the first such candidate unless two or more
candidates are Gold; there is no head only when there is no candidate. -/
def sortIsRanked (up right down left : Option Rank) : Bool :=
  decide ((arraySort compareKeyed (keyedMoves up right down left)).Pairwise
    fun a b => rankCost a.2.2 ≤ rankCost b.2.2) &&
  match (arraySort compareKeyed (keyedMoves up right down left)).head? with
  | none => (keyedMoves up right down left).isEmpty
  | some h =>
    decide (h ∈ keyedMoves up right down left) &&
    (keyedMoves up right down left).all (fun k => decide (rankCost h.2.2 ≤ rankCost k.2.2)) &&
    (decide (2 ≤ [up, right, down, left].count (some Rank.gold)) ||
      decide (firstBest (keyedMoves up right down left) = some h))

/-- A state on `sampleWorld` with the player at (1,2): a Pit above, the Gold to
the right, an unvisited Breeze below and the visited cell (0,2) to the left. -/
def besideGoldState : GameState :=
  { sampleState with
    playerPosition := { x := 1, y := 2 }
    visited := [(0, 0), (0, 1), (0, 2), (1, 2)]
    score := -3
    message := "You feel a breeze. There must be a pit nearby." }


/-- What every state reached from a reset state satisfies. -/
def Sound (gridSize : Nat) (s : GameState) : Prop :=
  inBounds gridSize s.playerPosition.x s.playerPosition.y = true ∧
    (s.playerPosition.x, s.playerPosition.y) ∈ s.visited ∧
    countCells s.world WUMPUS ≤ 1 ∧
    (s.gameState = PLAYING → Quiet s.world s.playerPosition.x s.playerPosition.y)


/-- The place of a direction vector in the enumeration Up, Right, Down, Left. -/
def dirIndex (d : Int × Int) : Nat :=
  if d = (0, -1) then 0 else if d = (1, 0) then 1 else if d = (0, 1) then 2 else 3

/-- Among the candidates of the same rank as the first best candidate, none
comes before it in the enumeration. -/
def firstBestIsEarliest (up right down left : Option Rank) : Bool :=
  match firstBest (keyedMoves up right down left) with
  | none => true
  | some h =>
    (keyedMoves up right down left).all fun k =>
      !(decide (k.2.2 = h.2.2)) || decide (dirIndex (h.1, h.2.1) ≤ dirIndex (k.1, k.2.1))

/-- A random source: Wumpus at (2,2), pits at (1,0), (0,1), (3,3), gold at (3,0). -/
def cornerDraws : List Nat := [2, 2, 1, 0, 0, 1, 3, 3, 3, 0]

/-- The grid `generateWorld 4 cornerDraws`: pits to the right of and below the start. -/
def cornerWorld : Grid :=
  [[5, 2, 5, 3], [2, 5, 6, 0], [5, 6, 1, 6], [0, 0, 6, 2]]

/-- The state `resetGame` returns on `cornerDraws`. -/
def cornerState : GameState :=
  { initialState with world := cornerWorld, visited := [(0, 0)] }

/-- The grid `resetGame` has built when it starts to place breezes and
stenches: the Wumpus, the pits and the gold are placed. -/
def placeHazards (gridSize : Nat) (draws : List Nat) : Option Grid :=
  match drawWumpus draws with
  | none => none
  | some (wumpusX, wumpusY, rest) =>
    match placePits (setCell (emptyWorld gridSize) wumpusX wumpusY WUMPUS) (numPits gridSize) rest with
    | none => none
    | some (newWorld, rest) =>
      match drawFree newWorld rest with
      | none => none
      | some (goldX, goldY, _) => some (setCell newWorld goldX goldY GOLD)

/-- The cells in the order the scan `for (y ...) for (x ...)` visits them. -/
def scanOrder (gridSize : Nat) : List (Nat × Nat) :=
  ((List.range gridSize).map fun y => (List.range gridSize).map fun x => (x, y)).flatten

/-- The sensor the scan places around a cell of content `c`: Breeze around a
Pit, Stench around the Wumpus, nothing around any other cell. -/
def sensorOf (c : Option Nat) : Option Nat :=
  if c = some PIT then some BREEZE else if c = some WUMPUS then some STENCH else none

/-- The array `directions` of `placeSensor`. -/
def sensorOffsets : List (Int × Int) := [(-1, 0), (1, 0), (0, -1), (0, 1)]

/-- The sensor that the scan, at cell `p`, writes into cell `c` when `c` is an
Empty cell of the grid: the sensor of `p` when `c` is a 4-neighbour of `p`. -/
def emits (world : Grid) (c : Int × Int) (p : Nat × Nat) : Option Nat :=
  if (c.1 - (p.1 : Int), c.2 - (p.2 : Int)) ∈ sensorOffsets then
    sensorOf (cellAt world (p.1 : Int) (p.2 : Int))
  else none

/-- The offsets of the 4-neighbours of a cell in the order in which the
row-major scan visits them: above, left, right, below. -/
def scanNeighbours : List (Int × Int) := [(0, -1), (-1, 0), (1, 0), (0, 1)]

/-- The sensor of the first hazard among the in-bounds 4-neighbours of `(x, y)`,
in row-major order; `none` when no neighbour is a hazard. -/
def firstSensor (gridSize : Nat) (world : Grid) (x y : Int) : Option Nat :=
  scanNeighbours.findSome? fun d =>
    if inBounds gridSize (x + d.1) (y + d.2) then sensorOf (cellAt world (x + d.1) (y + d.2))
    else none

/-- Row-major order of cells: an earlier row, or the same row and an earlier column. -/
def RowMajor (a b : Nat × Nat) : Prop :=
  a.2 < b.2 ∨ (a.2 = b.2 ∧ a.1 < b.1)

/-- The in-bounds 4-neighbours of `(x, y)`, in row-major order. -/
def neighbourCells (gridSize : Nat) (x y : Int) : List (Nat × Nat) :=
  scanNeighbours.filterMap fun d =>
    if inBounds gridSize (x + d.1) (y + d.2) then some ((x + d.1).toNat, (y + d.2).toNat)
    else none

/-- Every cell of the grid holds Empty, Wumpus, Pit or Gold. -/
def OnlyPlaced (world : Grid) : Prop :=
  ∀ (x y : Int) (c : Nat), cellAt world x y = some c →
    c = EMPTY ∨ c = WUMPUS ∨ c = PIT ∨ c = GOLD

/-- The grid `placeHazards 4 cornerDraws`. -/
def cornerHazards : Grid :=
  [[0, 2, 0, 3], [2, 0, 0, 0], [0, 0, 1, 0], [0, 0, 0, 2]]

/-- The grid `placeHazards 4 sampleDraws`. -/
def sampleHazards : Grid :=
  [[0, 0, 0, 0], [0, 2, 1, 0], [0, 0, 3, 0], [2, 0, 0, 2]]

/-! ## Autoplay: the effect, its timer and the timeout of runAI -/

/-- The component together with its pending timers. `preTimer` is the timer
`setTimeout(runAI, 1500)` of the effect, `thinkTimers` are the timers
`setTimeout(..., 1000)` started by `runAI`, oldest first; each is kept with
the state of the render whose `runAI` it runs. -/
structure AutoplaySystem where
  game : GameState
  preTimer : Option GameState
  thinkTimers : List GameState
deriving DecidableEq, Repr

/-- What can happen to the component while autoplay is in use. -/
inductive AutoplayEvent where
  | toggle
  | reset (draws : List Nat)
  | preFires
  | thinkFires
deriving DecidableEq, Repr

/-- The effect `useEffect(..., [aiActive, playerPosition, gameState, aiThinking])`
after a render: when a dependency has changed, the cleanup of the last run
clears its timer, and a new timer for `runAI` is set when autoplay is active,
the game is Playing and the AI is not thinking. -/
def runEffect (depsChanged : Bool) (a : AutoplaySystem) : AutoplaySystem :=
  if depsChanged then
    { a with
      preTimer :=
        if a.game.aiActive && a.game.gameState == PLAYING && !a.game.aiThinking then some a.game
        else none }
  else a

/-- The callback of the timeout of `runAI`, created in render `closure`, run on state `current`. -/
def thinkCallback (gridSize : Nat) (closure current : GameState) : GameState :=
  let moved :=
    match bestMove gridSize closure with
    | some m =>
      movePlayerFrom gridSize closure
        { current with message := "AI chose to move " ++ m.name } m.dx m.dy
    | none => current
  { moved with aiThinking := false }

/-- Whether the callback of the timeout of `runAI` calls `setPlayerPosition`,
which hands the effect a new `playerPosition` object. -/
def thinkSetsPosition (gridSize : Nat) (closure : GameState) : Bool :=
  match bestMove gridSize closure with
  | some m =>
    closure.gameState == PLAYING &&
      inBounds gridSize (closure.playerPosition.x + m.dx) (closure.playerPosition.y + m.dy)
  | none => false

/-- One event of the component with its timers; `none` when `resetGame` does not return. -/
def autoplayStep (gridSize : Nat) (a : AutoplaySystem) : AutoplayEvent → Option AutoplaySystem
  | AutoplayEvent.toggle =>
    if a.game.gameState ≠ PLAYING then some a
    else some (runEffect true { a with game := { a.game with aiActive := !a.game.aiActive } })
  | AutoplayEvent.reset draws =>
    match resetGame gridSize a.game draws with
    | none => none
    | some s => some (runEffect true { a with game := s })
  | AutoplayEvent.preFires =>
    match a.preTimer with
    | none => some a
    | some closure =>
      if closure.gameState ≠ PLAYING ∨ closure.aiThinking = true then
        some { a with preTimer := none }
      else
        some (runEffect (!a.game.aiThinking)
          { game := { a.game with aiThinking := true }
            preTimer := none
            thinkTimers := a.thinkTimers ++ [closure] })
  | AutoplayEvent.thinkFires =>
    match a.thinkTimers with
    | [] => some a
    | closure :: rest =>
      some (runEffect
        (thinkSetsPosition gridSize closure ||
          (thinkCallback gridSize closure a.game).gameState != a.game.gameState ||
          a.game.aiThinking)
        { a with game := thinkCallback gridSize closure a.game, thinkTimers := rest })

/-- The component after a sequence of events. -/
def autoplayRun (gridSize : Nat) (a : AutoplaySystem) : List AutoplayEvent → Option AutoplaySystem
  | [] => some a
  | e :: es =>
    match autoplayStep gridSize a e with
    | none => none
    | some a1 => autoplayRun gridSize a1 es

/-! ## Clicks and autoplay in one session -/

/-- A click on a move or shoot button, or an event of autoplay. -/
inductive SessionEvent where
  | click (c : Command)
  | autoplay (e : AutoplayEvent)
deriving DecidableEq, Repr

/-- One event of a play session. A click runs the handler of the current
render, so `movePlayer` and `shootArrow` read the state they update; the
timeout of `runAI` runs `movePlayerFrom` with the state of the render that
started it (`autoplayStep`). A move that sets `playerPosition` hands the effect
a new object and makes it run again; a shot changes none of the dependencies
of the effect, so a pending timer keeps the `runAI` of the render before the
shot. `none` when a handler does not return. -/
def sessionStep (gridSize fuel : Nat) (a : AutoplaySystem) : SessionEvent → Option AutoplaySystem
  | SessionEvent.click (Command.move dx dy) =>
    some (runEffect
      (a.game.gameState == PLAYING &&
        inBounds gridSize (a.game.playerPosition.x + dx) (a.game.playerPosition.y + dy))
      { a with game := movePlayer gridSize a.game dx dy })
  | SessionEvent.click (Command.shoot dx dy) =>
    match shootArrow gridSize fuel a.game dx dy with
    | none => none
    | some s => some (runEffect false { a with game := s })
  | SessionEvent.autoplay e => autoplayStep gridSize a e

/-- The component and its timers after a sequence of clicks and autoplay events. -/
def sessionRun (gridSize fuel : Nat) (a : AutoplaySystem) :
    List SessionEvent → Option AutoplaySystem
  | [] => some a
  | e :: es =>
    match sessionStep gridSize fuel a e with
    | none => none
    | some a1 => sessionRun gridSize fuel a1 es

/-- A random source: Wumpus at (1,0), pits at (0,1), (3,3), (2,2), gold at (3,0). -/
def besideWumpusDraws : List Nat := [1, 0, 0, 1, 3, 3, 2, 2, 3, 0]

/-- A random source: Wumpus at (2,2), pits at (3,3), (0,3), (3,0), gold at (1,0). -/
def goldRightDraws : List Nat := [2, 2, 3, 3, 0, 3, 3, 0, 1, 0]

/-! ## Reading and writing cells -/

theorem cellAt_setCell_self (world : Grid) (x y : Int) (v : Nat)
    (h : cellAt world x y ≠ none) : cellAt (setCell world x y v) x y = some v := by
  unfold cellAt setCell at *
  by_cases hneg : x < 0 ∨ y < 0
  · simp [hneg] at h
  · simp only [hneg, if_false] at h ⊢
    cases hrow : world[y.toNat]? with
    | none => simp [hrow] at h
    | some row =>
      simp only [hrow] at h ⊢
      have hy : y.toNat < world.length := by
        by_contra hc
        rw [List.getElem?_eq_none (by omega)] at hrow
        cases hrow
      have hx : x.toNat < row.length := by
        by_contra hc
        exact h (List.getElem?_eq_none (by omega))
      simp [List.getElem?_set, hy, hx]

theorem cellAt_setCell_other (world : Grid) (x y x1 y1 : Int) (v : Nat)
    (h : (x1, y1) ≠ (x, y)) : cellAt (setCell world x y v) x1 y1 = cellAt world x1 y1 := by
  unfold cellAt setCell
  by_cases hneg : x < 0 ∨ y < 0
  · simp [hneg]
  · by_cases hneg1 : x1 < 0 ∨ y1 < 0
    · simp [hneg1]
    · simp only [hneg, hneg1, if_false]
      cases hrow : world[y.toNat]? with
      | none => simp
      | some row =>
        simp only []
        by_cases hy : y.toNat = y1.toNat
        · have hx : x.toNat ≠ x1.toNat := by
            intro hx
            apply h
            have : x1 = x := by omega
            have : y1 = y := by omega
            simp [*]
          rw [← hy]
          rw [List.getElem?_set]
          simp only [if_true]
          have hy : y.toNat < world.length := by
            by_contra hc
            rw [List.getElem?_eq_none (by omega)] at hrow
            cases hrow
          simp [hy, hrow, List.getElem?_set, hx]
        · rw [List.getElem?_set]
          simp [hy]

theorem inBounds_iff (gridSize : Nat) (x y : Int) :
    inBounds gridSize x y = true ↔ 0 ≤ x ∧ x < gridSize ∧ 0 ≤ y ∧ y < gridSize := by
  simp [inBounds, and_assoc]

/-! ## The flight of the arrow -/

/-- The two ways the loop of `shootArrow` ends when run from a cell of the grid
in a unit direction with enough fuel: it kills the first Wumpus on the ray, or
there is no Wumpus on the ray and the arrow leaves the grid. -/
theorem arrowLoop_unit (gridSize : Nat) (world : Grid) (dx dy : Int)
    (hdir : (dx, dy) ∈ unitDirections) (s : GameState) :
    ∀ (fuel : Nat) (ax ay : Int), inBounds gridSize ax ay = true →
      exitSteps gridSize dx dy ax ay ≤ fuel →
      (∃ k : Nat, 1 ≤ k ∧ inBounds gridSize (ax + k * dx) (ay + k * dy) = true ∧
          cellAt world (ax + k * dx) (ay + k * dy) = some WUMPUS ∧
          (∀ j : Nat, 1 ≤ j → j < k → cellAt world (ax + j * dx) (ay + j * dy) ≠ some WUMPUS) ∧
          arrowLoop gridSize world dx dy s fuel ax ay =
            some { s with
              world := setCell world (ax + k * dx) (ay + k * dy) EMPTY
              message := "You killed the Wumpus!"
              score := s.score + 500 }) ∨
      ((∀ k : Nat, 1 ≤ k → inBounds gridSize (ax + k * dx) (ay + k * dy) = true →
          cellAt world (ax + k * dx) (ay + k * dy) ≠ some WUMPUS) ∧
        arrowLoop gridSize world dx dy s fuel ax ay =
          some { s with message := "Your arrow disappears into the darkness." }) := by
  intro fuel
  induction fuel with
  | zero =>
    intro ax ay hin hfuel
    rw [inBounds_iff] at hin
    simp only [unitDirections, List.mem_cons, Prod.mk.injEq, List.mem_singleton,
      List.not_mem_nil, or_false] at hdir
    rcases hdir with ⟨rfl, rfl⟩ | ⟨rfl, rfl⟩ | ⟨rfl, rfl⟩ | ⟨rfl, rfl⟩ <;>
      simp [exitSteps] at hfuel <;> omega
  | succ fuel ih =>
    intro ax ay hin hfuel
    have hin' := (inBounds_iff gridSize ax ay).1 hin
    by_cases hout : ax + dx < 0 ∨ ax + dx ≥ (gridSize : Int) ∨ ay + dy < 0 ∨ ay + dy ≥ (gridSize : Int)
    · right
      refine ⟨?_, ?_⟩
      · intro k hk hkin
        exfalso
        rw [inBounds_iff] at hkin
        simp only [unitDirections, List.mem_cons, Prod.mk.injEq, List.mem_singleton,
          List.not_mem_nil, or_false] at hdir
        rcases hdir with ⟨rfl, rfl⟩ | ⟨rfl, rfl⟩ | ⟨rfl, rfl⟩ | ⟨rfl, rfl⟩ <;> omega
      · simp [arrowLoop, hin, hout]
    · by_cases hw : cellAt world (ax + dx) (ay + dy) = some WUMPUS
      · left
        refine ⟨1, le_refl 1, ?_, ?_, ?_, ?_⟩
        · rw [inBounds_iff]; omega
        · simpa using hw
        · intro j h1 h2; omega
        · simp [arrowLoop, hin, hout, hw]
      · have hin1 : inBounds gridSize (ax + dx) (ay + dy) = true := by
          rw [inBounds_iff]; omega
        have hfuel1 : exitSteps gridSize dx dy (ax + dx) (ay + dy) ≤ fuel := by
          simp only [unitDirections, List.mem_cons, Prod.mk.injEq, List.mem_singleton,
            List.not_mem_nil, or_false] at hdir
          rcases hdir with ⟨rfl, rfl⟩ | ⟨rfl, rfl⟩ | ⟨rfl, rfl⟩ | ⟨rfl, rfl⟩ <;>
            simp [exitSteps] at hfuel ⊢ <;> omega
        have hstep : arrowLoop gridSize world dx dy s (fuel + 1) ax ay =
            arrowLoop gridSize world dx dy s fuel (ax + dx) (ay + dy) := by
          simp [arrowLoop, hin, hout, hw]
        have hshift : ∀ k : Nat, ax + dx + (k : Int) * dx = ax + ((k + 1 : Nat) : Int) * dx ∧
            ay + dy + (k : Int) * dy = ay + ((k + 1 : Nat) : Int) * dy := by
          intro k; constructor <;> (push_cast; ring)
        rcases ih (ax + dx) (ay + dy) hin1 hfuel1 with ⟨k, hk, hkin, hkw, hfirst, hres⟩ | ⟨hnone, hres⟩
        · left
          refine ⟨k + 1, by omega, ?_, ?_, ?_, ?_⟩
          · rw [← (hshift k).1, ← (hshift k).2]; exact hkin
          · rw [← (hshift k).1, ← (hshift k).2]; exact hkw
          · intro j h1 h2
            by_cases hj : j = 1
            · subst hj; simpa using hw
            · have := hfirst (j - 1) (by omega) (by omega)
              rw [(hshift (j - 1)).1, (hshift (j - 1)).2] at this
              have hj' : j - 1 + 1 = j := by omega
              rw [hj'] at this
              exact this
          · rw [hstep, hres, ← (hshift k).1, ← (hshift k).2]
        · right
          refine ⟨?_, ?_⟩
          · intro k hk hkin
            by_cases hj : k = 1
            · subst hj; simpa using hw
            · have hk' : k - 1 + 1 = k := by omega
              have := hnone (k - 1) (by omega)
              rw [(hshift (k - 1)).1, (hshift (k - 1)).2, hk'] at this
              exact this hkin
          · rw [hstep, hres]


theorem exitSteps_le (gridSize : Nat) (dx dy ax ay : Int)
    (hdir : (dx, dy) ∈ unitDirections) (hin : inBounds gridSize ax ay = true) :
    exitSteps gridSize dx dy ax ay ≤ gridSize := by
  rw [inBounds_iff] at hin
  simp only [unitDirections, List.mem_cons, Prod.mk.injEq, List.mem_singleton,
    List.not_mem_nil, or_false] at hdir
  rcases hdir with ⟨rfl, rfl⟩ | ⟨rfl, rfl⟩ | ⟨rfl, rfl⟩ | ⟨rfl, rfl⟩ <;>
    simp [exitSteps] <;> omega

theorem shootArrow_armed (gridSize fuel : Nat) (s : GameState) (dx dy : Int)
    (hplay : s.gameState = PLAYING) (harrow : s.hasArrow = true) :
    shootArrow gridSize fuel s dx dy =
      arrowLoop gridSize s.world dx dy { s with hasArrow := false, score := s.score - 10 }
        fuel s.playerPosition.x s.playerPosition.y := by
  simp [shootArrow, hplay, harrow]

/-- C2. In a Playing state with the arrow available and the player inside the
grid, a shot in one of the four unit directions (with fuel for `gridSize`
rounds of the loop) returns a state. If a Wumpus cell lies on the ray at step
`k ≥ 1` with no Wumpus nearer on the ray, that cell becomes Empty, every other
cell is unchanged and the score grows by 490; if no in-bounds cell of the ray
holds a Wumpus, the grid is unchanged and the score drops by 10. Nothing is
asked of the other cells of the ray: pits, gold and sensors do not stop the
arrow. -/
theorem shootArrow_ray (gridSize fuel : Nat) (s : GameState) (dx dy : Int)
    (hdir : (dx, dy) ∈ unitDirections) (hplay : s.gameState = PLAYING)
    (harrow : s.hasArrow = true)
    (hpos : inBounds gridSize s.playerPosition.x s.playerPosition.y = true)
    (hfuel : gridSize ≤ fuel) :
    ∃ s1, shootArrow gridSize fuel s dx dy = some s1 ∧
      (∀ k : Nat, 1 ≤ k →
        inBounds gridSize (s.playerPosition.x + k * dx) (s.playerPosition.y + k * dy) = true →
        cellAt s.world (s.playerPosition.x + k * dx) (s.playerPosition.y + k * dy) = some WUMPUS →
        (∀ j : Nat, 1 ≤ j → j < k →
          cellAt s.world (s.playerPosition.x + j * dx) (s.playerPosition.y + j * dy)
            ≠ some WUMPUS) →
        cellAt s1.world (s.playerPosition.x + k * dx) (s.playerPosition.y + k * dy) = some EMPTY ∧
        (∀ x y : Int, (x, y) ≠ (s.playerPosition.x + k * dx, s.playerPosition.y + k * dy) →
          cellAt s1.world x y = cellAt s.world x y) ∧
        s1.score = s.score + 490) ∧
      ((∀ k : Nat, 1 ≤ k →
        inBounds gridSize (s.playerPosition.x + k * dx) (s.playerPosition.y + k * dy) = true →
        cellAt s.world (s.playerPosition.x + k * dx) (s.playerPosition.y + k * dy) ≠ some WUMPUS) →
        s1.world = s.world ∧ s1.score = s.score - 10) := by
  have hsteps : exitSteps gridSize dx dy s.playerPosition.x s.playerPosition.y ≤ (fuel : Int) :=
    le_trans (exitSteps_le gridSize dx dy _ _ hdir hpos) (by exact_mod_cast hfuel)
  rw [shootArrow_armed gridSize fuel s dx dy hplay harrow]
  rcases arrowLoop_unit gridSize s.world dx dy hdir
      { s with hasArrow := false, score := s.score - 10 } fuel _ _ hpos hsteps with
    ⟨k0, hk0, hin0, hw0, hfirst0, hres⟩ | ⟨hnone, hres⟩
  · refine ⟨_, hres, ?_, ?_⟩
    · intro k hk hin hw hfirst
      have hkk : k = k0 := by
        rcases Nat.lt_trichotomy k k0 with hlt | heq | hgt
        · exact absurd hw (hfirst0 k hk hlt)
        · exact heq
        · exact absurd hw0 (hfirst k0 hk0 hgt)
      subst hkk
      refine ⟨?_, ?_, ?_⟩
      · exact cellAt_setCell_self _ _ _ _ (by rw [hw]; simp)
      · intro x y hne
        exact cellAt_setCell_other _ _ _ _ _ _ hne
      · show s.score - 10 + 500 = s.score + 490
        omega
    · intro hno
      exact absurd hw0 (hno k0 hk0 hin0)
  · refine ⟨_, hres, ?_, ?_⟩
    · intro k hk hin hw hfirst
      exact absurd hw (hnone k hk hin)
    · intro _
      exact ⟨rfl, rfl⟩

/-- A click on a move button returns the state it was given whenever the
status is not Playing or the destination lies outside the grid. -/
theorem movePlayer_noop (gridSize : Nat) (s : GameState) (dx dy : Int)
    (h : s.gameState ≠ PLAYING ∨
      inBounds gridSize (s.playerPosition.x + dx) (s.playerPosition.y + dy) = false) :
    movePlayer gridSize s dx dy = s := by
  unfold movePlayer movePlayerFrom
  rcases h with h | h
  · simp [h]
  · simp [h]

theorem movePlayer_terminal (gridSize : Nat) (s : GameState) (dx dy : Int)
    (h : s.gameState ≠ PLAYING) : movePlayer gridSize s dx dy = s := by
  simp [movePlayer, movePlayerFrom, h]

theorem shootArrow_terminal (gridSize fuel : Nat) (s : GameState) (dx dy : Int)
    (h : s.gameState ≠ PLAYING) : shootArrow gridSize fuel s dx dy = some s := by
  simp [shootArrow, h]

theorem applyCommands_terminal (gridSize fuel : Nat) (s : GameState)
    (h : s.gameState ≠ PLAYING) (cmds : List Command) :
    applyCommands gridSize fuel s cmds = some s := by
  induction cmds with
  | nil => rfl
  | cons c cs ih =>
    cases c with
    | move dx dy => simp [applyCommands, applyCommand, movePlayer_terminal _ _ _ _ h, ih]
    | shoot dx dy => simp [applyCommands, applyCommand, shootArrow_terminal _ _ _ _ _ h, ih]

/-- Clicks only: a click that moves a Playing state onto an in-bounds Wumpus or
Pit cell sets the status to Lost; and from a state whose status is Lost or Won
every sequence of clicks on the move and shoot buttons, in any directions and
with any fuel, returns that same state. -/
theorem hazard_loses_and_terminal_frozen (gridSize fuel : Nat) (s : GameState) (dx dy : Int)
    (cmds : List Command) :
    (s.gameState = PLAYING →
      inBounds gridSize (s.playerPosition.x + dx) (s.playerPosition.y + dy) = true →
      (cellAt s.world (s.playerPosition.x + dx) (s.playerPosition.y + dy) = some WUMPUS ∨
        cellAt s.world (s.playerPosition.x + dx) (s.playerPosition.y + dy) = some PIT) →
      (movePlayer gridSize s dx dy).gameState = LOST ∧
        applyCommands gridSize fuel (movePlayer gridSize s dx dy) cmds =
          some (movePlayer gridSize s dx dy)) ∧
    (s.gameState = LOST ∨ s.gameState = WON → applyCommands gridSize fuel s cmds = some s) := by
  constructor
  · intro hplay hin hcell
    have hlost : (movePlayer gridSize s dx dy).gameState = LOST := by
      unfold movePlayer movePlayerFrom
      rcases hcell with hc | hc <;> simp [hplay, hin, hc]
    exact ⟨hlost, applyCommands_terminal _ _ _ (by rw [hlost]; decide) _⟩
  · intro h
    exact applyCommands_terminal _ _ _ (by rcases h with h | h <;> rw [h] <;> decide) _

/-- A click that moves a Playing state onto an in-bounds Gold cell sets the
status to Won and leaves the score at the score before the move plus 999. -/
theorem movePlayer_gold (gridSize : Nat) (s : GameState) (dx dy : Int)
    (hplay : s.gameState = PLAYING)
    (hin : inBounds gridSize (s.playerPosition.x + dx) (s.playerPosition.y + dy) = true)
    (hgold : cellAt s.world (s.playerPosition.x + dx) (s.playerPosition.y + dy) = some GOLD) :
    (movePlayer gridSize s dx dy).gameState = WON ∧
      (movePlayer gridSize s dx dy).score = s.score + 999 := by
  unfold movePlayer movePlayerFrom
  simp [hplay, hin, hgold]
  omega

/-- C7. A shot in a unit direction from a Playing state with the arrow
available returns a state whose arrow flag is false, and a second shot, in any
direction and with any fuel, returns that state unchanged; more generally
`shootArrow` returns the state it was given whenever the arrow has been used. -/
theorem shootArrow_second_noop (gridSize fuel fuel2 : Nat) (s : GameState) (dx1 dy1 dx2 dy2 : Int)
    (hdir : (dx1, dy1) ∈ unitDirections) (hplay : s.gameState = PLAYING)
    (harrow : s.hasArrow = true)
    (hpos : inBounds gridSize s.playerPosition.x s.playerPosition.y = true)
    (hfuel : gridSize ≤ fuel) :
    (∃ s1, shootArrow gridSize fuel s dx1 dy1 = some s1 ∧ s1.hasArrow = false ∧
      shootArrow gridSize fuel2 s1 dx2 dy2 = some s1) ∧
    (∀ t : GameState, t.hasArrow = false → shootArrow gridSize fuel2 t dx2 dy2 = some t) := by
  have hused : ∀ t : GameState, t.hasArrow = false →
      shootArrow gridSize fuel2 t dx2 dy2 = some t := by
    intro t ht
    simp [shootArrow, ht]
  refine ⟨?_, hused⟩
  have hsteps : exitSteps gridSize dx1 dy1 s.playerPosition.x s.playerPosition.y ≤ (fuel : Int) :=
    le_trans (exitSteps_le gridSize dx1 dy1 _ _ hdir hpos) (by exact_mod_cast hfuel)
  rw [shootArrow_armed gridSize fuel s dx1 dy1 hplay harrow]
  rcases arrowLoop_unit gridSize s.world dx1 dy1 hdir
      { s with hasArrow := false, score := s.score - 10 } fuel _ _ hpos hsteps with
    ⟨k0, _, _, _, _, hres⟩ | ⟨_, hres⟩
  · exact ⟨_, hres, rfl, hused _ rfl⟩
  · exact ⟨_, hres, rfl, hused _ rfl⟩


/-! ## Counting cells through a write -/

theorem count_set_add (l : List Nat) (j old v c : Nat) (h : l[j]? = some old) :
    (l.set j v).count c + (if old = c then 1 else 0) = l.count c + (if v = c then 1 else 0) := by
  induction l generalizing j with
  | nil => simp at h
  | cons a l ih =>
    cases j with
    | zero =>
      simp only [List.getElem?_cons_zero, Option.some.injEq] at h
      subst h
      simp only [List.set_cons_zero, List.count_cons, beq_iff_eq]
      omega
    | succ j =>
      simp only [List.getElem?_cons_succ] at h
      have := ih j h
      simp only [List.set_cons_succ, List.count_cons]
      omega

theorem sum_map_set {β : Type} (f : β → Nat) (l : List β) (i : Nat) (old new : β)
    (h : l[i]? = some old) :
    ((l.set i new).map f).sum + f old = (l.map f).sum + f new := by
  induction l generalizing i with
  | nil => simp at h
  | cons a l ih =>
    cases i with
    | zero =>
      simp only [List.getElem?_cons_zero, Option.some.injEq] at h
      subst h
      simp only [List.set_cons_zero, List.map_cons, List.sum_cons]
      omega
    | succ i =>
      simp only [List.getElem?_cons_succ] at h
      have := ih i h
      simp only [List.set_cons_succ, List.map_cons, List.sum_cons]
      omega

theorem cellAt_eq_some (world : Grid) (x y : Int) (c : Nat) (h : cellAt world x y = some c) :
    0 ≤ x ∧ 0 ≤ y ∧ ∃ row, world[y.toNat]? = some row ∧ row[x.toNat]? = some c := by
  unfold cellAt at h
  by_cases hneg : x < 0 ∨ y < 0
  · simp [hneg] at h
  · simp only [hneg, if_false] at h
    cases hrow : world[y.toNat]? with
    | none => simp [hrow] at h
    | some row =>
      simp only [hrow] at h
      exact ⟨by omega, by omega, row, rfl, h⟩

theorem countCells_setCell (world : Grid) (x y : Int) (old v c : Nat)
    (h : cellAt world x y = some old) :
    countCells (setCell world x y v) c + (if old = c then 1 else 0) =
      countCells world c + (if v = c then 1 else 0) := by
  obtain ⟨hx, hy, row, hrow, hcell⟩ := cellAt_eq_some world x y old h
  have hneg : ¬ (x < 0 ∨ y < 0) := by omega
  have h1 := sum_map_set (fun r : List Nat => r.count c) world y.toNat row (row.set x.toNat v) hrow
  have h2 := count_set_add row x.toNat old v c hcell
  simp only [countCells, setCell, hneg, if_false, hrow]
  simp only at h1
  omega

theorem isSquare_setCell (gridSize : Nat) (world : Grid) (x y : Int) (v : Nat)
    (h : IsSquare gridSize world) : IsSquare gridSize (setCell world x y v) := by
  unfold setCell
  by_cases hneg : x < 0 ∨ y < 0
  · simpa [hneg] using h
  · simp only [hneg, if_false]
    cases hrow : world[y.toNat]? with
    | none => exact h
    | some row =>
      refine ⟨by simpa using h.1, ?_⟩
      intro r hr
      rcases List.mem_or_eq_of_mem_set hr with hr | hr
      · exact h.2 r hr
      · subst hr
        simpa using h.2 row (List.getElem?_mem hrow)

theorem isSquare_emptyWorld (gridSize : Nat) : IsSquare gridSize (emptyWorld gridSize) := by
  refine ⟨by simp [emptyWorld], ?_⟩
  intro r hr
  rw [emptyWorld, List.mem_replicate] at hr
  rw [hr.2]
  simp

theorem cellAt_of_isSquare (gridSize : Nat) (world : Grid) (x y : Int)
    (h : IsSquare gridSize world) (hin : inBounds gridSize x y = true) :
    ∃ c, cellAt world x y = some c := by
  rw [inBounds_iff] at hin
  have hy : y.toNat < world.length := by rw [h.1]; omega
  have hx : x.toNat < (world[y.toNat]).length := by
    rw [h.2 _ (List.getElem_mem hy)]; omega
  refine ⟨(world[y.toNat])[x.toNat], ?_⟩
  have hneg : ¬ (x < 0 ∨ y < 0) := by omega
  simp [cellAt, hneg, List.getElem?_eq_getElem hy, List.getElem?_eq_getElem hx]

theorem cellAt_emptyWorld (gridSize : Nat) (x y : Int) (c : Nat)
    (h : cellAt (emptyWorld gridSize) x y = some c) : c = EMPTY := by
  obtain ⟨_, _, row, hrow, hcell⟩ := cellAt_eq_some _ x y c h
  have hr : row = List.replicate gridSize EMPTY :=
    (List.mem_replicate.1 (List.getElem?_mem hrow)).2
  subst hr
  exact (List.mem_replicate.1 (List.getElem?_mem hcell)).2

theorem countCells_emptyWorld (gridSize c : Nat) (hc : c ≠ EMPTY) :
    countCells (emptyWorld gridSize) c = 0 := by
  unfold countCells emptyWorld
  have hrow : (List.replicate gridSize EMPTY).count c = 0 := by
    rw [List.count_replicate]
    simp [Ne.symm hc]
  simp [List.map_replicate, hrow]


/-! ## The census of a grid under construction -/

theorem census_setCell (gridSize : Nat) (world : Grid) (a b c : Nat) (x y : Int) (v : Nat)
    (h : Census gridSize world a b c) (hcell : cellAt world x y = some EMPTY)
    (hv : (x, y) ≠ (0, 0) ∨ (v ≠ WUMPUS ∧ v ≠ PIT ∧ v ≠ GOLD)) :
    Census gridSize (setCell world x y v)
      (a + if v = WUMPUS then 1 else 0) (b + if v = PIT then 1 else 0)
      (c + if v = GOLD then 1 else 0) := by
  obtain ⟨hsq, ha, hb, hc, h1, h2, h3⟩ := h
  have ca := countCells_setCell world x y EMPTY v WUMPUS hcell
  have cb := countCells_setCell world x y EMPTY v PIT hcell
  have cc := countCells_setCell world x y EMPTY v GOLD hcell
  simp only [show ¬ (EMPTY = WUMPUS) by decide, show ¬ (EMPTY = PIT) by decide,
    show ¬ (EMPTY = GOLD) by decide, if_false, Nat.add_zero] at ca cb cc
  refine ⟨isSquare_setCell _ _ _ _ _ hsq, by omega, by omega, by omega, ?_⟩
  by_cases h00 : ((0 : Int), (0 : Int)) = (x, y)
  · have hx : x = 0 := by simpa using (congrArg Prod.fst h00).symm
    have hy : y = 0 := by simpa using (congrArg Prod.snd h00).symm
    subst hx; subst hy
    rcases hv with hv | ⟨hv1, hv2, hv3⟩
    · exact absurd rfl hv
    · rw [cellAt_setCell_self _ _ _ _ (by rw [hcell]; simp)]
      simp only [ne_eq, Option.some.injEq]
      exact ⟨hv1, hv2, hv3⟩
  · rw [cellAt_setCell_other _ _ _ _ _ _ h00]
    exact ⟨h1, h2, h3⟩

theorem foldl_keeps {β γ : Type} (Q : β → Prop) (f : β → γ → β)
    (hf : ∀ b c, Q b → Q (f b c)) (l : List γ) (b : β) (h : Q b) : Q (l.foldl f b) := by
  induction l generalizing b with
  | nil => exact h
  | cons c l ih => exact ih _ (hf b c h)

/-- Whatever survives a write of a sensor into an Empty cell survives `placeSensor`. -/
theorem placeSensor_keeps (Q : Grid → Prop) (gridSize sensorType : Nat)
    (hQ : ∀ w x y, cellAt w x y = some EMPTY → Q w → Q (setCell w x y sensorType))
    (world : Grid) (x y : Int) (h : Q world) :
    Q (placeSensor gridSize world x y sensorType) := by
  unfold placeSensor
  apply foldl_keeps Q _ _ _ _ h
  intro w d hw
  simp only
  split
  · split
    · exact hQ _ _ _ (by assumption) hw
    · exact hw
  · exact hw

/-- Whatever survives a write of Breeze or Stench into an Empty cell survives the sensor scan. -/
theorem placeSensors_keeps (Q : Grid → Prop) (gridSize : Nat)
    (hQ : ∀ w x y v, (v = BREEZE ∨ v = STENCH) → cellAt w x y = some EMPTY → Q w →
      Q (setCell w x y v))
    (world : Grid) (h : Q world) : Q (placeSensors gridSize world) := by
  unfold placeSensors
  apply foldl_keeps Q _ _ _ _ h
  intro w y hw
  apply foldl_keeps Q _ _ _ _ hw
  intro w x hw
  unfold scanCell
  split
  · exact placeSensor_keeps Q gridSize BREEZE (fun w x y => hQ w x y BREEZE (Or.inl rfl)) _ _ _ hw
  · split
    · exact placeSensor_keeps Q gridSize STENCH (fun w x y => hQ w x y STENCH (Or.inr rfl)) _ _ _ hw
    · exact hw

theorem census_placeSensors (gridSize : Nat) (world : Grid) (a b c : Nat)
    (h : Census gridSize world a b c) : Census gridSize (placeSensors gridSize world) a b c := by
  apply placeSensors_keeps (fun w => Census gridSize w a b c) gridSize _ world h
  intro w x y v hv hcell hw
  have hv3 : v ≠ WUMPUS ∧ v ≠ PIT ∧ v ≠ GOLD := by
    rcases hv with rfl | rfl <;> decide
  have := census_setCell gridSize w a b c x y v hw hcell (Or.inr hv3)
  simpa [hv3.1, hv3.2.1, hv3.2.2] using this

theorem drawWumpus_some (draws : List Nat) (x y : Nat) (rest : List Nat)
    (h : drawWumpus draws = some (x, y, rest)) :
    x ∈ draws ∧ y ∈ draws ∧ ¬ (x = 0 ∧ y = 0) := by
  induction draws using drawWumpus.induct with
  | case1 wumpusX wumpusY tail hzero ih =>
    rw [drawWumpus, if_pos hzero] at h
    obtain ⟨h1, h2, h3⟩ := ih h
    exact ⟨List.mem_cons_of_mem _ (List.mem_cons_of_mem _ h1),
      List.mem_cons_of_mem _ (List.mem_cons_of_mem _ h2), h3⟩
  | case2 wumpusX wumpusY tail hzero =>
    rw [drawWumpus, if_neg hzero] at h
    simp only [Option.some.injEq, Prod.mk.injEq] at h
    obtain ⟨rfl, rfl, rfl⟩ := h
    exact ⟨by simp, by simp, hzero⟩
  | case3 draws hshort =>
    unfold drawWumpus at h
    split at h
    · exact absurd rfl (hshort _ _ _)
    · cases h

theorem drawFree_some (newWorld : Grid) (draws : List Nat) (x y : Nat) (rest : List Nat)
    (h : drawFree newWorld draws = some (x, y, rest)) :
    cellAt newWorld x y = some EMPTY ∧ ¬ (x = 0 ∧ y = 0) := by
  induction draws using drawFree.induct newWorld with
  | case1 pitX pitY tail hbusy ih =>
    rw [drawFree, if_pos hbusy] at h
    exact ih h
  | case2 pitX pitY tail hfree =>
    rw [drawFree, if_neg hfree] at h
    simp only [Option.some.injEq, Prod.mk.injEq] at h
    obtain ⟨rfl, rfl, rfl⟩ := h
    push_neg at hfree
    exact ⟨hfree.2, fun hc => hfree.1 hc.1 hc.2⟩
  | case3 draws hshort =>
    unfold drawFree at h
    split at h
    · exact absurd rfl (hshort _ _ _)
    · cases h

theorem census_placePits (gridSize : Nat) (a c : Nat) :
    ∀ (rounds : Nat) (world : Grid) (b : Nat) (draws : List Nat) (world1 : Grid) (rest : List Nat),
      Census gridSize world a b c → placePits world rounds draws = some (world1, rest) →
      Census gridSize world1 a (b + rounds) c := by
  intro rounds
  induction rounds with
  | zero =>
    intro world b draws world1 rest h hp
    simp only [placePits, Option.some.injEq, Prod.mk.injEq] at hp
    rw [← hp.1]
    exact h
  | succ rounds ih =>
    intro world b draws world1 rest h hp
    unfold placePits at hp
    cases hd : drawFree world draws with
    | none => simp [hd] at hp
    | some r =>
      obtain ⟨pitX, pitY, tail⟩ := r
      simp only [hd] at hp
      obtain ⟨hcell, hne⟩ := drawFree_some world draws pitX pitY tail hd
      have hne' : ((pitX : Int), (pitY : Int)) ≠ (0, 0) := by
        intro hc
        simp only [Prod.mk.injEq, Nat.cast_eq_zero] at hc
        exact hne hc
      have h1 := census_setCell gridSize world a b c pitX pitY PIT h hcell (Or.inl hne')
      simp only [show ¬ (PIT = WUMPUS) by decide, show ¬ (PIT = GOLD) by decide, if_false,
        if_true, Nat.add_zero] at h1
      have := ih _ _ _ _ _ h1 hp
      have e : b + 1 + rounds = b + (rounds + 1) := by omega
      rw [e] at this
      exact this


theorem census_generateWorld (gridSize : Nat) (draws : List Nat) (world : Grid)
    (hdraws : ∀ d ∈ draws, d < gridSize) (hgen : generateWorld gridSize draws = some world) :
    Census gridSize world 1 (numPits gridSize) 1 := by
  unfold generateWorld at hgen
  cases hw : drawWumpus draws with
  | none => simp [hw] at hgen
  | some r =>
    obtain ⟨wumpusX, wumpusY, rest⟩ := r
    simp only [hw] at hgen
    obtain ⟨hx, hy, hne⟩ := drawWumpus_some draws wumpusX wumpusY rest hw
    have hin : inBounds gridSize wumpusX wumpusY = true := by
      rw [inBounds_iff]
      have := hdraws _ hx
      have := hdraws _ hy
      omega
    have hcell : cellAt (emptyWorld gridSize) wumpusX wumpusY = some EMPTY := by
      obtain ⟨c, hc⟩ := cellAt_of_isSquare gridSize _ _ _ (isSquare_emptyWorld gridSize) hin
      rw [hc, cellAt_emptyWorld gridSize _ _ c hc]
    have h0 : Census gridSize (emptyWorld gridSize) 0 0 0 := by
      refine ⟨isSquare_emptyWorld gridSize, countCells_emptyWorld _ _ (by decide),
        countCells_emptyWorld _ _ (by decide), countCells_emptyWorld _ _ (by decide), ?_, ?_, ?_⟩ <;>
      · intro hc
        have := cellAt_emptyWorld gridSize _ _ _ hc
        revert this
        decide
    have hne' : ((wumpusX : Int), (wumpusY : Int)) ≠ (0, 0) := by
      intro hc
      simp only [Prod.mk.injEq, Nat.cast_eq_zero] at hc
      exact hne hc
    have h1 := census_setCell gridSize _ 0 0 0 wumpusX wumpusY WUMPUS h0 hcell (Or.inl hne')
    simp only [show ¬ (WUMPUS = PIT) by decide, show ¬ (WUMPUS = GOLD) by decide, if_false,
      if_true, Nat.add_zero, Nat.zero_add] at h1
    cases hp : placePits (setCell (emptyWorld gridSize) wumpusX wumpusY WUMPUS)
        (numPits gridSize) rest with
    | none => simp [hp] at hgen
    | some r2 =>
      obtain ⟨newWorld, rest2⟩ := r2
      simp only [hp] at hgen
      have h2 := census_placePits gridSize 1 0 _ _ 0 _ _ _ h1 hp
      rw [Nat.zero_add] at h2
      cases hg : drawFree newWorld rest2 with
      | none => simp [hg] at hgen
      | some r3 =>
        obtain ⟨goldX, goldY, rest3⟩ := r3
        simp only [hg, Option.some.injEq] at hgen
        obtain ⟨hgcell, hgne⟩ := drawFree_some newWorld rest2 goldX goldY rest3 hg
        have hgne' : ((goldX : Int), (goldY : Int)) ≠ (0, 0) := by
          intro hc
          simp only [Prod.mk.injEq, Nat.cast_eq_zero] at hc
          exact hgne hc
        have h3 := census_setCell gridSize _ 1 (numPits gridSize) 0 goldX goldY GOLD h2 hgcell
          (Or.inl hgne')
        simp only [show ¬ (GOLD = WUMPUS) by decide, show ¬ (GOLD = PIT) by decide, if_false,
          if_true, Nat.add_zero, Nat.zero_add] at h3
        rw [← hgen]
        exact census_placeSensors gridSize _ _ _ _ h3

/-- C1. On every random source whose draws lie below `gridSize` and on which
generation returns a grid, the grid is `gridSize × gridSize`, holds exactly
one Wumpus cell, exactly one Gold cell and exactly `gridSize² / 5` Pit cells
(3 when `gridSize = 4`), and its start cell (0,0) holds none of Wumpus, Pit
and Gold. -/
theorem generateWorld_census (gridSize : Nat) (draws : List Nat) (world : Grid)
    (hdraws : ∀ d ∈ draws, d < gridSize) (hgen : generateWorld gridSize draws = some world) :
    IsSquare gridSize world ∧ countCells world WUMPUS = 1 ∧ countCells world GOLD = 1 ∧
      countCells world PIT = gridSize * gridSize / 5 ∧
      (gridSize = 4 → countCells world PIT = 3) ∧
      cellAt world 0 0 ≠ some WUMPUS ∧ cellAt world 0 0 ≠ some PIT ∧
      cellAt world 0 0 ≠ some GOLD := by
  obtain ⟨hsq, hw, hp, hg, h1, h2, h3⟩ := census_generateWorld gridSize draws world hdraws hgen
  refine ⟨hsq, hw, hg, hp, ?_, h1, h2, h3⟩
  intro h4
  rw [hp, h4]
  rfl

/-- C8. Whatever the prior state, when generation returns a grid on the random
source, `resetGame` returns a state with score 0, the arrow available, status
Playing, the player at (0,0), visited exactly (0,0), the autoplay and thinking
flags false and that grid as its world; the state returned is the same for
every other prior state. -/
theorem resetGame_fresh (gridSize : Nat) (prior : GameState) (draws : List Nat) (world : Grid)
    (hgen : generateWorld gridSize draws = some world) :
    ∃ s, resetGame gridSize prior draws = some s ∧ s.score = 0 ∧ s.hasArrow = true ∧
      s.gameState = PLAYING ∧ s.playerPosition = { x := 0, y := 0 } ∧ s.visited = [(0, 0)] ∧
      s.aiActive = false ∧ s.aiThinking = false ∧ s.world = world ∧
      ∀ other : GameState, resetGame gridSize other draws = some s := by
  refine ⟨GameState.mk world (Position.mk 0 0) [(0, 0)] PLAYING 0 true
      "Welcome to Wumpus World!" false false,
    by simp only [resetGame, hgen], rfl, rfl, rfl, rfl, rfl, rfl, rfl, rfl, ?_⟩
  intro other
  simp only [resetGame, hgen]


/-! ## Moves that do not end the game, and the scenario of the spec -/

theorem movePlayer_world (gridSize : Nat) (s : GameState) (dx dy : Int) :
    (movePlayer gridSize s dx dy).world = s.world := by
  unfold movePlayer movePlayerFrom
  simp only
  repeat' split
  all_goals rfl

theorem movePlayer_sameRow (gridSize : Nat) (s : GameState) (dx : Int) :
    (movePlayer gridSize s dx 0).playerPosition.y = s.playerPosition.y := by
  unfold movePlayer movePlayerFrom
  simp only
  repeat' split
  all_goals simp

theorem movePlayer_outside (gridSize : Nat) (s : GameState) (dx dy : Int)
    (h : inBounds gridSize (s.playerPosition.x + dx) (s.playerPosition.y + dy) = false) :
    movePlayer gridSize s dx dy = s := by
  simp [movePlayer, movePlayerFrom, h]

theorem movePlayer_quiet (gridSize : Nat) (s : GameState) (dx dy : Int)
    (hplay : s.gameState = PLAYING)
    (hin : inBounds gridSize (s.playerPosition.x + dx) (s.playerPosition.y + dy) = true)
    (hq : Quiet s.world (s.playerPosition.x + dx) (s.playerPosition.y + dy)) :
    (movePlayer gridSize s dx dy).gameState = PLAYING ∧
      (movePlayer gridSize s dx dy).playerPosition =
        { x := s.playerPosition.x + dx, y := s.playerPosition.y + dy } ∧
      (movePlayer gridSize s dx dy).score = s.score - 1 ∧
      (movePlayer gridSize s dx dy).hasArrow = s.hasArrow := by
  obtain ⟨h1, h2, h3⟩ := hq
  unfold movePlayer movePlayerFrom
  simp only [hplay, hin, h1, h2, h3, ne_eq, not_true_eq_false, if_false, if_true]
  repeat' split
  all_goals exact ⟨rfl, rfl, rfl, rfl⟩

theorem shootArrow_up_rowZero (gridSize fuel : Nat) (s : GameState) (hy : s.playerPosition.y = 0)
    (hfuel : 1 ≤ fuel) :
    ∃ s1, shootArrow gridSize fuel s 0 (-1) = some s1 ∧ s1.world = s.world ∧
      (s.gameState = PLAYING → s.hasArrow = true → s1.score = s.score - 10) := by
  obtain ⟨f, rfl⟩ : ∃ f, fuel = f + 1 := ⟨fuel - 1, by omega⟩
  unfold shootArrow
  by_cases hg : (!s.hasArrow || decide (s.gameState ≠ PLAYING)) = true
  · refine ⟨s, by simp only [hg, if_true], rfl, ?_⟩
    intro hp ha
    simp [hp, ha] at hg
  · simp only [hg, Bool.false_eq_true, if_false]
    unfold arrowLoop
    rw [hy]
    by_cases hin : inBounds gridSize s.playerPosition.x 0 = true
    · have hout : s.playerPosition.x + 0 < 0 ∨ s.playerPosition.x + 0 ≥ (gridSize : Int) ∨
          (0 : Int) + -1 < 0 ∨ (0 : Int) + -1 ≥ (gridSize : Int) := by omega
      simp only [hin, if_true, hout]
      exact ⟨_, rfl, rfl, fun _ _ => rfl⟩
    · simp only [hin, Bool.false_eq_true, if_false]
      exact ⟨_, rfl, rfl, fun _ _ => rfl⟩

/-- C3 (as amended). From the freshly reset state of a generated 4×4 grid whose
Wumpus is at (2,1), the sequence Right, Right, Up, Up, shoot Up returns a state
whose grid is the generated grid, so cell (2,1) still holds the Wumpus, and
whose score is −12 when cells (1,0) and (2,0) hold none of Wumpus, Pit and
Gold. With shoot Down in place of shoot Up, and those two cells holding none of
Wumpus, Pit and Gold, the shot kills the Wumpus: cell (2,1) is Empty and the
score is 488. -/
theorem scenario_wumpus_below (prior : GameState) (draws : List Nat) (s : GameState) (fuel : Nat)
    (hreset : resetGame 4 prior draws = some s) (hw : cellAt s.world 2 1 = some WUMPUS)
    (hfuel : 4 ≤ fuel) :
    (∃ s1, applyCommands 4 fuel s
        [Command.move 1 0, Command.move 1 0, Command.move 0 (-1), Command.move 0 (-1),
          Command.shoot 0 (-1)] = some s1 ∧
      s1.world = s.world ∧ cellAt s1.world 2 1 = some WUMPUS ∧
      (Quiet s.world 1 0 → Quiet s.world 2 0 → s1.score = -12)) ∧
    (Quiet s.world 1 0 → Quiet s.world 2 0 →
      ∃ s2, applyCommands 4 fuel s
        [Command.move 1 0, Command.move 1 0, Command.move 0 (-1), Command.move 0 (-1),
          Command.shoot 0 1] = some s2 ∧
      cellAt s2.world 2 1 = some EMPTY ∧ s2.score = 488) := by
  have hs : s.playerPosition = { x := 0, y := 0 } ∧ s.gameState = PLAYING ∧ s.score = 0 ∧
      s.hasArrow = true := by
    unfold resetGame at hreset
    cases hg : generateWorld 4 draws with
    | none => simp [hg] at hreset
    | some w =>
      simp only [hg, Option.some.injEq] at hreset
      rw [← hreset]
      exact ⟨rfl, rfl, rfl, rfl⟩
  obtain ⟨hpos, hplay, hscore, harrow⟩ := hs
  have hx0 : s.playerPosition.x = 0 := by rw [hpos]
  have hy0 : s.playerPosition.y = 0 := by rw [hpos]
  -- the two moves Right stay in row 0, the two moves Up are out of bounds
  have hm1y : (movePlayer 4 s 1 0).playerPosition.y = 0 := by
    rw [movePlayer_sameRow, hy0]
  have hm2y : (movePlayer 4 (movePlayer 4 s 1 0) 1 0).playerPosition.y = 0 := by
    rw [movePlayer_sameRow, hm1y]
  have hup : movePlayer 4 (movePlayer 4 (movePlayer 4 s 1 0) 1 0) 0 (-1) =
      movePlayer 4 (movePlayer 4 s 1 0) 1 0 := by
    apply movePlayer_outside
    rw [hm2y]
    simp [inBounds]
  have hm2w : (movePlayer 4 (movePlayer 4 s 1 0) 1 0).world = s.world := by
    rw [movePlayer_world, movePlayer_world]
  have hquiet : Quiet s.world 1 0 → Quiet s.world 2 0 →
      (movePlayer 4 (movePlayer 4 s 1 0) 1 0).gameState = PLAYING ∧
      (movePlayer 4 (movePlayer 4 s 1 0) 1 0).playerPosition = { x := 2, y := 0 } ∧
      (movePlayer 4 (movePlayer 4 s 1 0) 1 0).score = -2 ∧
      (movePlayer 4 (movePlayer 4 s 1 0) 1 0).hasArrow = true := by
    intro hq1 hq2
    obtain ⟨a1, a2, a3, a4⟩ := movePlayer_quiet 4 s 1 0 hplay (by rw [hx0, hy0]; decide)
      (by rw [hx0, hy0]; exact hq1)
    rw [hx0, hy0] at a2
    have a2x : (movePlayer 4 s 1 0).playerPosition.x = 1 := by rw [a2]; rfl
    have a2y : (movePlayer 4 s 1 0).playerPosition.y = 0 := by rw [a2]; rfl
    obtain ⟨b1, b2, b3, b4⟩ := movePlayer_quiet 4 (movePlayer 4 s 1 0) 1 0 a1
      (by rw [a2x, a2y]; decide) (by rw [a2x, a2y, movePlayer_world]; exact hq2)
    rw [a2x, a2y] at b2
    refine ⟨b1, b2, ?_, ?_⟩
    · rw [b3, a3, hscore]; rfl
    · rw [b4, a4, harrow]
  constructor
  · obtain ⟨s1, h1, h2, h3⟩ := shootArrow_up_rowZero 4 fuel
      (movePlayer 4 (movePlayer 4 s 1 0) 1 0) hm2y (by omega)
    refine ⟨s1, ?_, ?_, ?_, ?_⟩
    · simp only [applyCommands, applyCommand, hup, h1]
    · rw [h2, hm2w]
    · rw [h2, hm2w, hw]
    · intro hq1 hq2
      obtain ⟨c1, _, c3, c4⟩ := hquiet hq1 hq2
      rw [h3 c1 c4, c3]
      rfl
  · intro hq1 hq2
    obtain ⟨c1, c2, c3, c4⟩ := hquiet hq1 hq2
    obtain ⟨f, rfl⟩ : ∃ f, fuel = f + 1 := ⟨fuel - 1, by omega⟩
    have hshoot : shootArrow 4 (f + 1) (movePlayer 4 (movePlayer 4 s 1 0) 1 0) 0 1 =
        some { movePlayer 4 (movePlayer 4 s 1 0) 1 0 with
          hasArrow := false
          world := setCell s.world 2 1 EMPTY
          message := "You killed the Wumpus!"
          score := -2 - 10 + 500 } := by
      rw [shootArrow_armed 4 (f + 1) _ 0 1 c1 c4]
      unfold arrowLoop
      simp [c2, c3, hm2w, hw, inBounds]
    simp only [applyCommands, applyCommand, hup, hshoot]
    refine ⟨_, rfl, ?_, ?_⟩
    · exact cellAt_setCell_self _ _ _ _ (by rw [hw]; simp)
    · rfl


/-! ## The sort commutes with relabelling -/

section ArraySortMap

variable {α β : Type} (f : α → β) (cmp : α → α → Int) (cmp1 : β → β → Int)

theorem runTail_map (h : ∀ a b, cmp a b = cmp1 (f a) (f b)) (d : Bool) (p : α) (xs : List α) :
    runTail cmp1 d (f p) (xs.map f) = runTail cmp d p xs := by
  induction xs generalizing p with
  | nil => rfl
  | cons x xs ih => simp only [List.map_cons, runTail, h, ih]

theorem countAndMakeRun_map (h : ∀ a b, cmp a b = cmp1 (f a) (f b)) (xs : List α) :
    countAndMakeRun cmp1 (xs.map f) =
      ((countAndMakeRun cmp xs).1, (countAndMakeRun cmp xs).2.map f) := by
  match xs with
  | [] => rfl
  | [_] => rfl
  | a :: b :: rest =>
    simp only [List.map_cons, countAndMakeRun, runTail_map f cmp cmp1 h, h]
    split <;> simp [List.map_take, List.map_drop, List.map_reverse]

theorem insertionPoint_map (h : ∀ a b, cmp a b = cmp1 (f a) (f b)) (work : List α) (pivot : α)
    (fuel left right : Nat) :
    insertionPoint cmp1 (work.map f) (f pivot) fuel left right =
      insertionPoint cmp work pivot fuel left right := by
  induction fuel generalizing left right with
  | zero => rfl
  | succ fuel ih =>
    simp only [insertionPoint, List.getElem?_map]
    split
    · cases hm : work[left + (right - left) / 2]? with
      | none => simp
      | some e => simp only [Option.map_some', h, ih]
    · rfl

theorem binaryInsertionSort_map (h : ∀ a b, cmp a b = cmp1 (f a) (f b)) (rounds start : Nat)
    (work : List α) :
    binaryInsertionSort cmp1 start rounds (work.map f) =
      (binaryInsertionSort cmp start rounds work).map f := by
  induction rounds generalizing start work with
  | zero => rfl
  | succ rounds ih =>
    simp only [binaryInsertionSort, List.getElem?_map]
    cases hp : work[start]? with
    | none => simp
    | some pivot =>
      simp only [Option.map_some', insertionPoint_map f cmp cmp1 h]
      rw [← ih]
      simp [List.map_take, List.map_drop]

theorem arraySort_map (h : ∀ a b, cmp a b = cmp1 (f a) (f b)) (xs : List α) :
    arraySort cmp1 (xs.map f) = (arraySort cmp xs).map f := by
  unfold arraySort
  simp only [List.length_map, countAndMakeRun_map f cmp cmp1 h]
  split
  · rfl
  · exact binaryInsertionSort_map f cmp cmp1 h _ _ _

end ArraySortMap

theorem compareMoves_eq (s : GameState) (a b : Move) :
    compareMoves s a b = compareKeyed (moveKey s a) (moveKey s b) := by
  simp only [compareMoves, compareKeyed, moveKey, moveRank, rankOf]
  generalize cellAt s.world (s.playerPosition.x + a.dx) (s.playerPosition.y + a.dy) = ca
  generalize cellAt s.world (s.playerPosition.x + b.dx) (s.playerPosition.y + b.dy) = cb
  generalize isVisited s.visited (s.playerPosition.x + a.dx) (s.playerPosition.y + a.dy) = va
  generalize isVisited s.visited (s.playerPosition.x + b.dx) (s.playerPosition.y + b.dy) = vb
  have e5 : (ca ≠ some BREEZE ∧ ca ≠ some STENCH) ↔ ¬ (ca = some BREEZE ∨ ca = some STENCH) := by
    tauto
  have e6 : (cb ≠ some BREEZE ∧ cb ≠ some STENCH) ↔ ¬ (cb = some BREEZE ∨ cb = some STENCH) := by
    tauto
  simp only [e5, e6]
  by_cases h1 : ca = some GOLD
  · simp [h1, compareRanks]
  by_cases h2 : cb = some GOLD
  · simp only [h1, h2, if_false, if_true]
    split <;> simp [compareRanks]
  by_cases h3 : ca = some WUMPUS ∨ ca = some PIT
  · simp only [h1, h2, h3, if_false, if_true]
    split <;> simp [compareRanks]
  by_cases h4 : cb = some WUMPUS ∨ cb = some PIT
  · simp only [h1, h2, h3, h4, if_false, if_true, compareRanks]
  simp only [h1, h2, h3, h4, if_false, compareRanks]
  by_cases h5 : ca = some BREEZE ∨ ca = some STENCH <;>
    by_cases h6 : cb = some BREEZE ∨ cb = some STENCH <;>
    cases va <;> cases vb <;> simp [h5, h6]

theorem validMoves_keyed (gridSize : Nat) (s : GameState) :
    (validMoves gridSize s).map (moveKey s) =
      keyedMoves (validRank gridSize s { dx := 0, dy := -1, name := "up" })
        (validRank gridSize s { dx := 1, dy := 0, name := "right" })
        (validRank gridSize s { dx := 0, dy := 1, name := "down" })
        (validRank gridSize s { dx := -1, dy := 0, name := "left" }) := by
  cases h0 : inBounds gridSize (s.playerPosition.x + 0) (s.playerPosition.y + -1) <;>
    cases h1 : inBounds gridSize (s.playerPosition.x + 1) (s.playerPosition.y + 0) <;>
    cases h2 : inBounds gridSize (s.playerPosition.x + 0) (s.playerPosition.y + 1) <;>
    cases h3 : inBounds gridSize (s.playerPosition.x + -1) (s.playerPosition.y + 0) <;>
    simp only [validMoves, directions, keyedMoves, validRank, List.filter_cons, List.filter_nil,
      List.filterMap_cons, List.filterMap_nil, h0, h1, h2, h3, if_true, if_false,
      Bool.false_eq_true, List.map_cons, List.map_nil, Option.map_some', Option.map_none',
      moveKey]

theorem prioritizedMoves_keyed (gridSize : Nat) (s : GameState) :
    (prioritizedMoves gridSize s).map (moveKey s) =
      arraySort compareKeyed
        (keyedMoves (validRank gridSize s { dx := 0, dy := -1, name := "up" })
          (validRank gridSize s { dx := 1, dy := 0, name := "right" })
          (validRank gridSize s { dx := 0, dy := 1, name := "down" })
          (validRank gridSize s { dx := -1, dy := 0, name := "left" })) := by
  rw [← validMoves_keyed, prioritizedMoves]
  exact (arraySort_map (moveKey s) (compareMoves s) compareKeyed (compareMoves_eq s) _).symm


/-! ## The head of the sorted candidates -/

theorem mem_allRanks (o : Option Rank) : o ∈ allRanks := by
  rcases o with _ | _ | _ | ⟨_ | _, _ | _⟩ <;> decide

theorem checkAll_apply (p : Option Rank → Option Rank → Option Rank → Option Rank → Bool)
    (h : checkAll p = true) (up right down left : Option Rank) : p up right down left = true := by
  simp only [checkAll, List.all_eq_true] at h
  exact h up (mem_allRanks up) right (mem_allRanks right) down (mem_allRanks down) left
    (mem_allRanks left)

set_option maxRecDepth 100000 in
theorem sortIsRanked_all : checkAll sortIsRanked = true := by
  decide!

/-- What V8's sort does with the candidates, for every arrangement of the four
destinations: the result is in order of `rankCost`, and its head is a candidate
of least `rankCost`, the first of them when at most one candidate is Gold. -/
theorem sorted_head (up right down left : Option Rank) :
    (arraySort compareKeyed (keyedMoves up right down left)).Pairwise
      (fun a b => rankCost a.2.2 ≤ rankCost b.2.2) ∧
    (keyedMoves up right down left ≠ [] →
      ∃ h, (arraySort compareKeyed (keyedMoves up right down left)).head? = some h) ∧
    ∀ h, (arraySort compareKeyed (keyedMoves up right down left)).head? = some h →
      h ∈ keyedMoves up right down left ∧
      (∀ k ∈ keyedMoves up right down left, rankCost h.2.2 ≤ rankCost k.2.2) ∧
      ([up, right, down, left].count (some Rank.gold) ≤ 1 →
        firstBest (keyedMoves up right down left) = some h) := by
  have hc := checkAll_apply sortIsRanked sortIsRanked_all up right down left
  unfold sortIsRanked at hc
  rw [Bool.and_eq_true, decide_eq_true_eq] at hc
  refine ⟨hc.1, ?_⟩
  replace hc := hc.2
  cases hh : (arraySort compareKeyed (keyedMoves up right down left)).head? with
  | none =>
    rw [hh] at hc
    simp only [List.isEmpty_iff] at hc
    exact ⟨fun hne => absurd hc hne, fun h hs => by cases hs⟩
  | some h0 =>
    rw [hh] at hc
    simp only [Bool.and_eq_true, Bool.or_eq_true, decide_eq_true_eq, List.all_eq_true] at hc
    refine ⟨fun _ => ⟨h0, rfl⟩, ?_⟩
    intro h hs
    cases hs
    refine ⟨hc.1.1, hc.1.2, ?_⟩
    intro hcount
    rcases hc.2 with h2 | h2
    · omega
    · exact h2


/-! ## From keyed candidates back to moves -/

theorem bestMove_key (gridSize : Nat) (s : GameState) :
    (bestMove gridSize s).map (moveKey s) =
      (arraySort compareKeyed (stateKeys gridSize s)).head? := by
  unfold bestMove stateKeys
  rw [← prioritizedMoves_keyed, List.head?_map]

theorem validRank_eq_some (gridSize : Nat) (s : GameState) (m : Move) (r : Rank) :
    validRank gridSize s m = some r ↔
      inBounds gridSize (s.playerPosition.x + m.dx) (s.playerPosition.y + m.dy) = true ∧
      r = moveRank s m := by
  unfold validRank
  split
  · simp only [Option.some.injEq, true_and, *]
    exact eq_comm
  · simp [*]

theorem mem_stateKeys (gridSize : Nat) (s : GameState) (k : Keyed) :
    k ∈ stateKeys gridSize s ↔
      (k.1, k.2.1) ∈ unitDirections ∧
      inBounds gridSize (s.playerPosition.x + k.1) (s.playerPosition.y + k.2.1) = true ∧
      k.2.2 = rankOf (cellAt s.world (s.playerPosition.x + k.1) (s.playerPosition.y + k.2.1))
        (isVisited s.visited (s.playerPosition.x + k.1) (s.playerPosition.y + k.2.1)) := by
  obtain ⟨dx, dy, r⟩ := k
  simp only [stateKeys, keyedMoves, unitDirections, List.mem_filterMap,
    List.mem_cons, List.mem_singleton, List.not_mem_nil, or_false, Prod.mk.injEq,
    Option.map_eq_some', validRank_eq_some]
  constructor
  · rintro ⟨p, hp, r1, hv, hx, hy, hr⟩
    subst hx hy hr
    rcases hp with hp | hp | hp | hp <;> subst hp <;>
      obtain ⟨hin, hr1⟩ := (validRank_eq_some _ _ _ _).1 hv
    · exact ⟨Or.inl ⟨rfl, rfl⟩, hin, hr1⟩
    · exact ⟨Or.inr (Or.inl ⟨rfl, rfl⟩), hin, hr1⟩
    · exact ⟨Or.inr (Or.inr (Or.inl ⟨rfl, rfl⟩)), hin, hr1⟩
    · exact ⟨Or.inr (Or.inr (Or.inr ⟨rfl, rfl⟩)), hin, hr1⟩
  · rintro ⟨hd, hin, hr⟩
    rcases hd with ⟨h1, h2⟩ | ⟨h1, h2⟩ | ⟨h1, h2⟩ | ⟨h1, h2⟩ <;> subst h1 h2
    · exact ⟨_, Or.inl rfl, r, (validRank_eq_some _ _ _ _).2 ⟨hin, hr⟩, rfl, rfl, rfl⟩
    · exact ⟨_, Or.inr (Or.inl rfl), r, (validRank_eq_some _ _ _ _).2 ⟨hin, hr⟩, rfl, rfl, rfl⟩
    · exact ⟨_, Or.inr (Or.inr (Or.inl rfl)), r, (validRank_eq_some _ _ _ _).2 ⟨hin, hr⟩,
        rfl, rfl, rfl⟩
    · exact ⟨_, Or.inr (Or.inr (Or.inr rfl)), r, (validRank_eq_some _ _ _ _).2 ⟨hin, hr⟩,
        rfl, rfl, rfl⟩

theorem rankOf_gold (c : Option Nat) (v : Bool) : rankOf c v = Rank.gold ↔ c = some GOLD := by
  unfold rankOf
  constructor
  · intro h
    by_contra hc
    rw [if_neg hc] at h
    split at h <;> cases h
  · intro h
    rw [if_pos h]

theorem rankOf_hazard (c : Option Nat) (v : Bool) :
    rankOf c v = Rank.hazard ↔ (c = some WUMPUS ∨ c = some PIT) := by
  unfold rankOf
  constructor
  · intro h
    by_contra hc
    split at h
    · cases h
    · cases h
  · intro h
    have hg : c ≠ some GOLD := by
      rcases h with h | h <;> rw [h] <;> decide
    rw [if_neg hg, if_pos h]

theorem rankCost_eq_zero (r : Rank) : rankCost r = 0 ↔ r = Rank.gold := by
  rcases r with _ | _ | ⟨_ | _, _ | _⟩ <;> simp [rankCost]

theorem rankCost_lt_five (r : Rank) : rankCost r < 5 ↔ r ≠ Rank.hazard := by
  rcases r with _ | _ | ⟨_ | _, _ | _⟩ <;> simp [rankCost]

theorem stateKeys_eq (gridSize : Nat) (s : GameState) :
    stateKeys gridSize s =
      keyedMoves (validRank gridSize s { dx := 0, dy := -1, name := "up" })
        (validRank gridSize s { dx := 1, dy := 0, name := "right" })
        (validRank gridSize s { dx := 0, dy := 1, name := "down" })
        (validRank gridSize s { dx := -1, dy := 0, name := "left" }) := rfl

/-- The move `runAI` executes when some destination is in bounds: it exists,
its key is a keyed candidate, and no candidate has a smaller `rankCost`. -/
theorem bestMove_least (gridSize : Nat) (s : GameState) (k0 : Keyed)
    (hk0 : k0 ∈ stateKeys gridSize s) :
    ∃ m, bestMove gridSize s = some m ∧ moveKey s m ∈ stateKeys gridSize s ∧
      ∀ k ∈ stateKeys gridSize s, rankCost (moveRank s m) ≤ rankCost k.2.2 := by
  have hne : stateKeys gridSize s ≠ [] := List.ne_nil_of_mem hk0
  obtain ⟨_, hex, hall⟩ := sorted_head (validRank gridSize s { dx := 0, dy := -1, name := "up" })
    (validRank gridSize s { dx := 1, dy := 0, name := "right" })
    (validRank gridSize s { dx := 0, dy := 1, name := "down" })
    (validRank gridSize s { dx := -1, dy := 0, name := "left" })
  rw [← stateKeys_eq] at hex hall
  obtain ⟨h, hh⟩ := hex hne
  obtain ⟨hmem, hleast, _⟩ := hall h hh
  have hb := bestMove_key gridSize s
  rw [hh] at hb
  obtain ⟨m, hm, hkey⟩ := Option.map_eq_some'.1 hb
  refine ⟨m, hm, ?_, ?_⟩
  · rw [hkey]; exact hmem
  · intro k hk
    have := hleast k hk
    rw [← hkey] at this
    exact this

/-- The array `prioritizedMoves` is in order of `rankCost`. -/
theorem prioritizedMoves_ranked (gridSize : Nat) (s : GameState) :
    (prioritizedMoves gridSize s).Pairwise
      (fun a b => rankCost (moveRank s a) ≤ rankCost (moveRank s b)) := by
  have h := (sorted_head (validRank gridSize s { dx := 0, dy := -1, name := "up" })
    (validRank gridSize s { dx := 1, dy := 0, name := "right" })
    (validRank gridSize s { dx := 0, dy := 1, name := "down" })
    (validRank gridSize s { dx := -1, dy := 0, name := "left" })).1
  rw [← prioritizedMoves_keyed, List.pairwise_map] at h
  exact h


/-- C9. When the destination in unit direction `(dx, dy)` is in bounds and
holds Gold, `runAI` has a move to execute, in a unit direction, and its
destination is an in-bounds Gold cell, whatever the other destinations hold;
when no other in-bounds neighbour holds Gold, its direction is `(dx, dy)`. -/
theorem bestMove_gold (gridSize : Nat) (s : GameState) (dx dy : Int)
    (hdir : (dx, dy) ∈ unitDirections)
    (hin : inBounds gridSize (s.playerPosition.x + dx) (s.playerPosition.y + dy) = true)
    (hgold : cellAt s.world (s.playerPosition.x + dx) (s.playerPosition.y + dy) = some GOLD) :
    ∃ m, bestMove gridSize s = some m ∧ (m.dx, m.dy) ∈ unitDirections ∧
      inBounds gridSize (s.playerPosition.x + m.dx) (s.playerPosition.y + m.dy) = true ∧
      cellAt s.world (s.playerPosition.x + m.dx) (s.playerPosition.y + m.dy) = some GOLD ∧
      ((∀ d ∈ unitDirections,
          inBounds gridSize (s.playerPosition.x + d.1) (s.playerPosition.y + d.2) = true →
          cellAt s.world (s.playerPosition.x + d.1) (s.playerPosition.y + d.2) = some GOLD →
          d = (dx, dy)) →
        (m.dx, m.dy) = (dx, dy)) := by
  have hk0 : ((dx, dy, Rank.gold) : Keyed) ∈ stateKeys gridSize s :=
    (mem_stateKeys gridSize s _).2 ⟨hdir, hin, ((rankOf_gold _ _).2 hgold).symm⟩
  obtain ⟨m, hm, hmem, hleast⟩ := bestMove_least gridSize s _ hk0
  have hcost : rankCost (moveRank s m) = 0 := by
    have := hleast _ hk0
    simpa [rankCost] using this
  have hrank : moveRank s m = Rank.gold := (rankCost_eq_zero _).1 hcost
  obtain ⟨hmdir, hmin, _⟩ := (mem_stateKeys gridSize s _).1 hmem
  have hmgold : cellAt s.world (s.playerPosition.x + m.dx) (s.playerPosition.y + m.dy) =
      some GOLD := (rankOf_gold _ _).1 hrank
  exact ⟨m, hm, hmdir, hmin, hmgold, fun huniq => huniq (m.dx, m.dy) hmdir hmin hmgold⟩

/-- C10. When the destination in some unit direction is in bounds and holds
neither Wumpus nor Pit, `runAI` has a move to execute, in a unit direction,
and its destination is an in-bounds cell that holds neither Wumpus nor Pit;
moreover no move onto a Wumpus or Pit stands before a move onto another cell
in the sorted array `prioritizedMoves`. -/
theorem bestMove_avoids_hazard (gridSize : Nat) (s : GameState) (dx dy : Int)
    (hdir : (dx, dy) ∈ unitDirections)
    (hin : inBounds gridSize (s.playerPosition.x + dx) (s.playerPosition.y + dy) = true)
    (hsafe : cellAt s.world (s.playerPosition.x + dx) (s.playerPosition.y + dy) ≠ some WUMPUS ∧
      cellAt s.world (s.playerPosition.x + dx) (s.playerPosition.y + dy) ≠ some PIT) :
    (∃ m, bestMove gridSize s = some m ∧ (m.dx, m.dy) ∈ unitDirections ∧
      inBounds gridSize (s.playerPosition.x + m.dx) (s.playerPosition.y + m.dy) = true ∧
      cellAt s.world (s.playerPosition.x + m.dx) (s.playerPosition.y + m.dy) ≠ some WUMPUS ∧
      cellAt s.world (s.playerPosition.x + m.dx) (s.playerPosition.y + m.dy) ≠ some PIT) ∧
    (prioritizedMoves gridSize s).Pairwise (fun a b =>
      (cellAt s.world (s.playerPosition.x + a.dx) (s.playerPosition.y + a.dy) = some WUMPUS ∨
        cellAt s.world (s.playerPosition.x + a.dx) (s.playerPosition.y + a.dy) = some PIT) →
      (cellAt s.world (s.playerPosition.x + b.dx) (s.playerPosition.y + b.dy) = some WUMPUS ∨
        cellAt s.world (s.playerPosition.x + b.dx) (s.playerPosition.y + b.dy) = some PIT)) := by
  constructor
  · have hk0 : ((dx, dy, rankOf
        (cellAt s.world (s.playerPosition.x + dx) (s.playerPosition.y + dy))
        (isVisited s.visited (s.playerPosition.x + dx) (s.playerPosition.y + dy))) : Keyed) ∈
        stateKeys gridSize s := (mem_stateKeys gridSize s _).2 ⟨hdir, hin, rfl⟩
    obtain ⟨m, hm, hmem, hleast⟩ := bestMove_least gridSize s _ hk0
    have h0 : rankOf (cellAt s.world (s.playerPosition.x + dx) (s.playerPosition.y + dy))
        (isVisited s.visited (s.playerPosition.x + dx) (s.playerPosition.y + dy)) ≠
        Rank.hazard := by
      intro hc
      rcases (rankOf_hazard _ _).1 hc with h | h
      · exact hsafe.1 h
      · exact hsafe.2 h
    have hlt : rankCost (moveRank s m) < 5 :=
      lt_of_le_of_lt (hleast _ hk0) ((rankCost_lt_five _).2 h0)
    have hne : moveRank s m ≠ Rank.hazard := (rankCost_lt_five _).1 hlt
    obtain ⟨hmdir, hmin, _⟩ := (mem_stateKeys gridSize s _).1 hmem
    refine ⟨m, hm, hmdir, hmin, ?_, ?_⟩
    · intro hc
      exact hne ((rankOf_hazard _ _).2 (Or.inl hc))
    · intro hc
      exact hne ((rankOf_hazard _ _).2 (Or.inr hc))
  · refine (prioritizedMoves_ranked gridSize s).imp ?_
    intro a b hle ha
    have hra : moveRank s a = Rank.hazard := (rankOf_hazard _ _).2 ha
    rw [hra] at hle
    by_contra hb
    have hrb : moveRank s b ≠ Rank.hazard := fun hc => hb ((rankOf_hazard _ _).1 hc)
    have hlt := (rankCost_lt_five _).2 hrb
    have h5 : rankCost Rank.hazard = 5 := rfl
    omega


/-! ## Instances on the sample grid -/

/-- C1, instance: the grid generated from `sampleDraws`. -/
theorem generateWorld_census_witness :
    (∀ d ∈ sampleDraws, d < 4) ∧ generateWorld 4 sampleDraws = some sampleWorld ∧
      (IsSquare 4 sampleWorld ∧ countCells sampleWorld WUMPUS = 1 ∧
        countCells sampleWorld GOLD = 1 ∧ countCells sampleWorld PIT = 4 * 4 / 5 ∧
        (4 = 4 → countCells sampleWorld PIT = 3) ∧
        cellAt sampleWorld 0 0 ≠ some WUMPUS ∧ cellAt sampleWorld 0 0 ≠ some PIT ∧
        cellAt sampleWorld 0 0 ≠ some GOLD) :=
  ⟨by decide, by decide, generateWorld_census 4 sampleDraws sampleWorld (by decide) (by decide)⟩

/-- C2, instance: from (2,0) on the sample grid the shot Down kills the Wumpus
at (2,1), and the score grows by 490. -/
theorem shootArrow_ray_witness :
    ∃ s1, shootArrow 4 4 scoutState 0 1 = some s1 ∧ cellAt s1.world 2 1 = some EMPTY ∧
      s1.score = scoutState.score + 490 := by
  obtain ⟨s1, h, hhit, _⟩ := shootArrow_ray 4 4 scoutState 0 1 (by decide) (by decide)
    (by decide) (by decide) (by decide)
  obtain ⟨a, _, c⟩ := hhit 1 (by decide) (by decide) (by decide) (by intro j h1 h2; omega)
  exact ⟨s1, h, a, c⟩

/-- C3, counterexample: on the grid generated from `sampleDraws` the Wumpus is at
(2,1), and after Right, Right, Up, Up, shoot Up cell (2,1) still holds the
Wumpus and the score is −12. -/
theorem scenario_shot_up_misses :
    (resetGame 4 initialState sampleDraws).map (fun s => cellAt s.world 2 1) =
      some (some WUMPUS) ∧
    ((resetGame 4 initialState sampleDraws).bind
        (fun s => applyCommands 4 4 s scenarioCommands)).map
        (fun s1 => (cellAt s1.world 2 1, s1.score)) = some (some WUMPUS, -12) ∧
    ¬ ((resetGame 4 initialState sampleDraws).bind
        (fun s => applyCommands 4 4 s scenarioCommands)).map
        (fun s1 => cellAt s1.world 2 1) = some (some EMPTY) := by
  decide

/-- C3 as amended, instance: the state reset on `sampleDraws`. -/
theorem scenario_wumpus_below_witness :
    resetGame 4 initialState sampleDraws = some sampleState ∧
      cellAt sampleState.world 2 1 = some WUMPUS ∧
      ∃ s2, applyCommands 4 4 sampleState
        [Command.move 1 0, Command.move 1 0, Command.move 0 (-1), Command.move 0 (-1),
          Command.shoot 0 1] = some s2 ∧
      cellAt s2.world 2 1 = some EMPTY ∧ s2.score = 488 :=
  ⟨by decide, by decide,
    (scenario_wumpus_below initialState sampleDraws sampleState 4 (by decide) (by decide)
      (by decide)).2 ⟨by decide, by decide, by decide⟩ ⟨by decide, by decide, by decide⟩⟩

/-- Clicks only, instance: from (1,0) on the sample grid the move Down enters
the Pit at (1,1), and the clicks that follow change nothing. -/
theorem hazard_loses_and_terminal_frozen_witness :
    (movePlayer 4 { sampleState with playerPosition := { x := 1, y := 0 } } 0 1).gameState = LOST ∧
      applyCommands 4 4 (movePlayer 4 { sampleState with playerPosition := { x := 1, y := 0 } } 0 1)
        [Command.move 1 0, Command.shoot 0 1] =
        some (movePlayer 4 { sampleState with playerPosition := { x := 1, y := 0 } } 0 1) :=
  (hazard_loses_and_terminal_frozen 4 4 { sampleState with playerPosition := { x := 1, y := 0 } }
    0 1 [Command.move 1 0, Command.shoot 0 1]).1 (by decide) (by decide) (Or.inr (by decide))

/-- A click on Right from (1,2) on the sample grid reaches the Gold. -/
theorem movePlayer_gold_witness :
    (movePlayer 4 besideGoldState 1 0).gameState = WON ∧
      (movePlayer 4 besideGoldState 1 0).score = besideGoldState.score + 999 :=
  movePlayer_gold 4 besideGoldState 1 0 (by decide) (by decide) (by decide)

/-- A click on Up at the start cell, whose destination is outside the grid. -/
theorem movePlayer_noop_witness : movePlayer 4 sampleState 0 (-1) = sampleState :=
  movePlayer_noop 4 sampleState 0 (-1) (Or.inr (by decide))

/-- C7, instance: two shots from (2,0) on the sample grid. -/
theorem shootArrow_second_noop_witness :
    ∃ s1, shootArrow 4 4 scoutState 0 1 = some s1 ∧ s1.hasArrow = false ∧
      shootArrow 4 7 s1 1 0 = some s1 :=
  (shootArrow_second_noop 4 4 7 scoutState 0 1 1 0 (by decide) (by decide) (by decide)
    (by decide) (by decide)).1

/-- C8, instance: a reset of the lost game of `sampleDraws` on the same draws. -/
theorem resetGame_fresh_witness :
    ∃ s, resetGame 4 (movePlayer 4 { sampleState with playerPosition := { x := 1, y := 0 } } 0 1)
        sampleDraws = some s ∧ s.score = 0 ∧ s.hasArrow = true ∧
      s.gameState = PLAYING ∧ s.playerPosition = { x := 0, y := 0 } ∧ s.visited = [(0, 0)] ∧
      s.aiActive = false ∧ s.aiThinking = false ∧ s.world = sampleWorld ∧
      ∀ other : GameState, resetGame 4 other sampleDraws = some s :=
  resetGame_fresh 4 _ sampleDraws sampleWorld (by decide)

/-- C9, instance: at (1,2) on the sample grid, with a Pit above, a visited cell
to the left and a Breeze below, the move chosen is Right, onto the Gold. -/
theorem bestMove_gold_witness :
    ∃ m, bestMove 4 besideGoldState = some m ∧ (m.dx, m.dy) = (1, 0) := by
  obtain ⟨m, hm, _, _, _, huniq⟩ := bestMove_gold 4 besideGoldState 1 0 (by decide) (by decide)
    (by decide)
  exact ⟨m, hm, huniq (by decide)⟩

/-- C10, instance: at (1,0) on the sample grid, with the Pit (1,1) below, the
move chosen does not lead onto a Wumpus or Pit. -/
theorem bestMove_avoids_hazard_witness :
    ∃ m, bestMove 4 { sampleState with playerPosition := { x := 1, y := 0 } } = some m ∧
      cellAt sampleWorld (1 + m.dx) (0 + m.dy) ≠ some WUMPUS ∧
      cellAt sampleWorld (1 + m.dx) (0 + m.dy) ≠ some PIT := by
  obtain ⟨m, hm, _, _, h1, h2⟩ :=
    (bestMove_avoids_hazard 4 { sampleState with playerPosition := { x := 1, y := 0 } } 1 0
      (by decide) (by decide) (by decide)).1
  exact ⟨m, hm, h1, h2⟩


/-! ## Effects of a move, and what every reachable state satisfies -/

theorem mem_markVisited (prev : List (Int × Int)) (x y : Int) :
    (x, y) ∈ markVisited prev x y ∧ ∀ p ∈ prev, p ∈ markVisited prev x y := by
  unfold markVisited
  split
  · exact ⟨by assumption, fun p hp => hp⟩
  · exact ⟨by simp, fun p hp => List.mem_append_left _ hp⟩

theorem movePlayer_hasArrow (gridSize : Nat) (s : GameState) (dx dy : Int) :
    (movePlayer gridSize s dx dy).hasArrow = s.hasArrow := by
  unfold movePlayer movePlayerFrom
  simp only
  repeat' split
  all_goals rfl

theorem movePlayer_valid (gridSize : Nat) (s : GameState) (dx dy : Int)
    (hplay : s.gameState = PLAYING)
    (hin : inBounds gridSize (s.playerPosition.x + dx) (s.playerPosition.y + dy) = true) :
    (movePlayer gridSize s dx dy).visited =
        markVisited s.visited (s.playerPosition.x + dx) (s.playerPosition.y + dy) ∧
      (movePlayer gridSize s dx dy).playerPosition =
        { x := s.playerPosition.x + dx, y := s.playerPosition.y + dy } := by
  unfold movePlayer movePlayerFrom
  simp only [hplay, hin, ne_eq, not_true_eq_false, if_false, if_true]
  repeat' split
  all_goals exact ⟨rfl, rfl⟩

theorem movePlayer_visited_subset (gridSize : Nat) (s : GameState) (dx dy : Int) :
    ∀ p ∈ s.visited, p ∈ (movePlayer gridSize s dx dy).visited := by
  intro p hp
  by_cases hplay : s.gameState = PLAYING
  · by_cases hin : inBounds gridSize (s.playerPosition.x + dx) (s.playerPosition.y + dy) = true
    · rw [(movePlayer_valid gridSize s dx dy hplay hin).1]
      exact (mem_markVisited _ _ _).2 p hp
    · rw [movePlayer_outside gridSize s dx dy (by simpa using hin)]
      exact hp
  · rw [movePlayer_terminal gridSize s dx dy hplay]
    exact hp

/-- The three ways the loop of `shootArrow` can end, in any direction and with any fuel. -/
theorem arrowLoop_some (gridSize : Nat) (world : Grid) (dx dy : Int) (s s1 : GameState) :
    ∀ (fuel : Nat) (ax ay : Int), arrowLoop gridSize world dx dy s fuel ax ay = some s1 →
      s1 = s ∨ s1 = { s with message := "Your arrow disappears into the darkness." } ∨
      ∃ kx ky : Int, cellAt world kx ky = some WUMPUS ∧
        s1 = { s with
          world := setCell world kx ky EMPTY
          message := "You killed the Wumpus!"
          score := s.score + 500 } := by
  intro fuel
  induction fuel with
  | zero => intro ax ay h; simp [arrowLoop] at h
  | succ fuel ih =>
    intro ax ay h
    unfold arrowLoop at h
    split at h
    · simp only at h
      split at h
      · right; left
        exact (Option.some.inj h).symm
      · split at h
        · right; right
          exact ⟨_, _, by assumption, (Option.some.inj h).symm⟩
        · exact ih _ _ h
    · left
      exact (Option.some.inj h).symm

theorem shootArrow_some (gridSize fuel : Nat) (s s1 : GameState) (dx dy : Int)
    (h : shootArrow gridSize fuel s dx dy = some s1) :
    s1.visited = s.visited ∧ s1.playerPosition = s.playerPosition ∧
      s1.gameState = s.gameState ∧
      (s1.world = s.world ∨
        ∃ kx ky : Int, cellAt s.world kx ky = some WUMPUS ∧
          s1.world = setCell s.world kx ky EMPTY) := by
  unfold shootArrow at h
  split at h
  · cases h
    exact ⟨rfl, rfl, rfl, Or.inl rfl⟩
  · rcases arrowLoop_some _ _ _ _ _ _ _ _ _ h with h1 | h1 | ⟨kx, ky, hw, h1⟩
    · rw [h1]; exact ⟨rfl, rfl, rfl, Or.inl rfl⟩
    · rw [h1]; exact ⟨rfl, rfl, rfl, Or.inl rfl⟩
    · rw [h1]; exact ⟨rfl, rfl, rfl, Or.inr ⟨kx, ky, hw, rfl⟩⟩

theorem resetGame_some (gridSize : Nat) (prior : GameState) (draws : List Nat) (s : GameState)
    (h : resetGame gridSize prior draws = some s) :
    generateWorld gridSize draws = some s.world ∧ s.playerPosition = { x := 0, y := 0 } ∧
      s.visited = [(0, 0)] ∧ s.gameState = PLAYING ∧ s.score = 0 ∧ s.hasArrow = true := by
  unfold resetGame at h
  cases hg : generateWorld gridSize draws with
  | none => simp [hg] at h
  | some w =>
    simp only [hg, Option.some.injEq] at h
    rw [← h]
    exact ⟨rfl, rfl, rfl, rfl, rfl, rfl⟩

/-- A property of the start state that every command keeps holds after every run of commands. -/
theorem applyCommands_keeps (Q : GameState → Prop) (gridSize fuel : Nat)
    (hmove : ∀ s dx dy, Q s → Q (movePlayer gridSize s dx dy))
    (hshoot : ∀ s s1 dx dy, Q s → shootArrow gridSize fuel s dx dy = some s1 → Q s1)
    (cmds : List Command) (s0 s : GameState) (h0 : Q s0)
    (hrun : applyCommands gridSize fuel s0 cmds = some s) : Q s := by
  induction cmds generalizing s0 with
  | nil =>
    simp only [applyCommands, Option.some.injEq] at hrun
    rw [← hrun]; exact h0
  | cons c cs ih =>
    unfold applyCommands at hrun
    cases c with
    | move dx dy =>
      simp only [applyCommand] at hrun
      exact ih _ (hmove _ _ _ h0) hrun
    | shoot dx dy =>
      simp only [applyCommand] at hrun
      cases hs : shootArrow gridSize fuel s0 dx dy with
      | none => simp [hs] at hrun
      | some s1 =>
        simp only [hs] at hrun
        exact ih _ (hshoot _ _ _ _ h0 hs) hrun

/-- Clicks only: a click that moves a Playing state to an in-bounds destination
puts the player on the destination, adds the destination to the visited set (keeping what was
there) and leaves the score at the score before the move minus 1, plus 1000
when the destination holds Gold; when the destination holds Empty, Breeze or
Stench the status stays Playing and the score is the old score minus 1. Every
click on a move button, from any state and in any direction, leaves the grid
and the arrow flag as they were. -/
theorem movePlayer_effects (gridSize : Nat) (s : GameState) (dx dy : Int) :
    (s.gameState = PLAYING →
      inBounds gridSize (s.playerPosition.x + dx) (s.playerPosition.y + dy) = true →
      (movePlayer gridSize s dx dy).playerPosition =
        { x := s.playerPosition.x + dx, y := s.playerPosition.y + dy } ∧
      (movePlayer gridSize s dx dy).visited =
        markVisited s.visited (s.playerPosition.x + dx) (s.playerPosition.y + dy) ∧
      (s.playerPosition.x + dx, s.playerPosition.y + dy) ∈
        (movePlayer gridSize s dx dy).visited ∧
      (∀ p ∈ s.visited, p ∈ (movePlayer gridSize s dx dy).visited) ∧
      (movePlayer gridSize s dx dy).score = s.score - 1 +
        (if cellAt s.world (s.playerPosition.x + dx) (s.playerPosition.y + dy) = some GOLD
          then 1000 else 0) ∧
      ((cellAt s.world (s.playerPosition.x + dx) (s.playerPosition.y + dy) = some EMPTY ∨
          cellAt s.world (s.playerPosition.x + dx) (s.playerPosition.y + dy) = some BREEZE ∨
          cellAt s.world (s.playerPosition.x + dx) (s.playerPosition.y + dy) = some STENCH) →
        (movePlayer gridSize s dx dy).gameState = PLAYING ∧
          (movePlayer gridSize s dx dy).score = s.score - 1)) ∧
    (movePlayer gridSize s dx dy).world = s.world ∧
    (movePlayer gridSize s dx dy).hasArrow = s.hasArrow := by
  refine ⟨?_, movePlayer_world gridSize s dx dy, movePlayer_hasArrow gridSize s dx dy⟩
  intro hplay hin
  obtain ⟨hv, hp⟩ := movePlayer_valid gridSize s dx dy hplay hin
  · refine ⟨hp, hv, ?_, movePlayer_visited_subset gridSize s dx dy, ?_, ?_⟩
    · rw [hv]; exact (mem_markVisited _ _ _).1
    · unfold movePlayer movePlayerFrom
      simp only [hplay, hin, ne_eq, not_true_eq_false, if_false, if_true]
      repeat' split
      all_goals first | rfl | simp_all
    · intro hc
      unfold movePlayer movePlayerFrom
      simp only [hplay, hin, ne_eq, not_true_eq_false, if_false, if_true]
      rcases hc with hc | hc | hc <;> simp [hc, hplay]

/-- C18. In every state reached from a reset state by a sequence of
`movePlayer` and `shootArrow` calls, the visited set contains the start (0,0);
a further `movePlayer` call returns a visited set that contains every
position of the one before it, and a further `shootArrow` call returns the
same visited set. -/
theorem visited_grows (gridSize fuel : Nat) (prior : GameState) (draws : List Nat)
    (s0 s : GameState) (cmds : List Command)
    (hreset : resetGame gridSize prior draws = some s0)
    (hrun : applyCommands gridSize fuel s0 cmds = some s) :
    (0, 0) ∈ s.visited ∧
      (∀ dx dy : Int, ∀ p ∈ s.visited, p ∈ (movePlayer gridSize s dx dy).visited) ∧
      (∀ (dx dy : Int) (s1 : GameState), shootArrow gridSize fuel s dx dy = some s1 →
        s1.visited = s.visited) := by
  refine ⟨?_, fun dx dy => movePlayer_visited_subset gridSize s dx dy,
    fun dx dy s1 h => (shootArrow_some gridSize fuel s s1 dx dy h).1⟩
  apply applyCommands_keeps (fun t => ((0 : Int), (0 : Int)) ∈ t.visited) gridSize fuel ?_ ?_
    cmds s0 s ?_ hrun
  · intro t dx dy ht
    exact movePlayer_visited_subset gridSize t dx dy _ ht
  · intro t t1 dx dy ht h
    rw [(shootArrow_some gridSize fuel t t1 dx dy h).1]
    exact ht
  · rw [(resetGame_some gridSize prior draws s0 hreset).2.2.1]
    simp

theorem sound_movePlayer (gridSize : Nat) (s : GameState) (dx dy : Int)
    (h : Sound gridSize s) : Sound gridSize (movePlayer gridSize s dx dy) := by
  by_cases hplay : s.gameState = PLAYING
  · by_cases hin : inBounds gridSize (s.playerPosition.x + dx) (s.playerPosition.y + dy) = true
    · obtain ⟨hv, hp⟩ := movePlayer_valid gridSize s dx dy hplay hin
      refine ⟨?_, ?_, ?_, ?_⟩
      · rw [hp]; exact hin
      · rw [hp, hv]; exact (mem_markVisited _ _ _).1
      · rw [movePlayer_world]; exact h.2.2.1
      · intro hstill
        rw [hp, movePlayer_world]
        unfold movePlayer movePlayerFrom at hstill
        simp only [hplay, hin, ne_eq, not_true_eq_false, if_false, if_true] at hstill
        refine ⟨?_, ?_, ?_⟩ <;>
        · intro hc
          simp [hc] at hstill
    · rw [movePlayer_outside gridSize s dx dy (by simpa using hin)]
      exact h
  · rw [movePlayer_terminal gridSize s dx dy hplay]
    exact h

theorem sound_shootArrow (gridSize fuel : Nat) (s s1 : GameState) (dx dy : Int)
    (h : Sound gridSize s) (hs : shootArrow gridSize fuel s dx dy = some s1) :
    Sound gridSize s1 := by
  obtain ⟨hv, hp, hg, hw⟩ := shootArrow_some gridSize fuel s s1 dx dy hs
  obtain ⟨h1, h2, h3, h4⟩ := h
  unfold Sound
  rw [hv, hp, hg]
  rcases hw with hw | ⟨kx, ky, hk, hw⟩
  · rw [hw]; exact ⟨h1, h2, h3, h4⟩
  · rw [hw]
    refine ⟨h1, h2, ?_, ?_⟩
    · have := countCells_setCell s.world kx ky WUMPUS EMPTY WUMPUS hk
      simp only [if_true, show ¬ (EMPTY = WUMPUS) by decide, if_false] at this
      omega
    · intro hplay
      obtain ⟨q1, q2, q3⟩ := h4 hplay
      by_cases hsame : (s.playerPosition.x, s.playerPosition.y) = (kx, ky)
      · have hx : s.playerPosition.x = kx := congrArg Prod.fst hsame
        have hy : s.playerPosition.y = ky := congrArg Prod.snd hsame
        rw [hx, hy, Quiet, cellAt_setCell_self _ _ _ _ (by rw [hk]; simp)]
        decide
      · rw [Quiet, cellAt_setCell_other _ _ _ _ _ _ hsame]
        exact ⟨q1, q2, q3⟩

theorem sound_resetGame (gridSize : Nat) (prior : GameState) (draws : List Nat) (s0 : GameState)
    (hdraws : ∀ d ∈ draws, d < gridSize) (hreset : resetGame gridSize prior draws = some s0) :
    Sound gridSize s0 := by
  obtain ⟨hg, hp, hv, _, _, _⟩ := resetGame_some gridSize prior draws s0 hreset
  obtain ⟨hsq, hw, _, _, q1, q2, q3⟩ := census_generateWorld gridSize draws s0.world hdraws hg
  have hpos : 0 < gridSize := by
    unfold generateWorld at hg
    cases hd : drawWumpus draws with
    | none => simp [hd] at hg
    | some r =>
      obtain ⟨x, y, rest⟩ := r
      have := (drawWumpus_some draws x y rest hd).1
      exact Nat.lt_of_le_of_lt (Nat.zero_le _) (hdraws _ this)
  unfold Sound
  rw [hp, hv]
  refine ⟨?_, by simp, by omega, fun _ => ⟨q1, q2, q3⟩⟩
  rw [inBounds_iff]
  show (0 : Int) ≤ 0 ∧ (0 : Int) < gridSize ∧ (0 : Int) ≤ 0 ∧ (0 : Int) < gridSize
  omega

/-- Clicks only: in every state reached from a reset state (on a random source
whose draws lie below `gridSize`) by a sequence of clicks on the move and shoot
buttons, the player is inside the grid and on a visited position, the grid holds
at most one Wumpus, and when the status is Playing the cell under the player
holds none of Wumpus, Pit and Gold. -/
theorem reachable_sound (gridSize fuel : Nat) (prior : GameState) (draws : List Nat)
    (s0 s : GameState) (cmds : List Command) (hdraws : ∀ d ∈ draws, d < gridSize)
    (hreset : resetGame gridSize prior draws = some s0)
    (hrun : applyCommands gridSize fuel s0 cmds = some s) :
    inBounds gridSize s.playerPosition.x s.playerPosition.y = true ∧
      (s.playerPosition.x, s.playerPosition.y) ∈ s.visited ∧
      countCells s.world WUMPUS ≤ 1 ∧
      (s.gameState = PLAYING →
        cellAt s.world s.playerPosition.x s.playerPosition.y ≠ some WUMPUS ∧
        cellAt s.world s.playerPosition.x s.playerPosition.y ≠ some PIT ∧
        cellAt s.world s.playerPosition.x s.playerPosition.y ≠ some GOLD) :=
  applyCommands_keeps (Sound gridSize) gridSize fuel (sound_movePlayer gridSize)
    (fun t t1 dx dy ht h => sound_shootArrow gridSize fuel t t1 dx dy ht h) cmds s0 s
    (sound_resetGame gridSize prior draws s0 hdraws hreset) hrun

/-! ## Ties, visited status and markers in the selection -/

set_option maxRecDepth 100000 in
theorem firstBestIsEarliest_all : checkAll firstBestIsEarliest = true := by
  decide!

theorem firstBest_earliest (up right down left : Option Rank) (h : Keyed)
    (hb : firstBest (keyedMoves up right down left) = some h) :
    ∀ k ∈ keyedMoves up right down left, k.2.2 = h.2.2 →
      dirIndex (h.1, h.2.1) ≤ dirIndex (k.1, k.2.1) := by
  have hc := checkAll_apply firstBestIsEarliest firstBestIsEarliest_all up right down left
  unfold firstBestIsEarliest at hc
  rw [hb] at hc
  simp only [List.all_eq_true, Bool.or_eq_true, Bool.not_eq_true', decide_eq_false_iff_not,
    decide_eq_true_eq] at hc
  intro k hk hr
  rcases hc k hk with h1 | h1
  · exact absurd hr h1
  · exact h1

theorem validRank_gold (gridSize : Nat) (s : GameState) (m : Move)
    (h : validRank gridSize s m = some Rank.gold) :
    inBounds gridSize (s.playerPosition.x + m.dx) (s.playerPosition.y + m.dy) = true ∧
      cellAt s.world (s.playerPosition.x + m.dx) (s.playerPosition.y + m.dy) = some GOLD := by
  obtain ⟨hin, hr⟩ := (validRank_eq_some gridSize s m Rank.gold).1 h
  exact ⟨hin, (rankOf_gold _ _).1 hr.symm⟩

/-- When no two in-bounds neighbours of the player hold Gold, at most one candidate is Gold. -/
theorem gold_count_le_one (gridSize : Nat) (s : GameState)
    (hgold : ∀ d1 ∈ unitDirections, ∀ d2 ∈ unitDirections,
      inBounds gridSize (s.playerPosition.x + d1.1) (s.playerPosition.y + d1.2) = true →
      inBounds gridSize (s.playerPosition.x + d2.1) (s.playerPosition.y + d2.2) = true →
      cellAt s.world (s.playerPosition.x + d1.1) (s.playerPosition.y + d1.2) = some GOLD →
      cellAt s.world (s.playerPosition.x + d2.1) (s.playerPosition.y + d2.2) = some GOLD →
      d1 = d2) :
    [validRank gridSize s { dx := 0, dy := -1, name := "up" },
      validRank gridSize s { dx := 1, dy := 0, name := "right" },
      validRank gridSize s { dx := 0, dy := 1, name := "down" },
      validRank gridSize s { dx := -1, dy := 0, name := "left" }].count (some Rank.gold) ≤ 1 := by
  have key : ∀ m1 m2 : Move, (m1.dx, m1.dy) ∈ unitDirections → (m2.dx, m2.dy) ∈ unitDirections →
      (m1.dx, m1.dy) ≠ (m2.dx, m2.dy) →
      validRank gridSize s m1 = some Rank.gold → validRank gridSize s m2 = some Rank.gold →
      False := by
    intro m1 m2 h1 h2 hne g1 g2
    obtain ⟨i1, c1⟩ := validRank_gold gridSize s m1 g1
    obtain ⟨i2, c2⟩ := validRank_gold gridSize s m2 g2
    exact hne (hgold _ h1 _ h2 i1 i2 c1 c2)
  by_cases h0 : validRank gridSize s { dx := 0, dy := -1, name := "up" } = some Rank.gold <;>
  by_cases h1 : validRank gridSize s { dx := 1, dy := 0, name := "right" } = some Rank.gold <;>
  by_cases h2 : validRank gridSize s { dx := 0, dy := 1, name := "down" } = some Rank.gold <;>
  by_cases h3 : validRank gridSize s { dx := -1, dy := 0, name := "left" } = some Rank.gold <;>
  first
  | exact absurd (key _ _ (by decide) (by decide) (by decide) h0 h1) id
  | exact absurd (key _ _ (by decide) (by decide) (by decide) h0 h2) id
  | exact absurd (key _ _ (by decide) (by decide) (by decide) h0 h3) id
  | exact absurd (key _ _ (by decide) (by decide) (by decide) h1 h2) id
  | exact absurd (key _ _ (by decide) (by decide) (by decide) h1 h3) id
  | exact absurd (key _ _ (by decide) (by decide) (by decide) h2 h3) id
  | simp [List.count_cons, h0, h1, h2, h3]

/-- The move `runAI` executes when at most one candidate is Gold: its key is
the first keyed candidate of least `rankCost`. -/
theorem bestMove_firstBest (gridSize : Nat) (s : GameState) (k0 : Keyed)
    (hk0 : k0 ∈ stateKeys gridSize s)
    (hcount : [validRank gridSize s { dx := 0, dy := -1, name := "up" },
      validRank gridSize s { dx := 1, dy := 0, name := "right" },
      validRank gridSize s { dx := 0, dy := 1, name := "down" },
      validRank gridSize s { dx := -1, dy := 0, name := "left" }].count (some Rank.gold) ≤ 1) :
    ∃ m, bestMove gridSize s = some m ∧ firstBest (stateKeys gridSize s) = some (moveKey s m) := by
  have hne : stateKeys gridSize s ≠ [] := List.ne_nil_of_mem hk0
  obtain ⟨_, hex, hall⟩ := sorted_head (validRank gridSize s { dx := 0, dy := -1, name := "up" })
    (validRank gridSize s { dx := 1, dy := 0, name := "right" })
    (validRank gridSize s { dx := 0, dy := 1, name := "down" })
    (validRank gridSize s { dx := -1, dy := 0, name := "left" })
  rw [← stateKeys_eq] at hex hall
  obtain ⟨h, hh⟩ := hex hne
  obtain ⟨_, _, hfirst⟩ := hall h hh
  have hb := bestMove_key gridSize s
  rw [hh] at hb
  obtain ⟨m, hm, hkey⟩ := Option.map_eq_some'.1 hb
  exact ⟨m, hm, by rw [hkey]; exact hfirst hcount⟩

/-- C11. In a state in which no two in-bounds neighbours of the player hold
Gold and some destination is in bounds, `runAI` has a move to execute, and
among the in-bounds directions whose destination has the same rank under rules
1 to 4 (Gold, hazard, visited status, marker status) as the destination of
that move, none comes before it in the enumeration Up, Right, Down, Left; no
in-bounds direction has a better rank. -/
theorem bestMove_earliest (gridSize : Nat) (s : GameState) (dx dy : Int)
    (hgold : ∀ d1 ∈ unitDirections, ∀ d2 ∈ unitDirections,
      inBounds gridSize (s.playerPosition.x + d1.1) (s.playerPosition.y + d1.2) = true →
      inBounds gridSize (s.playerPosition.x + d2.1) (s.playerPosition.y + d2.2) = true →
      cellAt s.world (s.playerPosition.x + d1.1) (s.playerPosition.y + d1.2) = some GOLD →
      cellAt s.world (s.playerPosition.x + d2.1) (s.playerPosition.y + d2.2) = some GOLD →
      d1 = d2)
    (hdir : (dx, dy) ∈ unitDirections)
    (hin : inBounds gridSize (s.playerPosition.x + dx) (s.playerPosition.y + dy) = true) :
    ∃ m, bestMove gridSize s = some m ∧ (m.dx, m.dy) ∈ unitDirections ∧
      inBounds gridSize (s.playerPosition.x + m.dx) (s.playerPosition.y + m.dy) = true ∧
      ∀ d ∈ unitDirections,
        inBounds gridSize (s.playerPosition.x + d.1) (s.playerPosition.y + d.2) = true →
        rankCost (moveRank s m) ≤
          rankCost (rankOf (cellAt s.world (s.playerPosition.x + d.1) (s.playerPosition.y + d.2))
            (isVisited s.visited (s.playerPosition.x + d.1) (s.playerPosition.y + d.2))) ∧
        (rankOf (cellAt s.world (s.playerPosition.x + d.1) (s.playerPosition.y + d.2))
            (isVisited s.visited (s.playerPosition.x + d.1) (s.playerPosition.y + d.2)) =
          moveRank s m → dirIndex (m.dx, m.dy) ≤ dirIndex d) := by
  have hk0 : ((dx, dy, rankOf
      (cellAt s.world (s.playerPosition.x + dx) (s.playerPosition.y + dy))
      (isVisited s.visited (s.playerPosition.x + dx) (s.playerPosition.y + dy))) : Keyed) ∈
      stateKeys gridSize s := (mem_stateKeys gridSize s _).2 ⟨hdir, hin, rfl⟩
  obtain ⟨m, hm, hfirst⟩ := bestMove_firstBest gridSize s _ hk0 (gold_count_le_one gridSize s hgold)
  obtain ⟨m1, hm1, hmem, hleast⟩ := bestMove_least gridSize s _ hk0
  have hmm : m1 = m := Option.some.inj (hm1.symm.trans hm)
  subst hmm
  obtain ⟨hmdir, hmin, _⟩ := (mem_stateKeys gridSize s _).1 hmem
  refine ⟨m1, hm, hmdir, hmin, ?_⟩
  intro d hd hdin
  have hk : ((d.1, d.2, rankOf
      (cellAt s.world (s.playerPosition.x + d.1) (s.playerPosition.y + d.2))
      (isVisited s.visited (s.playerPosition.x + d.1) (s.playerPosition.y + d.2))) : Keyed) ∈
      stateKeys gridSize s := (mem_stateKeys gridSize s _).2 ⟨hd, hdin, rfl⟩
  refine ⟨hleast _ hk, ?_⟩
  intro hr
  exact firstBest_earliest _ _ _ _ _ hfirst _ hk hr

theorem rankOf_other (c : Option Nat) (v : Bool) (hg : c ≠ some GOLD)
    (hh : ¬ (c = some WUMPUS ∨ c = some PIT)) :
    rankOf c v = Rank.other v (decide (c = some BREEZE ∨ c = some STENCH)) := by
  unfold rankOf
  rw [if_neg hg, if_neg hh]

/-- C12. In a state in which no in-bounds neighbour of the player holds Gold
and some in-bounds neighbour holds neither Wumpus nor Pit, `runAI` has a move
to execute and its destination holds neither Wumpus nor Pit. If some non-hazard
candidate is unvisited, that destination is unvisited. If a non-hazard
candidate of the best visited status (unvisited, or visited when every
non-hazard candidate is visited) holds neither Breeze nor Stench, that
destination holds neither Breeze nor Stench. -/
theorem bestMove_prefers (gridSize : Nat) (s : GameState) (dx dy : Int)
    (hnogold : ∀ d ∈ unitDirections,
      inBounds gridSize (s.playerPosition.x + d.1) (s.playerPosition.y + d.2) = true →
      cellAt s.world (s.playerPosition.x + d.1) (s.playerPosition.y + d.2) ≠ some GOLD)
    (hdir : (dx, dy) ∈ unitDirections)
    (hin : inBounds gridSize (s.playerPosition.x + dx) (s.playerPosition.y + dy) = true)
    (hsafe : cellAt s.world (s.playerPosition.x + dx) (s.playerPosition.y + dy) ≠ some WUMPUS ∧
      cellAt s.world (s.playerPosition.x + dx) (s.playerPosition.y + dy) ≠ some PIT) :
    ∃ m, bestMove gridSize s = some m ∧ (m.dx, m.dy) ∈ unitDirections ∧
      inBounds gridSize (s.playerPosition.x + m.dx) (s.playerPosition.y + m.dy) = true ∧
      cellAt s.world (s.playerPosition.x + m.dx) (s.playerPosition.y + m.dy) ≠ some WUMPUS ∧
      cellAt s.world (s.playerPosition.x + m.dx) (s.playerPosition.y + m.dy) ≠ some PIT ∧
      ((∃ d ∈ unitDirections,
          inBounds gridSize (s.playerPosition.x + d.1) (s.playerPosition.y + d.2) = true ∧
          cellAt s.world (s.playerPosition.x + d.1) (s.playerPosition.y + d.2) ≠ some WUMPUS ∧
          cellAt s.world (s.playerPosition.x + d.1) (s.playerPosition.y + d.2) ≠ some PIT ∧
          isVisited s.visited (s.playerPosition.x + d.1) (s.playerPosition.y + d.2) = false) →
        isVisited s.visited (s.playerPosition.x + m.dx) (s.playerPosition.y + m.dy) = false) ∧
      (∀ d ∈ unitDirections,
        inBounds gridSize (s.playerPosition.x + d.1) (s.playerPosition.y + d.2) = true →
        cellAt s.world (s.playerPosition.x + d.1) (s.playerPosition.y + d.2) ≠ some WUMPUS →
        cellAt s.world (s.playerPosition.x + d.1) (s.playerPosition.y + d.2) ≠ some PIT →
        (isVisited s.visited (s.playerPosition.x + d.1) (s.playerPosition.y + d.2) = false ∨
          ∀ e ∈ unitDirections,
            inBounds gridSize (s.playerPosition.x + e.1) (s.playerPosition.y + e.2) = true →
            cellAt s.world (s.playerPosition.x + e.1) (s.playerPosition.y + e.2) ≠ some WUMPUS →
            cellAt s.world (s.playerPosition.x + e.1) (s.playerPosition.y + e.2) ≠ some PIT →
            isVisited s.visited (s.playerPosition.x + e.1) (s.playerPosition.y + e.2) = true) →
        cellAt s.world (s.playerPosition.x + d.1) (s.playerPosition.y + d.2) ≠ some BREEZE →
        cellAt s.world (s.playerPosition.x + d.1) (s.playerPosition.y + d.2) ≠ some STENCH →
        cellAt s.world (s.playerPosition.x + m.dx) (s.playerPosition.y + m.dy) ≠ some BREEZE ∧
        cellAt s.world (s.playerPosition.x + m.dx) (s.playerPosition.y + m.dy) ≠ some STENCH) := by
  -- the rank of a non-hazard candidate
  have hrank : ∀ d ∈ unitDirections,
      inBounds gridSize (s.playerPosition.x + d.1) (s.playerPosition.y + d.2) = true →
      cellAt s.world (s.playerPosition.x + d.1) (s.playerPosition.y + d.2) ≠ some WUMPUS →
      cellAt s.world (s.playerPosition.x + d.1) (s.playerPosition.y + d.2) ≠ some PIT →
      ((d.1, d.2, Rank.other
          (isVisited s.visited (s.playerPosition.x + d.1) (s.playerPosition.y + d.2))
          (decide (cellAt s.world (s.playerPosition.x + d.1) (s.playerPosition.y + d.2) =
              some BREEZE ∨
            cellAt s.world (s.playerPosition.x + d.1) (s.playerPosition.y + d.2) =
              some STENCH))) : Keyed) ∈ stateKeys gridSize s := by
    intro d hd hdin h1 h2
    refine (mem_stateKeys gridSize s _).2 ⟨hd, hdin, ?_⟩
    exact (rankOf_other _ _ (hnogold d hd hdin) (by rintro (h | h); exact h1 h; exact h2 h)).symm
  have hk0 := hrank (dx, dy) hdir hin hsafe.1 hsafe.2
  obtain ⟨m, hm, hmem, hleast⟩ := bestMove_least gridSize s _ hk0
  obtain ⟨hmdir, hmin, _⟩ := (mem_stateKeys gridSize s _).1 hmem
  have hlt : rankCost (moveRank s m) < 5 := by
    have := hleast _ hk0
    have h5 := (rankCost_lt_five (Rank.other
      (isVisited s.visited (s.playerPosition.x + dx) (s.playerPosition.y + dy))
      (decide (cellAt s.world (s.playerPosition.x + dx) (s.playerPosition.y + dy) =
          some BREEZE ∨
        cellAt s.world (s.playerPosition.x + dx) (s.playerPosition.y + dy) =
          some STENCH)))).2 (by simp)
    exact lt_of_le_of_lt this h5
  have hnh : moveRank s m ≠ Rank.hazard := (rankCost_lt_five _).1 hlt
  have hmw : cellAt s.world (s.playerPosition.x + m.dx) (s.playerPosition.y + m.dy) ≠
      some WUMPUS := fun hc => hnh ((rankOf_hazard _ _).2 (Or.inl hc))
  have hmp : cellAt s.world (s.playerPosition.x + m.dx) (s.playerPosition.y + m.dy) ≠
      some PIT := fun hc => hnh ((rankOf_hazard _ _).2 (Or.inr hc))
  have hmr : moveRank s m = Rank.other
      (isVisited s.visited (s.playerPosition.x + m.dx) (s.playerPosition.y + m.dy))
      (decide (cellAt s.world (s.playerPosition.x + m.dx) (s.playerPosition.y + m.dy) =
          some BREEZE ∨
        cellAt s.world (s.playerPosition.x + m.dx) (s.playerPosition.y + m.dy) =
          some STENCH)) :=
    rankOf_other _ _ (hnogold (m.dx, m.dy) hmdir hmin)
      (by rintro (h | h); exact hmw h; exact hmp h)
  refine ⟨m, hm, hmdir, hmin, hmw, hmp, ?_, ?_⟩
  · rintro ⟨d, hd, hdin, h1, h2, hv⟩
    have := hleast _ (hrank d hd hdin h1 h2)
    rw [hmr, hv] at this
    revert this
    cases isVisited s.visited (s.playerPosition.x + m.dx) (s.playerPosition.y + m.dy) <;>
      cases (decide (cellAt s.world (s.playerPosition.x + m.dx) (s.playerPosition.y + m.dy) =
          some BREEZE ∨
        cellAt s.world (s.playerPosition.x + m.dx) (s.playerPosition.y + m.dy) =
          some STENCH)) <;>
      cases (decide (cellAt s.world (s.playerPosition.x + d.1) (s.playerPosition.y + d.2) =
          some BREEZE ∨
        cellAt s.world (s.playerPosition.x + d.1) (s.playerPosition.y + d.2) =
          some STENCH)) <;> simp [rankCost]
  · intro d hd hdin h1 h2 hbest hb hs
    have hle := hleast _ (hrank d hd hdin h1 h2)
    have hdm : decide (cellAt s.world (s.playerPosition.x + d.1) (s.playerPosition.y + d.2) =
          some BREEZE ∨
        cellAt s.world (s.playerPosition.x + d.1) (s.playerPosition.y + d.2) =
          some STENCH) = false := by simp [hb, hs]
    rw [hmr, hdm] at hle
    have hmv : isVisited s.visited (s.playerPosition.x + d.1) (s.playerPosition.y + d.2) = false ∨
        isVisited s.visited (s.playerPosition.x + m.dx) (s.playerPosition.y + m.dy) = true := by
      rcases hbest with h | h
      · exact Or.inl h
      · exact Or.inr (h (m.dx, m.dy) hmdir hmin hmw hmp)
    have hmark : decide (cellAt s.world (s.playerPosition.x + m.dx) (s.playerPosition.y + m.dy) =
          some BREEZE ∨
        cellAt s.world (s.playerPosition.x + m.dx) (s.playerPosition.y + m.dy) =
          some STENCH) = false := by
      revert hle hmv
      cases isVisited s.visited (s.playerPosition.x + m.dx) (s.playerPosition.y + m.dy) <;>
        cases isVisited s.visited (s.playerPosition.x + d.1) (s.playerPosition.y + d.2) <;>
        cases (decide (cellAt s.world (s.playerPosition.x + m.dx) (s.playerPosition.y + m.dy) =
            some BREEZE ∨
          cellAt s.world (s.playerPosition.x + m.dx) (s.playerPosition.y + m.dy) =
            some STENCH)) <;> simp [rankCost]
    simp only [decide_eq_false_iff_not, not_or] at hmark
    exact hmark

/-! ## Generation on sources that keep drawing the start cell -/

theorem drawWumpus_zeros (draws : List Nat) (h : ∀ d ∈ draws, d = 0) :
    drawWumpus draws = none := by
  induction draws using drawWumpus.induct with
  | case1 wumpusX wumpusY tail hzero ih =>
    rw [drawWumpus, if_pos hzero]
    exact ih (fun d hd => h d (List.mem_cons_of_mem _ (List.mem_cons_of_mem _ hd)))
  | case2 wumpusX wumpusY tail hzero =>
    exact absurd ⟨h wumpusX (by simp), h wumpusY (by simp)⟩ hzero
  | case3 draws hshort =>
    unfold drawWumpus
    split
    · exact absurd rfl (hshort _ _ _)
    · rfl

theorem generateWorld_zeros (gridSize : Nat) (draws : List Nat) (h : ∀ d ∈ draws, d = 0) :
    generateWorld gridSize draws = none := by
  unfold generateWorld
  rw [drawWumpus_zeros draws h]

theorem drawWumpus_skip (k : Nat) (rest : List Nat) :
    drawWumpus (List.replicate (2 * k) 0 ++ rest) = drawWumpus rest := by
  induction k with
  | zero => simp
  | succ k ih =>
    have e : List.replicate (2 * (k + 1)) 0 ++ rest =
        0 :: 0 :: (List.replicate (2 * k) 0 ++ rest) := by
      rw [show 2 * (k + 1) = 2 * k + 1 + 1 by ring, List.replicate_succ, List.replicate_succ]
      rfl
    rw [e, drawWumpus, if_pos ⟨rfl, rfl⟩, ih]

theorem generateWorld_skip (gridSize k : Nat) (rest : List Nat) :
    generateWorld gridSize (List.replicate (2 * k) 0 ++ rest) = generateWorld gridSize rest := by
  unfold generateWorld
  rw [drawWumpus_skip]

/-- C14 (as amended). Generation has no feasibility guard: for a grid size of 0
or 1, where every draw `Math.floor(Math.random() * gridSize)` is 0, the Wumpus
loop rejects every pair of draws, and generation has returned nothing, neither
a grid nor an error, when the draws are used up, however many draws the source
delivers. -/
theorem generateWorld_tiny_never_returns (gridSize : Nat) (draws : List Nat)
    (hsize : gridSize ≤ 1) (hdraws : ∀ d ∈ draws, d < max gridSize 1) :
    generateWorld gridSize draws = none ∧ drawWumpus draws = none := by
  have hzero : ∀ d ∈ draws, d = 0 := by
    intro d hd
    have := hdraws d hd
    have hmax : max gridSize 1 = 1 := max_eq_right hsize
    omega
  exact ⟨generateWorld_zeros gridSize draws hzero, drawWumpus_zeros draws hzero⟩

/-- C14, counterexample: for N = 1 no number of draws of the only possible
value 0 makes generation return. -/
theorem generateWorld_one_retries :
    ¬ ∃ k : Nat, generateWorld 1 (List.replicate k 0) ≠ none := by
  rintro ⟨k, hk⟩
  exact hk (generateWorld_zeros 1 _ (fun d hd => (List.mem_replicate.1 hd).2))

/-- C14 as amended, instance: N = 1 and a source of six draws. -/
theorem generateWorld_tiny_never_returns_witness :
    generateWorld 1 [0, 0, 0, 0, 0, 0] = none ∧ drawWumpus [0, 0, 0, 0, 0, 0] = none :=
  generateWorld_tiny_never_returns 1 [0, 0, 0, 0, 0, 0] (by decide) (by decide)

/-- C15 (as amended). The placement loops of generation are not bounded: for
N = 4, on the source that always returns (0,0) generation has not finished
after any number of draws, and for every bound there is a source with draws
below 4 on which generation returns a grid but has not finished within the
first `bound` draws. -/
theorem generateWorld_unbounded (bound : Nat) :
    generateWorld 4 (List.replicate bound 0) = none ∧
    ∃ draws : List Nat, (∀ d ∈ draws, d < 4) ∧ generateWorld 4 draws = some sampleWorld ∧
      generateWorld 4 (draws.take bound) = none := by
  refine ⟨generateWorld_zeros 4 _ (fun d hd => (List.mem_replicate.1 hd).2),
    List.replicate (2 * bound) 0 ++ sampleDraws, ?_, ?_, ?_⟩
  · intro d hd
    rcases List.mem_append.1 hd with h | h
    · rw [(List.mem_replicate.1 h).2]; decide
    · exact (show ∀ d ∈ sampleDraws, d < 4 by decide) d h
  · rw [generateWorld_skip]; decide
  · apply generateWorld_zeros
    intro d hd
    have hsub := List.mem_of_mem_take hd
    rw [List.take_append_of_le_length (by simp; omega)] at hd
    exact (List.mem_replicate.1 (List.mem_of_mem_take hd)).2

/-- C15, counterexample: for N = 4, on the source that always returns (0,0) no
number of draws makes generation finish. -/
theorem generateWorld_start_forever :
    ¬ ∃ k : Nat, generateWorld 4 (List.replicate k 0) ≠ none := by
  rintro ⟨k, hk⟩
  exact hk (generateWorld_zeros 4 _ (fun d hd => (List.mem_replicate.1 hd).2))

/-! ## The sensor scan, cell by cell -/

theorem generateWorld_eq (gridSize : Nat) (draws : List Nat) :
    generateWorld gridSize draws = (placeHazards gridSize draws).map (placeSensors gridSize) := by
  unfold generateWorld placeHazards
  cases drawWumpus draws with
  | none => rfl
  | some r =>
    obtain ⟨wumpusX, wumpusY, rest⟩ := r
    simp only
    cases placePits (setCell (emptyWorld gridSize) wumpusX wumpusY WUMPUS) (numPits gridSize)
        rest with
    | none => rfl
    | some r2 =>
      obtain ⟨newWorld, rest2⟩ := r2
      simp only
      cases drawFree newWorld rest2 with
      | none => rfl
      | some r3 => rfl

theorem placeSensors_eq_foldl (gridSize : Nat) (world : Grid) :
    placeSensors gridSize world =
      (scanOrder gridSize).foldl (fun w p => scanCell gridSize w p.1 p.2) world := by
  unfold placeSensors scanOrder
  rw [List.foldl_flatten, List.foldl_map]
  congr 1
  funext w y
  rw [List.foldl_map]

/-- One conditional write of `placeSensor`, read at cell `c`. -/
theorem sensorWrite_cell (gridSize : Nat) (w : Grid) (x y : Int) (t : Nat) (d c : Int × Int) :
    cellAt
        (if inBounds gridSize (x + d.1) (y + d.2) = true then
          (if cellAt w (x + d.1) (y + d.2) = some EMPTY then setCell w (x + d.1) (y + d.2) t
            else w)
          else w) c.1 c.2 =
      if c = (x + d.1, y + d.2) ∧ inBounds gridSize c.1 c.2 = true ∧
          cellAt w c.1 c.2 = some EMPTY then some t
      else cellAt w c.1 c.2 := by
  by_cases hc : c = (x + d.1, y + d.2)
  · subst hc
    by_cases hin : inBounds gridSize (x + d.1) (y + d.2) = true
    · by_cases he : cellAt w (x + d.1) (y + d.2) = some EMPTY
      · simp only [hin, he, if_true, and_self]
        exact cellAt_setCell_self _ _ _ _ (by rw [he]; simp)
      · simp [hin, he]
    · simp [hin]
  · have hne : (c.1, c.2) ≠ (x + d.1, y + d.2) := hc
    simp only [hc, false_and, if_false]
    split
    · split
      · exact cellAt_setCell_other _ _ _ _ _ _ hne
      · rfl
    · rfl

theorem sensorFold_cell (gridSize : Nat) (x y : Int) (t : Nat) (c : Int × Int) :
    ∀ (ds : List (Int × Int)), ds.Nodup → ∀ w : Grid,
      cellAt (ds.foldl (fun world d =>
          if inBounds gridSize (x + d.1) (y + d.2) = true then
            (if cellAt world (x + d.1) (y + d.2) = some EMPTY then
              setCell world (x + d.1) (y + d.2) t else world)
          else world) w) c.1 c.2 =
        if (c.1 - x, c.2 - y) ∈ ds ∧ inBounds gridSize c.1 c.2 = true ∧
            cellAt w c.1 c.2 = some EMPTY then some t
        else cellAt w c.1 c.2 := by
  intro ds
  induction ds with
  | nil => intro _ w; simp
  | cons d ds ih =>
    intro hnd w
    rw [List.nodup_cons] at hnd
    rw [List.foldl_cons, ih hnd.2, sensorWrite_cell]
    have hiff : c = (x + d.1, y + d.2) ↔ (c.1 - x, c.2 - y) = d := by
      constructor
      · intro h; subst h; ext <;> simp
      · intro h; subst h; ext <;> simp
    by_cases hd : (c.1 - x, c.2 - y) = d
    · have hnot : (c.1 - x, c.2 - y) ∉ ds := by rw [hd]; exact hnd.1
      have hc := hiff.2 hd
      have hmem : (c.1 - x, c.2 - y) ∈ d :: ds := by rw [hd]; exact List.mem_cons_self _ _
      rw [if_neg (fun h => hnot h.1)]
      by_cases hB : inBounds gridSize c.1 c.2 = true ∧ cellAt w c.1 c.2 = some EMPTY
      · rw [if_pos ⟨hc, hB⟩, if_pos ⟨hmem, hB⟩]
      · rw [if_neg (fun h => hB h.2), if_neg (fun h => hB h.2)]
    · have hc : ¬ c = (x + d.1, y + d.2) := fun h => hd (hiff.1 h)
      simp only [hc, false_and, if_false, List.mem_cons, hd, false_or]

theorem placeSensor_cell (gridSize : Nat) (w : Grid) (x y : Int) (t : Nat) (c : Int × Int) :
    cellAt (placeSensor gridSize w x y t) c.1 c.2 =
      if (c.1 - x, c.2 - y) ∈ sensorOffsets ∧ inBounds gridSize c.1 c.2 = true ∧
          cellAt w c.1 c.2 = some EMPTY then some t
      else cellAt w c.1 c.2 :=
  sensorFold_cell gridSize x y t c sensorOffsets (by decide) w

theorem scanCell_eq (gridSize : Nat) (w : Grid) (x y : Nat) :
    scanCell gridSize w x y =
      match sensorOf (cellAt w x y) with
      | some t => placeSensor gridSize w x y t
      | none => w := by
  unfold scanCell sensorOf
  split
  · rfl
  · split
    · rfl
    · rfl

theorem sensorOf_some (c : Option Nat) (t : Nat) (h : sensorOf c = some t) :
    (c = some PIT ∧ t = BREEZE) ∨ (c = some WUMPUS ∧ t = STENCH) := by
  unfold sensorOf at h
  split at h
  · left; exact ⟨by assumption, (Option.some.inj h).symm⟩
  · split at h
    · right; exact ⟨by assumption, (Option.some.inj h).symm⟩
    · cases h

/-- One step of the scan, read at cell `c`: an Empty in-bounds cell next to a
hazard takes the sensor of the hazard, every other cell keeps its content. -/
theorem scanCell_cell (gridSize : Nat) (w : Grid) (p : Nat × Nat) (c : Int × Int) :
    cellAt (scanCell gridSize w p.1 p.2) c.1 c.2 =
      if inBounds gridSize c.1 c.2 = true ∧ cellAt w c.1 c.2 = some EMPTY then
        some ((emits w c p).getD EMPTY)
      else cellAt w c.1 c.2 := by
  rw [scanCell_eq]
  unfold emits
  cases hs : sensorOf (cellAt w (p.1 : Int) (p.2 : Int)) with
  | none =>
    simp only [ite_self, Option.getD_none]
    split
    · rename_i h; exact h.2
    · rfl
  | some t =>
    simp only [placeSensor_cell]
    by_cases hadj : (c.1 - (p.1 : Int), c.2 - (p.2 : Int)) ∈ sensorOffsets
    · simp only [hadj, true_and, if_true, Option.getD_some]
    · simp only [hadj, false_and, if_false, Option.getD_none]
      split
      · rename_i h; exact h.2
      · rfl

theorem emits_some (w : Grid) (c : Int × Int) (p : Nat × Nat) (t : Nat)
    (h : emits w c p = some t) :
    (c.1 - (p.1 : Int), c.2 - (p.2 : Int)) ∈ sensorOffsets ∧
      ((cellAt w (p.1 : Int) (p.2 : Int) = some PIT ∧ t = BREEZE) ∨
        (cellAt w (p.1 : Int) (p.2 : Int) = some WUMPUS ∧ t = STENCH)) := by
  unfold emits at h
  split at h
  · exact ⟨by assumption, sensorOf_some _ _ h⟩
  · cases h

/-- A step of the scan leaves every hazard where it is and makes no new one. -/
theorem sensorOf_scanCell (gridSize : Nat) (w : Grid) (p : Nat × Nat) (q : Int × Int) :
    sensorOf (cellAt (scanCell gridSize w p.1 p.2) q.1 q.2) = sensorOf (cellAt w q.1 q.2) := by
  rw [scanCell_cell]
  split
  · rename_i h
    rw [h.2]
    cases he : emits w q p with
    | none => rfl
    | some t =>
      rcases (emits_some w q p t he).2 with ⟨_, rfl⟩ | ⟨_, rfl⟩ <;> rfl
  · rfl

theorem emits_scanCell (gridSize : Nat) (w : Grid) (p : Nat × Nat) (c : Int × Int) :
    emits (scanCell gridSize w p.1 p.2) c = emits w c := by
  funext q
  unfold emits
  rw [sensorOf_scanCell gridSize w p ((q.1 : Int), (q.2 : Int))]

/-- The scan over any list of cells, read at cell `c`: an Empty in-bounds cell
takes the sensor of the first cell of the list that is a hazard next to it,
and stays Empty when there is none; every other cell keeps its content. -/
theorem scanFold_cell (gridSize : Nat) (c : Int × Int) :
    ∀ (cells : List (Nat × Nat)) (w : Grid),
      cellAt (cells.foldl (fun w p => scanCell gridSize w p.1 p.2) w) c.1 c.2 =
        if inBounds gridSize c.1 c.2 = true ∧ cellAt w c.1 c.2 = some EMPTY then
          some ((cells.findSome? (emits w c)).getD EMPTY)
        else cellAt w c.1 c.2 := by
  intro cells
  induction cells with
  | nil =>
    intro w
    simp only [List.foldl_nil, List.findSome?_nil, Option.getD_none]
    split
    · rename_i h; exact h.2
    · rfl
  | cons p cells ih =>
    intro w
    rw [List.foldl_cons, ih, emits_scanCell, scanCell_cell, List.findSome?_cons]
    by_cases hB : inBounds gridSize c.1 c.2 = true ∧ cellAt w c.1 c.2 = some EMPTY
    · simp only [hB, and_self, if_true, true_and]
      cases he : emits w c p with
      | none => simp
      | some t =>
        have ht : t ≠ EMPTY := by
          rcases (emits_some w c p t he).2 with ⟨_, rfl⟩ | ⟨_, rfl⟩ <;> decide
        simp [ht]
    · simp only [hB, if_false]

theorem placeSensors_cell (gridSize : Nat) (w : Grid) (c : Int × Int) :
    cellAt (placeSensors gridSize w) c.1 c.2 =
      if inBounds gridSize c.1 c.2 = true ∧ cellAt w c.1 c.2 = some EMPTY then
        some (((scanOrder gridSize).findSome? (emits w c)).getD EMPTY)
      else cellAt w c.1 c.2 := by
  rw [placeSensors_eq_foldl]
  exact scanFold_cell gridSize c _ w

theorem mem_scanOrder (gridSize : Nat) (p : Nat × Nat) :
    p ∈ scanOrder gridSize ↔ p.1 < gridSize ∧ p.2 < gridSize := by
  obtain ⟨x, y⟩ := p
  simp only [scanOrder, List.mem_flatten, List.mem_map, List.mem_range]
  constructor
  · rintro ⟨l, ⟨y1, hy1, rfl⟩, hmem⟩
    simp only [List.mem_map, List.mem_range, Prod.mk.injEq] at hmem
    obtain ⟨x1, hx1, rfl, rfl⟩ := hmem
    exact ⟨hx1, hy1⟩
  · rintro ⟨hx, hy⟩
    exact ⟨_, ⟨y, hy, rfl⟩, by simp [hx]⟩

theorem sensorOf_ne_empty (c : Option Nat) (t : Nat) (h : sensorOf c = some t) :
    t = BREEZE ∨ t = STENCH := by
  rcases sensorOf_some c t h with ⟨_, h⟩ | ⟨_, h⟩
  · exact Or.inl h
  · exact Or.inr h

/-- C17. After generation, with `w0` the grid as it was when sensor placement
began: no cell of `w0` other than an Empty one is changed, so no Wumpus, Pit
or Gold is overwritten; and for every in-bounds cell that holds Wumpus or Pit
after generation, every in-bounds 4-neighbour of it that was Empty in `w0`
holds a Breeze or a Stench, so is not Empty. -/
theorem sensors_cover_hazards (gridSize : Nat) (draws : List Nat) (world : Grid)
    (hgen : generateWorld gridSize draws = some world) :
    ∃ w0, placeHazards gridSize draws = some w0 ∧ world = placeSensors gridSize w0 ∧
      (∀ x y : Int, cellAt w0 x y ≠ some EMPTY → cellAt world x y = cellAt w0 x y) ∧
      (∀ x y : Int, inBounds gridSize x y = true →
        (cellAt world x y = some WUMPUS ∨ cellAt world x y = some PIT) →
        ∀ d ∈ sensorOffsets, inBounds gridSize (x + d.1) (y + d.2) = true →
          cellAt w0 (x + d.1) (y + d.2) = some EMPTY →
          (cellAt world (x + d.1) (y + d.2) = some BREEZE ∨
            cellAt world (x + d.1) (y + d.2) = some STENCH) ∧
          cellAt world (x + d.1) (y + d.2) ≠ some EMPTY) := by
  rw [generateWorld_eq] at hgen
  obtain ⟨w0, hw0, hw⟩ := Option.map_eq_some'.1 hgen
  subst hw
  have hkeep : ∀ x y : Int, cellAt w0 x y ≠ some EMPTY →
      cellAt (placeSensors gridSize w0) x y = cellAt w0 x y := by
    intro x y hne
    have := placeSensors_cell gridSize w0 (x, y)
    simp only at this
    rw [this, if_neg (fun h => hne h.2)]
  refine ⟨w0, hw0, rfl, hkeep, ?_⟩
  intro x y hin hhaz d hd hdin hempty
  -- the hazard was there before sensor placement
  have hhaz0 : cellAt w0 x y = some WUMPUS ∨ cellAt w0 x y = some PIT := by
    have := placeSensors_cell gridSize w0 (x, y)
    simp only at this
    rw [this] at hhaz
    split at hhaz
    · exfalso
      cases he : (scanOrder gridSize).findSome? (emits w0 (x, y)) with
      | none => rw [he] at hhaz; simp at hhaz
      | some t =>
        rw [he] at hhaz
        obtain ⟨p, _, hp⟩ := List.exists_of_findSome?_eq_some he
        rcases (emits_some w0 (x, y) p t hp).2 with ⟨_, rfl⟩ | ⟨_, rfl⟩ <;> simp at hhaz
    · exact hhaz
  rw [inBounds_iff] at hin
  have hcell := placeSensors_cell gridSize w0 (x + d.1, y + d.2)
  simp only at hcell
  rw [hcell, if_pos ⟨hdin, hempty⟩]
  -- the scan passes the hazard, which emits a sensor to this neighbour
  have hp : (x.toNat, y.toNat) ∈ scanOrder gridSize := by
    rw [mem_scanOrder]; constructor <;> simp only <;> omega
  have hx : ((x.toNat : Nat) : Int) = x := Int.toNat_of_nonneg hin.1
  have hy : ((y.toNat : Nat) : Int) = y := Int.toNat_of_nonneg hin.2.2.1
  have hemit : (emits w0 (x + d.1, y + d.2) (x.toNat, y.toNat)).isSome = true := by
    unfold emits
    simp only [hx, hy]
    have hadj : (x + d.1 - x, y + d.2 - y) ∈ sensorOffsets := by
      have e : (x + d.1 - x, y + d.2 - y) = d := by ext <;> simp
      rw [e]; exact hd
    rw [if_pos hadj]
    unfold sensorOf
    rcases hhaz0 with h | h <;> rw [h] <;> rfl
  cases he : (scanOrder gridSize).findSome? (emits w0 (x + d.1, y + d.2)) with
  | none =>
    have := List.findSome?_eq_none_iff.1 he _ hp
    rw [this] at hemit
    cases hemit
  | some t =>
    obtain ⟨q, _, hq⟩ := List.exists_of_findSome?_eq_some he
    rcases (emits_some w0 _ q t hq).2 with ⟨_, rfl⟩ | ⟨_, rfl⟩ <;> simp

/-! ## The order in which the scan meets the neighbours of a cell -/

section FirstOfOrdered

variable {α β : Type} (R : α → α → Prop) (f : α → Option β)

theorem findSome?_of_least (L : List α) (hL : L.Pairwise R) (a : α) (v : β) (ha : a ∈ L)
    (hfa : f a = some v) (hmin : ∀ b ∈ L, R b a → f b = none) : L.findSome? f = some v := by
  induction L with
  | nil => cases ha
  | cons x L ih =>
    rw [List.pairwise_cons] at hL
    rcases List.mem_cons.1 ha with h | h
    · subst h
      rw [List.findSome?_cons, hfa]
    · have hx : f x = none := hmin x (List.mem_cons_self _ _) (hL.1 a h)
      rw [List.findSome?_cons, hx]
      exact ih hL.2 h (fun b hb hr => hmin b (List.mem_cons_of_mem _ hb) hr)

theorem least_of_findSome? (hasym : ∀ a b, R a b → ¬ R b a) (L : List α) (hL : L.Pairwise R)
    (v : β) (h : L.findSome? f = some v) :
    ∃ a ∈ L, f a = some v ∧ ∀ b ∈ L, R b a → f b = none := by
  induction L with
  | nil => simp at h
  | cons x L ih =>
    rw [List.pairwise_cons] at hL
    rw [List.findSome?_cons] at h
    cases hx : f x with
    | some w =>
      rw [hx] at h
      simp only [Option.some.injEq] at h
      subst h
      refine ⟨x, List.mem_cons_self _ _, hx, ?_⟩
      intro b hb hr
      rcases List.mem_cons.1 hb with hbx | hbL
      · subst hbx; exact absurd hr (hasym _ _ hr)
      · exact absurd hr (hasym _ _ (hL.1 b hbL))
    | none =>
      rw [hx] at h
      obtain ⟨a, haL, hfa, hmin⟩ := ih hL.2 h
      refine ⟨a, List.mem_cons_of_mem _ haL, hfa, ?_⟩
      intro b hb hr
      rcases List.mem_cons.1 hb with hbx | hbL
      · subst hbx; exact hx
      · exact hmin b hbL hr

/-- Two lists in the same strict order find the same first value when one holds
every element of the other on which `f` is defined. -/
theorem findSome?_eq_of_support (hasym : ∀ a b, R a b → ¬ R b a) (L C : List α)
    (hL : L.Pairwise R) (hC : C.Pairwise R) (hsub : ∀ a ∈ C, a ∈ L)
    (hsupp : ∀ a ∈ L, f a ≠ none → a ∈ C) : L.findSome? f = C.findSome? f := by
  cases hc : C.findSome? f with
  | none =>
    rw [List.findSome?_eq_none_iff] at hc ⊢
    intro a ha
    by_contra hne
    exact hne (hc a (hsupp a ha hne))
  | some v =>
    obtain ⟨a, haC, hfa, hmin⟩ := least_of_findSome? R f hasym C hC v hc
    refine findSome?_of_least R f L hL a v (hsub a haC) hfa ?_
    intro b hb hr
    by_contra hne
    exact hne (hmin b (hsupp b hb hne) hr)

end FirstOfOrdered

theorem rowMajor_asymm (a b : Nat × Nat) (h : RowMajor a b) : ¬ RowMajor b a := by
  unfold RowMajor at *
  omega

theorem scanOrder_pairwise (gridSize : Nat) : (scanOrder gridSize).Pairwise RowMajor := by
  unfold scanOrder
  rw [List.pairwise_flatten]
  constructor
  · intro l hl
    obtain ⟨y, _, rfl⟩ := List.mem_map.1 hl
    rw [List.pairwise_map]
    exact (List.pairwise_lt_range gridSize).imp (fun h => Or.inr ⟨rfl, h⟩)
  · rw [List.pairwise_map]
    refine (List.pairwise_lt_range gridSize).imp ?_
    intro y1 y2 hlt a ha b hb
    obtain ⟨x1, _, rfl⟩ := List.mem_map.1 ha
    obtain ⟨x2, _, rfl⟩ := List.mem_map.1 hb
    exact Or.inl hlt

theorem neighbourCells_pairwise (gridSize : Nat) (x y : Int) :
    (neighbourCells gridSize x y).Pairwise RowMajor := by
  unfold neighbourCells
  have hoff : scanNeighbours.Pairwise
      (fun d e : Int × Int => d.2 < e.2 ∨ (d.2 = e.2 ∧ d.1 < e.1)) := by
    unfold scanNeighbours
    decide
  refine List.Pairwise.filterMap _ ?_ hoff
  intro d e hde a ha b hb
  simp only [Option.mem_def] at ha hb
  split at ha
  · rename_i hda
    split at hb
    · rename_i heb
      rw [inBounds_iff] at hda heb
      simp only [Option.some.injEq] at ha hb
      subst ha hb
      unfold RowMajor
      simp only
      omega
    · cases hb
  · cases ha

theorem mem_neighbourCells (gridSize : Nat) (x y : Int) (a : Nat × Nat) :
    a ∈ neighbourCells gridSize x y ↔
      a.1 < gridSize ∧ a.2 < gridSize ∧ ((a.1 : Int) - x, (a.2 : Int) - y) ∈ scanNeighbours := by
  unfold neighbourCells
  simp only [List.mem_filterMap]
  constructor
  · rintro ⟨d, hd, ha⟩
    split at ha
    · rename_i hin
      rw [inBounds_iff] at hin
      simp only [Option.some.injEq] at ha
      subst ha
      refine ⟨by simp only; omega, by simp only; omega, ?_⟩
      have e : ((((x + d.1).toNat : Nat) : Int) - x, (((y + d.2).toNat : Nat) : Int) - y) = d := by
        ext
        · simp only [Int.toNat_of_nonneg hin.1]; omega
        · simp only [Int.toNat_of_nonneg hin.2.2.1]; omega
      rw [e]; exact hd
    · cases ha
  · rintro ⟨h1, h2, hd⟩
    refine ⟨_, hd, ?_⟩
    have hin : inBounds gridSize (x + ((a.1 : Int) - x)) (y + ((a.2 : Int) - y)) = true := by
      rw [inBounds_iff]; omega
    simp only [hin, if_true, Option.some.injEq]
    ext <;> simp

theorem emits_neighbour (gridSize : Nat) (w : Grid) (x y : Int) (d : Int × Int)
    (hd : d ∈ scanNeighbours)
    (hin : inBounds gridSize (x + d.1) (y + d.2) = true) :
    emits w (x, y) ((x + d.1).toNat, (y + d.2).toNat) = sensorOf (cellAt w (x + d.1) (y + d.2)) := by
  rw [inBounds_iff] at hin
  unfold emits
  simp only [Int.toNat_of_nonneg hin.1, Int.toNat_of_nonneg hin.2.2.1]
  have e : (x - (x + d.1), y - (y + d.2)) = (-d.1, -d.2) := by ext <;> simp
  rw [e, if_pos]
  unfold scanNeighbours at hd
  unfold sensorOffsets
  simp only [List.mem_cons, List.mem_singleton, List.not_mem_nil, or_false] at hd
  rcases hd with rfl | rfl | rfl | rfl <;> decide

theorem findSome?_neighbourCells (gridSize : Nat) (w : Grid) (x y : Int) :
    (neighbourCells gridSize x y).findSome? (emits w (x, y)) = firstSensor gridSize w x y := by
  unfold neighbourCells firstSensor
  have key : ∀ ds : List (Int × Int), (∀ d ∈ ds, d ∈ scanNeighbours) →
      (ds.filterMap fun d =>
        if inBounds gridSize (x + d.1) (y + d.2) then some ((x + d.1).toNat, (y + d.2).toNat)
        else none).findSome? (emits w (x, y)) =
      ds.findSome? fun d =>
        if inBounds gridSize (x + d.1) (y + d.2) then sensorOf (cellAt w (x + d.1) (y + d.2))
        else none := by
    intro ds
    induction ds with
    | nil => intro _; rfl
    | cons d ds ih =>
      intro hds
      have ih' := ih (fun e he => hds e (List.mem_cons_of_mem _ he))
      rw [List.filterMap_cons, List.findSome?_cons]
      by_cases hin : inBounds gridSize (x + d.1) (y + d.2) = true
      · simp only [hin, if_true]
        rw [List.findSome?_cons, emits_neighbour gridSize w x y d (hds d (List.mem_cons_self _ _)) hin,
          ih']
      · simp only [hin, Bool.false_eq_true, if_false]
        exact ih'
  exact key scanNeighbours (fun d hd => hd)

/-- The scan meets the hazards next to a cell in row-major order: the first
that emits a sensor to the cell is the first hazard among its neighbours above,
left, right and below. -/
theorem findSome?_scanOrder (gridSize : Nat) (w : Grid) (x y : Int) :
    (scanOrder gridSize).findSome? (emits w (x, y)) = firstSensor gridSize w x y := by
  rw [← findSome?_neighbourCells]
  apply findSome?_eq_of_support RowMajor (emits w (x, y)) rowMajor_asymm _ _
    (scanOrder_pairwise gridSize) (neighbourCells_pairwise gridSize x y)
  · intro a ha
    rw [mem_neighbourCells] at ha
    rw [mem_scanOrder]
    exact ⟨ha.1, ha.2.1⟩
  · intro a ha hne
    rw [mem_scanOrder] at ha
    rw [mem_neighbourCells]
    refine ⟨ha.1, ha.2, ?_⟩
    unfold emits at hne
    split at hne
    · rename_i hadj
      unfold sensorOffsets at hadj
      unfold scanNeighbours
      simp only [List.mem_cons, List.mem_singleton, List.not_mem_nil, or_false,
        Prod.mk.injEq] at hadj ⊢
      omega
    · exact absurd rfl hne

/-! ## The grid before and after sensor placement -/

theorem set_same {β : Type} (l : List β) (i : Nat) (a : β) (h : l[i]? = some a) :
    l.set i a = l := by
  induction l generalizing i with
  | nil => rfl
  | cons x l ih =>
    cases i with
    | zero =>
      simp only [List.getElem?_cons_zero, Option.some.injEq] at h
      rw [List.set_cons_zero, h]
    | succ i =>
      simp only [List.getElem?_cons_succ] at h
      rw [List.set_cons_succ, ih i h]

theorem cellAt_setCell_some (w : Grid) (x y a b : Int) (v c : Nat)
    (h : cellAt (setCell w x y v) a b = some c) : c = v ∨ cellAt w a b = some c := by
  by_cases hsame : (a, b) = (x, y)
  · have ha : a = x := congrArg Prod.fst hsame
    have hb : b = y := congrArg Prod.snd hsame
    subst ha hb
    by_cases hnone : cellAt w a b = none
    · right
      have hset : setCell w a b v = w := by
        unfold setCell
        unfold cellAt at hnone
        by_cases hneg : a < 0 ∨ b < 0
        · simp [hneg]
        · simp only [hneg, if_false] at hnone ⊢
          cases hrow : w[b.toNat]? with
          | none => rfl
          | some row =>
            simp only [hrow] at hnone
            have hlen : row.length ≤ a.toNat := by
              by_contra hc
              rw [List.getElem?_eq_getElem (by omega)] at hnone
              cases hnone
            simp only
            rw [List.set_eq_of_length_le hlen]
            exact set_same w b.toNat row hrow
      rw [hset] at h
      exact h
    · left
      rw [cellAt_setCell_self _ _ _ _ hnone] at h
      exact (Option.some.inj h).symm
  · right
    rw [cellAt_setCell_other _ _ _ _ _ _ hsame] at h
    exact h

theorem onlyPlaced_setCell (w : Grid) (x y : Int) (v : Nat) (h : OnlyPlaced w)
    (hv : v = EMPTY ∨ v = WUMPUS ∨ v = PIT ∨ v = GOLD) : OnlyPlaced (setCell w x y v) := by
  intro a b c hc
  rcases cellAt_setCell_some w x y a b v c hc with h1 | h1
  · rw [h1]; exact hv
  · exact h a b c h1

theorem onlyPlaced_placePits :
    ∀ (rounds : Nat) (w : Grid) (draws : List Nat) (w1 : Grid) (rest : List Nat),
      OnlyPlaced w → placePits w rounds draws = some (w1, rest) → OnlyPlaced w1 := by
  intro rounds
  induction rounds with
  | zero =>
    intro w draws w1 rest h hp
    simp only [placePits, Option.some.injEq, Prod.mk.injEq] at hp
    rw [← hp.1]; exact h
  | succ rounds ih =>
    intro w draws w1 rest h hp
    unfold placePits at hp
    cases hd : drawFree w draws with
    | none => simp [hd] at hp
    | some r =>
      obtain ⟨pitX, pitY, tail⟩ := r
      simp only [hd] at hp
      exact ih _ _ _ _ (onlyPlaced_setCell w pitX pitY PIT h (Or.inr (Or.inr (Or.inl rfl)))) hp

theorem onlyPlaced_placeHazards (gridSize : Nat) (draws : List Nat) (w0 : Grid)
    (h : placeHazards gridSize draws = some w0) : OnlyPlaced w0 := by
  unfold placeHazards at h
  cases hw : drawWumpus draws with
  | none => simp [hw] at h
  | some r =>
    obtain ⟨wumpusX, wumpusY, rest⟩ := r
    simp only [hw] at h
    have h0 : OnlyPlaced (emptyWorld gridSize) := by
      intro a b c hc
      exact Or.inl (cellAt_emptyWorld gridSize a b c hc)
    have h1 := onlyPlaced_setCell _ wumpusX wumpusY WUMPUS h0 (Or.inr (Or.inl rfl))
    cases hp : placePits (setCell (emptyWorld gridSize) wumpusX wumpusY WUMPUS)
        (numPits gridSize) rest with
    | none => simp [hp] at h
    | some r2 =>
      obtain ⟨newWorld, rest2⟩ := r2
      simp only [hp] at h
      have h2 := onlyPlaced_placePits _ _ _ _ _ h1 hp
      cases hg : drawFree newWorld rest2 with
      | none => simp [hg] at h
      | some r3 =>
        obtain ⟨goldX, goldY, rest3⟩ := r3
        simp only [hg, Option.some.injEq] at h
        rw [← h]
        exact onlyPlaced_setCell _ goldX goldY GOLD h2 (Or.inr (Or.inr (Or.inr rfl)))

theorem neg_mem_sensorOffsets (a b : Int) (h : (a, b) ∈ sensorOffsets) :
    (-a, -b) ∈ sensorOffsets := by
  unfold sensorOffsets at *
  simp only [List.mem_cons, List.mem_singleton, List.not_mem_nil, or_false, Prod.mk.injEq] at h ⊢
  omega

/-- A sensor of the generated grid has the hazard that emits it next to it. -/
theorem sensor_has_source (gridSize : Nat) (w0 : Grid) (hw0 : OnlyPlaced w0) (x y : Int)
    (t : Nat) (ht : t = BREEZE ∨ t = STENCH)
    (h : cellAt (placeSensors gridSize w0) x y = some t) :
    ∃ d ∈ sensorOffsets, sensorOf (cellAt (placeSensors gridSize w0) (x + d.1) (y + d.2)) =
      some t := by
  have hcell := placeSensors_cell gridSize w0 (x, y)
  simp only at hcell
  rw [hcell] at h
  split at h
  · cases he : (scanOrder gridSize).findSome? (emits w0 (x, y)) with
    | none =>
      rw [he] at h
      simp only [Option.getD_none, Option.some.injEq] at h
      rcases ht with rfl | rfl <;> cases h
    | some v =>
      rw [he] at h
      simp only [Option.getD_some, Option.some.injEq] at h
      subst h
      obtain ⟨p, _, hp⟩ := List.exists_of_findSome?_eq_some he
      have hadj : (x - (p.1 : Int), y - (p.2 : Int)) ∈ sensorOffsets := (emits_some w0 _ p v hp).1
      refine ⟨(-(x - (p.1 : Int)), -(y - (p.2 : Int))), neg_mem_sensorOffsets _ _ hadj, ?_⟩
      have e1 : x + -(x - (p.1 : Int)) = (p.1 : Int) := by omega
      have e2 : y + -(y - (p.2 : Int)) = (p.2 : Int) := by omega
      simp only [e1, e2]
      have hsens : sensorOf (cellAt w0 (p.1 : Int) (p.2 : Int)) = some v := by
        unfold emits at hp
        rw [if_pos hadj] at hp
        exact hp
      have hkeep := placeSensors_cell gridSize w0 ((p.1 : Int), (p.2 : Int))
      simp only at hkeep
      rw [hkeep, if_neg]
      · exact hsens
      · intro hc
        rw [hc.2] at hsens
        cases hsens
  · exfalso
    rcases hw0 x y t h with h1 | h1 | h1 | h1 <;> rcases ht with h2 | h2 <;>
      · rw [h1] at h2; revert h2; decide

/-- C19. After generation, with `w0` the grid as it was when sensor placement
began: every in-bounds cell that was Empty in `w0` holds the sensor of the
first hazard among its in-bounds neighbours above, left, right and below (the
order in which the row-major scan visits them), Breeze for a Pit and Stench for
the Wumpus, and is Empty when none of them is a hazard. Consequently every
Breeze cell has a Pit among its 4-neighbours and every Stench cell has the
Wumpus among its 4-neighbours. -/
theorem sensors_by_scan (gridSize : Nat) (draws : List Nat) (world : Grid)
    (hgen : generateWorld gridSize draws = some world) :
    ∃ w0, placeHazards gridSize draws = some w0 ∧ world = placeSensors gridSize w0 ∧
      (∀ x y : Int, inBounds gridSize x y = true → cellAt w0 x y = some EMPTY →
        cellAt world x y = some ((firstSensor gridSize w0 x y).getD EMPTY)) ∧
      (∀ x y : Int, cellAt world x y = some BREEZE →
        ∃ d ∈ sensorOffsets, cellAt world (x + d.1) (y + d.2) = some PIT) ∧
      (∀ x y : Int, cellAt world x y = some STENCH →
        ∃ d ∈ sensorOffsets, cellAt world (x + d.1) (y + d.2) = some WUMPUS) := by
  rw [generateWorld_eq] at hgen
  obtain ⟨w0, hw0, hw⟩ := Option.map_eq_some'.1 hgen
  subst hw
  have hplaced := onlyPlaced_placeHazards gridSize draws w0 hw0
  refine ⟨w0, hw0, rfl, ?_, ?_, ?_⟩
  · intro x y hin hempty
    have hcell := placeSensors_cell gridSize w0 (x, y)
    simp only at hcell
    rw [hcell, if_pos ⟨hin, hempty⟩, findSome?_scanOrder]
  · intro x y hb
    obtain ⟨d, hd, hs⟩ := sensor_has_source gridSize w0 hplaced x y BREEZE (Or.inl rfl) hb
    refine ⟨d, hd, ?_⟩
    rcases sensorOf_some _ _ hs with ⟨h, _⟩ | ⟨_, h⟩
    · exact h
    · exact absurd h (by decide)
  · intro x y hb
    obtain ⟨d, hd, hs⟩ := sensor_has_source gridSize w0 hplaced x y STENCH (Or.inr rfl) hb
    refine ⟨d, hd, ?_⟩
    rcases sensorOf_some _ _ hs with ⟨_, h⟩ | ⟨h, _⟩
    · exact absurd h (by decide)
    · exact h

/-! ## Autoplay timers -/

theorem movePlayerFrom_self (gridSize : Nat) (s : GameState) (dx dy : Int) :
    movePlayerFrom gridSize s s dx dy = movePlayer gridSize s dx dy := rfl

/-- The timer of the effect is cleared when autoplay is switched off and when the game is reset. -/
theorem preTimer_cleared (gridSize : Nat) (a a1 : AutoplaySystem) :
    (a.game.gameState = PLAYING → a.game.aiActive = true →
      autoplayStep gridSize a AutoplayEvent.toggle = some a1 → a1.preTimer = none) ∧
    (∀ draws, autoplayStep gridSize a (AutoplayEvent.reset draws) = some a1 →
      a1.preTimer = none) := by
  constructor
  · intro hplay hact h
    simp only [autoplayStep, hplay, ne_eq, not_true_eq_false, if_false, Option.some.injEq] at h
    rw [← h]
    simp [runEffect, hact]
  · intro draws h
    simp only [autoplayStep] at h
    cases hr : resetGame gridSize a.game draws with
    | none => simp [hr] at h
    | some s =>
      simp only [hr, Option.some.injEq] at h
      rw [← h]
      have hs : s.aiActive = false := by
        unfold resetGame at hr
        cases hg : generateWorld gridSize draws with
        | none => simp [hg] at hr
        | some w =>
          simp only [hg, Option.some.injEq] at hr
          rw [← hr]
      simp [runEffect, hs]

set_option maxRecDepth 100000 in
/-- C16, failing trace. Autoplay is switched on, the timer of the effect fires
and `runAI` starts its timeout; then autoplay is switched off, or the game is
reset. The timer of the effect is gone, but the timeout of `runAI` is still
pending, and when it fires the move it chose is applied: the player is moved
from (0,0) to (1,0), (1,0) is added to the visited set and the score drops to
−1, with autoplay off. After the reset the move lands on the new grid, where
(1,0) holds a Pit, and the status stays Playing. -/
theorem stale_think_timer_moves :
    (autoplayRun 4 { game := sampleState, preTimer := none, thinkTimers := [] }
        [AutoplayEvent.toggle, AutoplayEvent.preFires, AutoplayEvent.toggle]).map
      (fun a => (a.game.aiActive, a.preTimer.isSome, a.thinkTimers.length)) =
      some (false, false, 1) ∧
    (autoplayRun 4 { game := sampleState, preTimer := none, thinkTimers := [] }
        [AutoplayEvent.toggle, AutoplayEvent.preFires, AutoplayEvent.toggle]).map
      (fun a => (a.game.playerPosition, a.game.visited, a.game.score)) =
      some ({ x := 0, y := 0 }, [(0, 0)], 0) ∧
    (autoplayRun 4 { game := sampleState, preTimer := none, thinkTimers := [] }
        [AutoplayEvent.toggle, AutoplayEvent.preFires, AutoplayEvent.toggle,
          AutoplayEvent.thinkFires]).map
      (fun a => (a.game.aiActive, a.game.playerPosition, a.game.visited, a.game.score)) =
      some (false, { x := 1, y := 0 }, [(0, 0), (1, 0)], -1) ∧
    (autoplayRun 4 { game := sampleState, preTimer := none, thinkTimers := [] }
        [AutoplayEvent.toggle, AutoplayEvent.preFires, AutoplayEvent.reset cornerDraws]).map
      (fun a => (a.game.aiActive, a.preTimer.isSome, a.thinkTimers.length)) =
      some (false, false, 1) ∧
    (autoplayRun 4 { game := sampleState, preTimer := none, thinkTimers := [] }
        [AutoplayEvent.toggle, AutoplayEvent.preFires, AutoplayEvent.reset cornerDraws]).map
      (fun a => (a.game.world, a.game.playerPosition, a.game.visited, a.game.score)) =
      some (cornerWorld, { x := 0, y := 0 }, [(0, 0)], 0) ∧
    (autoplayRun 4 { game := sampleState, preTimer := none, thinkTimers := [] }
        [AutoplayEvent.toggle, AutoplayEvent.preFires, AutoplayEvent.reset cornerDraws,
          AutoplayEvent.thinkFires]).map
      (fun a => (a.game.world, a.game.playerPosition, a.game.visited, a.game.score)) =
      some (cornerWorld, { x := 1, y := 0 }, [(0, 0), (1, 0)], -1) ∧
    (autoplayRun 4 { game := sampleState, preTimer := none, thinkTimers := [] }
        [AutoplayEvent.toggle, AutoplayEvent.preFires, AutoplayEvent.reset cornerDraws,
          AutoplayEvent.thinkFires]).map
      (fun a => (a.game.aiActive, a.game.gameState, cellAt a.game.world 1 0)) =
      some (false, PLAYING, some PIT) := by
  refine ⟨?_, ?_, ?_, ?_, ?_, ?_, ?_⟩ <;> decide

/-! ## Further instances on the sample grids -/

/-- C11, instance: at the start of the grid of `cornerDraws`, with pits both to
the right, at (1,0), and below, at (0,1), the move chosen is Right. -/
theorem bestMove_earliest_witness :
    resetGame 4 initialState cornerDraws = some cornerState ∧
      cellAt cornerState.world 1 0 = some PIT ∧ cellAt cornerState.world 0 1 = some PIT ∧
      ∃ m, bestMove 4 cornerState = some m ∧ (m.dx, m.dy) = (1, 0) := by
  refine ⟨by decide, by decide, by decide, ?_⟩
  obtain ⟨m, hm, hmdir, hmin, hall⟩ := bestMove_earliest 4 cornerState 1 0 (by decide)
    (by decide) (by decide)
  refine ⟨m, hm, ?_⟩
  have hright := (hall (1, 0) (by decide) (by decide)).2
  obtain ⟨mdx, mdy, nm⟩ := m
  simp only [unitDirections, List.mem_cons, Prod.mk.injEq, List.mem_singleton,
    List.not_mem_nil, or_false] at hmdir
  rcases hmdir with ⟨h1, h2⟩ | ⟨h1, h2⟩ | ⟨h1, h2⟩ | ⟨h1, h2⟩ <;> subst h1 h2
  · have hup : inBounds 4 (cornerState.playerPosition.x + 0)
        (cornerState.playerPosition.y + -1) = true := hmin
    exact absurd hup (by decide)
  · rfl
  · have hdown : dirIndex (0, 1) ≤ dirIndex (1, 0) := hright rfl
    exact absurd hdown (by decide)
  · have hleft : inBounds 4 (cornerState.playerPosition.x + -1)
        (cornerState.playerPosition.y + 0) = true := hmin
    exact absurd hleft (by decide)

/-- C12, instance: at (2,0) on the sample grid, with the visited Breeze (1,0) to
the left, the Wumpus below and the unvisited Empty cell (3,0) to the right,
the move chosen leads to an unvisited cell without Breeze or Stench. -/
theorem bestMove_prefers_witness :
    ∃ m, bestMove 4 scoutState = some m ∧
      isVisited scoutState.visited (2 + m.dx) (0 + m.dy) = false ∧
      cellAt sampleWorld (2 + m.dx) (0 + m.dy) ≠ some BREEZE ∧
      cellAt sampleWorld (2 + m.dx) (0 + m.dy) ≠ some STENCH := by
  obtain ⟨m, hm, _, _, _, _, hunv, hmark⟩ := bestMove_prefers 4 scoutState 1 0 (by decide)
    (by decide) (by decide) (by decide)
  exact ⟨m, hm, hunv ⟨(1, 0), by decide, by decide, by decide, by decide, by decide⟩,
    hmark (1, 0) (by decide) (by decide) (by decide) (by decide) (Or.inl (by decide))
      (by decide) (by decide)⟩

/-- A click on Right at the start of the sample grid, onto the Breeze (1,0). -/
theorem movePlayer_effects_witness :
    (movePlayer 4 sampleState 1 0).playerPosition = { x := 1, y := 0 } ∧
      (1, 0) ∈ (movePlayer 4 sampleState 1 0).visited ∧
      (movePlayer 4 sampleState 1 0).gameState = PLAYING ∧
      (movePlayer 4 sampleState 1 0).score = sampleState.score - 1 := by
  obtain ⟨hp, _, hv, _, _, hq⟩ := (movePlayer_effects 4 sampleState 1 0).1 (by decide) (by decide)
  exact ⟨hp, hv, (hq (Or.inr (Or.inl (by decide)))).1, (hq (Or.inr (Or.inl (by decide)))).2⟩

/-- C17, instance: on the sample grid the cell (2,0) above the Wumpus (2,1),
Empty before sensor placement, is not Empty after it. -/
theorem sensors_cover_hazards_witness :
    generateWorld 4 sampleDraws = some sampleWorld ∧
      cellAt sampleHazards (2 + 0) (1 + -1) = some EMPTY ∧
      cellAt sampleWorld (2 + 0) (1 + -1) ≠ some EMPTY := by
  obtain ⟨w0, h0, _, _, hcover⟩ := sensors_cover_hazards 4 sampleDraws sampleWorld (by decide)
  have hw0 : w0 = sampleHazards := Option.some.inj (h0.symm.trans (by decide))
  subst hw0
  exact ⟨by decide, by decide,
    (hcover 2 1 (by decide) (Or.inl (by decide)) (0, -1) (by decide) (by decide) (by decide)).2⟩

/-- C18, instance: the state reached by two moves Right on the sample grid. -/
theorem visited_grows_witness :
    resetGame 4 initialState sampleDraws = some sampleState ∧
      applyCommands 4 4 sampleState [Command.move 1 0, Command.move 1 0] = some scoutState ∧
      (0, 0) ∈ scoutState.visited :=
  ⟨by decide, by decide,
    (visited_grows 4 4 initialState sampleDraws sampleState scoutState
      [Command.move 1 0, Command.move 1 0] (by decide) (by decide)).1⟩

/-- C19, instance: on the grid of `cornerDraws` the cell (3,2) has the Wumpus
(2,2) to its left and the Pit (3,3) below; the Wumpus comes first in row-major
order and the cell holds a Stench. -/
theorem sensors_by_scan_witness :
    generateWorld 4 cornerDraws = some cornerWorld ∧
      firstSensor 4 cornerHazards 3 2 = some STENCH ∧
      cellAt cornerWorld 3 2 = some ((firstSensor 4 cornerHazards 3 2).getD EMPTY) := by
  obtain ⟨w0, h0, _, hcell, _⟩ := sensors_by_scan 4 cornerDraws cornerWorld (by decide)
  have hw0 : w0 = cornerHazards := Option.some.inj (h0.symm.trans (by decide))
  subst hw0
  exact ⟨by decide, by decide, hcell 3 2 (by decide) (by decide)⟩

/-- Clicks only, instance: the state reached by two clicks on Right on the sample grid. -/
theorem reachable_sound_witness :
    inBounds 4 scoutState.playerPosition.x scoutState.playerPosition.y = true ∧
      (scoutState.playerPosition.x, scoutState.playerPosition.y) ∈ scoutState.visited ∧
      countCells scoutState.world WUMPUS ≤ 1 ∧
      (scoutState.gameState = PLAYING →
        cellAt scoutState.world scoutState.playerPosition.x scoutState.playerPosition.y ≠
          some WUMPUS ∧
        cellAt scoutState.world scoutState.playerPosition.x scoutState.playerPosition.y ≠
          some PIT ∧
        cellAt scoutState.world scoutState.playerPosition.x scoutState.playerPosition.y ≠
          some GOLD) :=
  reachable_sound 4 4 initialState sampleDraws sampleState scoutState
    [Command.move 1 0, Command.move 1 0] (by decide) (by decide) (by decide)

/-! ## Autoplay and the buttons together: a move chosen in an older render -/

set_option maxRecDepth 100000 in
/-- C4, failing trace. On the sample grid the player walks Down, Down, Right to
(1,2), autoplay is switched on, the timer of the effect fires and `runAI`
starts its timeout. A click on Up then moves the player into the Pit at (1,1):
the status is Lost and the score −4. When the timeout fires, the `movePlayer`
of the render before the click still reads Playing and the position (1,2); it
moves the player to the Gold at (2,2), adds (2,2) to the visited set, sets the
status to Won and leaves the score at 995: the Lost state was not frozen. -/
theorem stale_move_after_loss :
    (sessionRun 4 4 { game := sampleState, preTimer := none, thinkTimers := [] }
        [SessionEvent.click (Command.move 0 1), SessionEvent.click (Command.move 0 1),
          SessionEvent.click (Command.move 1 0), SessionEvent.autoplay AutoplayEvent.toggle,
          SessionEvent.autoplay AutoplayEvent.preFires,
          SessionEvent.click (Command.move 0 (-1))]).map
      (fun a => (a.game.gameState, a.game.playerPosition, a.game.score, a.thinkTimers.length)) =
      some (LOST, { x := 1, y := 1 }, -4, 1) ∧
    (sessionRun 4 4 { game := sampleState, preTimer := none, thinkTimers := [] }
        [SessionEvent.click (Command.move 0 1), SessionEvent.click (Command.move 0 1),
          SessionEvent.click (Command.move 1 0), SessionEvent.autoplay AutoplayEvent.toggle,
          SessionEvent.autoplay AutoplayEvent.preFires,
          SessionEvent.click (Command.move 0 (-1))]).map
      (fun a => (a.game.visited, a.game.message)) =
      some ([(0, 0), (0, 1), (0, 2), (1, 2), (1, 1)], "You fell into a pit! Game over.") ∧
    (sessionRun 4 4 { game := sampleState, preTimer := none, thinkTimers := [] }
        [SessionEvent.click (Command.move 0 1), SessionEvent.click (Command.move 0 1),
          SessionEvent.click (Command.move 1 0), SessionEvent.autoplay AutoplayEvent.toggle,
          SessionEvent.autoplay AutoplayEvent.preFires,
          SessionEvent.click (Command.move 0 (-1)),
          SessionEvent.autoplay AutoplayEvent.thinkFires]).map
      (fun a => (a.game.gameState, a.game.playerPosition, a.game.score)) =
      some (WON, { x := 2, y := 2 }, 995) ∧
    (sessionRun 4 4 { game := sampleState, preTimer := none, thinkTimers := [] }
        [SessionEvent.click (Command.move 0 1), SessionEvent.click (Command.move 0 1),
          SessionEvent.click (Command.move 1 0), SessionEvent.autoplay AutoplayEvent.toggle,
          SessionEvent.autoplay AutoplayEvent.preFires,
          SessionEvent.click (Command.move 0 (-1)),
          SessionEvent.autoplay AutoplayEvent.thinkFires]).map
      (fun a => (a.game.visited, a.game.message)) =
      some ([(0, 0), (0, 1), (0, 2), (1, 2), (1, 1), (2, 2)], "You found the gold! You win!") := by
  refine ⟨?_, ?_, ?_, ?_⟩ <;> decide

set_option maxRecDepth 100000 in
/-- C5, failing traces. On the sample grid the player walks Down, Down to
(0,2), autoplay is switched on, the timer of the effect fires and `runAI`
starts its timeout, which will call `movePlayer(1, 0)`. A click on Right moves
the player to (1,2), next to the Gold at (2,2). When the timeout fires, its
`movePlayer(1, 0)` is called in a Playing state whose destination (2,2) is in
bounds and holds Gold; the status stays Playing, the player stays on (1,2) and
the score goes from −3 to −4. In the second trace the game is reset while the
timeout is pending, onto a grid with the Gold at (1,0); the call
`movePlayer(1, 0)` puts the player on the Gold, the status stays Playing and
the score goes from 0 to −1. -/
theorem stale_move_misses_gold :
    (sessionRun 4 4 { game := sampleState, preTimer := none, thinkTimers := [] }
        [SessionEvent.click (Command.move 0 1), SessionEvent.click (Command.move 0 1),
          SessionEvent.autoplay AutoplayEvent.toggle,
          SessionEvent.autoplay AutoplayEvent.preFires,
          SessionEvent.click (Command.move 1 0)]).map
      (fun a => (a.game.gameState, a.game.playerPosition, a.game.score,
        cellAt a.game.world (a.game.playerPosition.x + 1) (a.game.playerPosition.y + 0))) =
      some (PLAYING, { x := 1, y := 2 }, -3, some GOLD) ∧
    (sessionRun 4 4 { game := sampleState, preTimer := none, thinkTimers := [] }
        [SessionEvent.click (Command.move 0 1), SessionEvent.click (Command.move 0 1),
          SessionEvent.autoplay AutoplayEvent.toggle,
          SessionEvent.autoplay AutoplayEvent.preFires,
          SessionEvent.click (Command.move 1 0)]).map
      (fun a => a.thinkTimers.map (fun c => (bestMove 4 c).map (fun m => (m.dx, m.dy)))) =
      some [some (1, 0)] ∧
    (sessionRun 4 4 { game := sampleState, preTimer := none, thinkTimers := [] }
        [SessionEvent.click (Command.move 0 1), SessionEvent.click (Command.move 0 1),
          SessionEvent.autoplay AutoplayEvent.toggle,
          SessionEvent.autoplay AutoplayEvent.preFires,
          SessionEvent.click (Command.move 1 0),
          SessionEvent.autoplay AutoplayEvent.thinkFires]).map
      (fun a => (a.game.gameState, a.game.playerPosition, a.game.score)) =
      some (PLAYING, { x := 1, y := 2 }, -4) ∧
    (sessionRun 4 4 { game := sampleState, preTimer := none, thinkTimers := [] }
        [SessionEvent.autoplay AutoplayEvent.toggle,
          SessionEvent.autoplay AutoplayEvent.preFires,
          SessionEvent.autoplay (AutoplayEvent.reset goldRightDraws)]).map
      (fun a => (a.game.gameState, a.game.playerPosition, a.game.score,
        cellAt a.game.world (a.game.playerPosition.x + 1) (a.game.playerPosition.y + 0))) =
      some (PLAYING, { x := 0, y := 0 }, 0, some GOLD) ∧
    (sessionRun 4 4 { game := sampleState, preTimer := none, thinkTimers := [] }
        [SessionEvent.autoplay AutoplayEvent.toggle,
          SessionEvent.autoplay AutoplayEvent.preFires,
          SessionEvent.autoplay (AutoplayEvent.reset goldRightDraws)]).map
      (fun a => a.thinkTimers.map (fun c => (bestMove 4 c).map (fun m => (m.dx, m.dy)))) =
      some [some (1, 0)] ∧
    (sessionRun 4 4 { game := sampleState, preTimer := none, thinkTimers := [] }
        [SessionEvent.autoplay AutoplayEvent.toggle,
          SessionEvent.autoplay AutoplayEvent.preFires,
          SessionEvent.autoplay (AutoplayEvent.reset goldRightDraws),
          SessionEvent.autoplay AutoplayEvent.thinkFires]).map
      (fun a => (a.game.gameState, a.game.playerPosition, a.game.score,
        cellAt a.game.world a.game.playerPosition.x a.game.playerPosition.y)) =
      some (PLAYING, { x := 1, y := 0 }, -1, some GOLD) := by
  refine ⟨?_, ?_, ?_, ?_, ?_, ?_⟩ <;> decide

set_option maxRecDepth 100000 in
/-- C6, failing traces. On the sample grid the player walks Right, Right to
(2,0), autoplay is switched on, the timer of the effect fires and `runAI`
starts its timeout, which will call `movePlayer(1, 0)`. In the first trace a
click on Down moves the player onto the Wumpus at (2,1): the status is Lost.
When the timeout fires, its `movePlayer(1, 0)` is called with the status Lost,
and it changes the position, the visited set, the score and the message. In
the second trace a click on Right moves the player to (3,0), the last column.
When the timeout fires, the destination of its `movePlayer(1, 0)` lies outside
the grid, and the score goes from −3 to −4. -/
theorem stale_move_not_noop :
    (sessionRun 4 4 { game := sampleState, preTimer := none, thinkTimers := [] }
        [SessionEvent.click (Command.move 1 0), SessionEvent.click (Command.move 1 0),
          SessionEvent.autoplay AutoplayEvent.toggle,
          SessionEvent.autoplay AutoplayEvent.preFires]).map
      (fun a => a.thinkTimers.map (fun c => (bestMove 4 c).map (fun m => (m.dx, m.dy)))) =
      some [some (1, 0)] ∧
    (sessionRun 4 4 { game := sampleState, preTimer := none, thinkTimers := [] }
        [SessionEvent.click (Command.move 1 0), SessionEvent.click (Command.move 1 0),
          SessionEvent.autoplay AutoplayEvent.toggle,
          SessionEvent.autoplay AutoplayEvent.preFires,
          SessionEvent.click (Command.move 0 1)]).map
      (fun a => (a.game.gameState, a.game.playerPosition, a.game.score, a.game.visited)) =
      some (LOST, { x := 2, y := 1 }, -3, [(0, 0), (1, 0), (2, 0), (2, 1)]) ∧
    (sessionRun 4 4 { game := sampleState, preTimer := none, thinkTimers := [] }
        [SessionEvent.click (Command.move 1 0), SessionEvent.click (Command.move 1 0),
          SessionEvent.autoplay AutoplayEvent.toggle,
          SessionEvent.autoplay AutoplayEvent.preFires,
          SessionEvent.click (Command.move 0 1)]).map
      (fun a => a.game.message) = some "You were eaten by the Wumpus! Game over." ∧
    (sessionRun 4 4 { game := sampleState, preTimer := none, thinkTimers := [] }
        [SessionEvent.click (Command.move 1 0), SessionEvent.click (Command.move 1 0),
          SessionEvent.autoplay AutoplayEvent.toggle,
          SessionEvent.autoplay AutoplayEvent.preFires,
          SessionEvent.click (Command.move 0 1),
          SessionEvent.autoplay AutoplayEvent.thinkFires]).map
      (fun a => (a.game.gameState, a.game.playerPosition, a.game.score, a.game.visited)) =
      some (LOST, { x := 3, y := 0 }, -4, [(0, 0), (1, 0), (2, 0), (2, 1), (3, 0)]) ∧
    (sessionRun 4 4 { game := sampleState, preTimer := none, thinkTimers := [] }
        [SessionEvent.click (Command.move 1 0), SessionEvent.click (Command.move 1 0),
          SessionEvent.autoplay AutoplayEvent.toggle,
          SessionEvent.autoplay AutoplayEvent.preFires,
          SessionEvent.click (Command.move 0 1),
          SessionEvent.autoplay AutoplayEvent.thinkFires]).map
      (fun a => a.game.message) = some "All is quiet..." ∧
    (sessionRun 4 4 { game := sampleState, preTimer := none, thinkTimers := [] }
        [SessionEvent.click (Command.move 1 0), SessionEvent.click (Command.move 1 0),
          SessionEvent.autoplay AutoplayEvent.toggle,
          SessionEvent.autoplay AutoplayEvent.preFires,
          SessionEvent.click (Command.move 1 0)]).map
      (fun a => (a.game.gameState, a.game.playerPosition, a.game.score,
        inBounds 4 (a.game.playerPosition.x + 1) (a.game.playerPosition.y + 0))) =
      some (PLAYING, { x := 3, y := 0 }, -3, false) ∧
    (sessionRun 4 4 { game := sampleState, preTimer := none, thinkTimers := [] }
        [SessionEvent.click (Command.move 1 0), SessionEvent.click (Command.move 1 0),
          SessionEvent.autoplay AutoplayEvent.toggle,
          SessionEvent.autoplay AutoplayEvent.preFires,
          SessionEvent.click (Command.move 1 0),
          SessionEvent.autoplay AutoplayEvent.thinkFires]).map
      (fun a => (a.game.gameState, a.game.playerPosition, a.game.score)) =
      some (PLAYING, { x := 3, y := 0 }, -4) := by
  refine ⟨?_, ?_, ?_, ?_, ?_, ?_, ?_⟩ <;> decide

set_option maxRecDepth 100000 in
/-- C13, failing trace. On the grid of `besideWumpusDraws` the Wumpus is at
(1,0), right of the start. Autoplay is switched on and the arrow is shot to
the Right: the Wumpus is killed, (1,0) is Empty and the score is 490. The shot
changes no dependency of the effect, so its timer still runs the `runAI` of
the render before the shot. The timer fires, the timeout of `runAI` fires and
calls `movePlayer(1, 0)`, which reads the grid of that render: the player is
moved to (1,0), a cell that holds Empty, and the status is set to Lost with
the message of the Wumpus, at a score of 489. -/
theorem stale_move_after_shot :
    ((resetGame 4 initialState besideWumpusDraws).bind (fun s =>
        sessionRun 4 4 { game := s, preTimer := none, thinkTimers := [] }
          [SessionEvent.autoplay AutoplayEvent.toggle,
            SessionEvent.click (Command.shoot 1 0)])).map
      (fun a => (a.game.gameState, a.game.playerPosition, a.game.score,
        cellAt a.game.world (a.game.playerPosition.x + 1) (a.game.playerPosition.y + 0))) =
      some (PLAYING, { x := 0, y := 0 }, 490, some EMPTY) ∧
    ((resetGame 4 initialState besideWumpusDraws).bind (fun s =>
        sessionRun 4 4 { game := s, preTimer := none, thinkTimers := [] }
          [SessionEvent.autoplay AutoplayEvent.toggle,
            SessionEvent.click (Command.shoot 1 0)])).map
      (fun a => (a.preTimer.map (fun c => cellAt c.world 1 0), a.game.hasArrow,
        a.game.message)) =
      some (some (some WUMPUS), false, "You killed the Wumpus!") ∧
    ((resetGame 4 initialState besideWumpusDraws).bind (fun s =>
        sessionRun 4 4 { game := s, preTimer := none, thinkTimers := [] }
          [SessionEvent.autoplay AutoplayEvent.toggle,
            SessionEvent.click (Command.shoot 1 0),
            SessionEvent.autoplay AutoplayEvent.preFires])).map
      (fun a => a.thinkTimers.map (fun c => (bestMove 4 c).map (fun m => (m.dx, m.dy)))) =
      some [some (1, 0)] ∧
    ((resetGame 4 initialState besideWumpusDraws).bind (fun s =>
        sessionRun 4 4 { game := s, preTimer := none, thinkTimers := [] }
          [SessionEvent.autoplay AutoplayEvent.toggle,
            SessionEvent.click (Command.shoot 1 0),
            SessionEvent.autoplay AutoplayEvent.preFires,
            SessionEvent.autoplay AutoplayEvent.thinkFires])).map
      (fun a => (a.game.gameState, a.game.playerPosition, a.game.score,
        cellAt a.game.world a.game.playerPosition.x a.game.playerPosition.y)) =
      some (LOST, { x := 1, y := 0 }, 489, some EMPTY) ∧
    ((resetGame 4 initialState besideWumpusDraws).bind (fun s =>
        sessionRun 4 4 { game := s, preTimer := none, thinkTimers := [] }
          [SessionEvent.autoplay AutoplayEvent.toggle,
            SessionEvent.click (Command.shoot 1 0),
            SessionEvent.autoplay AutoplayEvent.preFires,
            SessionEvent.autoplay AutoplayEvent.thinkFires])).map
      (fun a => (a.game.visited, a.game.message)) =
      some ([(0, 0), (1, 0)], "You were eaten by the Wumpus! Game over.") := by
  refine ⟨?_, ?_, ?_, ?_, ?_⟩ <;> decide

set_option maxRecDepth 100000 in
/-- C20, failing traces. On the sample grid autoplay is switched on, the timer
of the effect fires and `runAI` starts its timeout; then the game is reset.
The state after the reset is a reset state, and the one call that follows it
is the `movePlayer(1, 0)` of the timeout, which reads the grid of the render
before the reset. On the grid of `cornerDraws` it leaves the player on the Pit
at (1,0) with the status Playing; on the grid of `besideWumpusDraws` it leaves
the player on the Wumpus at (1,0) with the status Playing. -/
theorem stale_move_onto_hazard :
    (sessionRun 4 4 { game := sampleState, preTimer := none, thinkTimers := [] }
        [SessionEvent.autoplay AutoplayEvent.toggle,
          SessionEvent.autoplay AutoplayEvent.preFires,
          SessionEvent.autoplay (AutoplayEvent.reset cornerDraws)]).map
      (fun a => a.game) = resetGame 4 sampleState cornerDraws ∧
    (sessionRun 4 4 { game := sampleState, preTimer := none, thinkTimers := [] }
        [SessionEvent.autoplay AutoplayEvent.toggle,
          SessionEvent.autoplay AutoplayEvent.preFires,
          SessionEvent.autoplay (AutoplayEvent.reset cornerDraws),
          SessionEvent.autoplay AutoplayEvent.thinkFires]).map
      (fun a => (a.game.gameState, a.game.playerPosition,
        cellAt a.game.world a.game.playerPosition.x a.game.playerPosition.y)) =
      some (PLAYING, { x := 1, y := 0 }, some PIT) ∧
    (sessionRun 4 4 { game := sampleState, preTimer := none, thinkTimers := [] }
        [SessionEvent.autoplay AutoplayEvent.toggle,
          SessionEvent.autoplay AutoplayEvent.preFires,
          SessionEvent.autoplay (AutoplayEvent.reset besideWumpusDraws)]).map
      (fun a => a.game) = resetGame 4 sampleState besideWumpusDraws ∧
    (sessionRun 4 4 { game := sampleState, preTimer := none, thinkTimers := [] }
        [SessionEvent.autoplay AutoplayEvent.toggle,
          SessionEvent.autoplay AutoplayEvent.preFires,
          SessionEvent.autoplay (AutoplayEvent.reset besideWumpusDraws),
          SessionEvent.autoplay AutoplayEvent.thinkFires]).map
      (fun a => (a.game.gameState, a.game.playerPosition,
        cellAt a.game.world a.game.playerPosition.x a.game.playerPosition.y)) =
      some (PLAYING, { x := 1, y := 0 }, some WUMPUS) := by
  refine ⟨?_, ?_, ?_, ?_⟩ <;> decide

end WumpusWorld
